import Mathlib

/-!
# AGFlatPanel: a shallow embedding of the firmware and its verified properties

The firmware (`src/src/main.cpp`, `src/include/agflatpanel.h`) emulates an
Alnitak flat panel.  Its global variables become the fields of `State`; the
hardware it talks to (serial port, PWM pin, mode LED, display, stepper) is
recorded in the same structure as input buffer and output logs.  Every
function of `main.cpp` becomes a pure function on `State`.

Modelling conventions
* `int` is the 16-bit two's complement integer of the AVR target: every
  arithmetic result stored in an `int` goes through `wrapInt`.
* `float` angles are rational numbers (`ℚ`).  `handleMotor` takes the sums of
  angles as exact, the step being `360 / STEPS`: this is how the claims on
  exact angles read the code.  `handleMotorFloat` rounds each sum to binary32, as
  the firmware does (`double` has the 32 bits of `float` on the AVR target).
* `char` is `Char`; the serial receive buffer is a `List Char` of any length
  whose length is `Serial.available()`.  No byte arrives while a function
  runs, so a read on an empty buffer is the time-out of `Stream::timedRead`.
* `sprintf` produces the whole formatted text, also when it is longer than the
  ten bytes of `temp`; the C string `data` ends at the latest with the 20-byte
  buffer `str`.
* `Serial.println` ends the line with carriage return and line feed, as the
  Arduino core does.
* Encoder interrupts are taken between two passes of `loop`.
-/

namespace AGFlatPanel

/-! ## Enumerations of `agflatpanel.h` -/

inductive shutterStatuses where
  | NEITHER_OPEN_NOR_CLOSED
  | CLOSED
  | OPEN
  | TIMED_OUT
  deriving DecidableEq, Repr

inductive devices where
  | FLAT_MAN_L
  | FLAT_MAN_XL
  | FLAT_MAN
  | FLIP_FLAT
  deriving DecidableEq, Repr

inductive motorStatuses where
  | STOPPED
  | RUNNING
  deriving DecidableEq, Repr

inductive lightStatuses where
  | OFF
  | ON
  deriving DecidableEq, Repr

inductive motorDirections where
  | OPENING
  | CLOSING
  | NONE
  deriving DecidableEq, Repr

inductive panelMode where
  | ASCOM
  | MANUAL
  deriving DecidableEq, Repr

inductive interfaceProtocol where
  | V4
  | LEGACY
  deriving DecidableEq, Repr

open shutterStatuses devices motorStatuses lightStatuses motorDirections panelMode
  interfaceProtocol

/-- Integer value of a `shutterStatuses` enumerator. -/
def shutterStatuses.toInt : shutterStatuses → Int
  | NEITHER_OPEN_NOR_CLOSED => 0
  | CLOSED => 1
  | OPEN => 2
  | TIMED_OUT => 3

/-- Integer value of a `devices` enumerator. -/
def devices.toInt : devices → Int
  | FLAT_MAN_L => 10
  | FLAT_MAN_XL => 15
  | FLAT_MAN => 19
  | FLIP_FLAT => 99

/-- Integer value of a `motorStatuses` enumerator. -/
def motorStatuses.toInt : motorStatuses → Int
  | STOPPED => 0
  | RUNNING => 1

/-- Integer value of a `lightStatuses` enumerator. -/
def lightStatuses.toInt : lightStatuses → Int
  | OFF => 0
  | ON => 1

/-- Steps per revolution of the motor (`#define STEPS 2038`). -/
def STEPS : Nat := 2038

/-- The increment in brightness for each turn of the encoder
(`#define MANUAL_INCREMENT 1`). -/
def MANUAL_INCREMENT : Int := 1

/-! ## Machine integers and the C library -/

/-- Value kept by a 16-bit two's complement `int`. -/
def wrapInt (x : Int) : Int := (x + 32768) % 65536 - 32768

/-- Level read by `digitalRead`: `1` for HIGH, `0` for LOW. -/
def pinLevel (b : Bool) : Int := if b then 1 else 0

/-- C `isspace` in the "C" locale. -/
def isspace (c : Char) : Bool :=
  c = ' ' || c = '\t' || c = '\n' || c = '\r' || c.toNat = 11 || c.toNat = 12

/-- C `isdigit`. -/
def isdigit (c : Char) : Bool := 48 ≤ c.toNat && c.toNat ≤ 57

/-- Digit loop of `atoi`: consumes the leading decimal digits. -/
def atoiDigits : List Char → Int → Int
  | [], acc => acc
  | c :: cs, acc => if isdigit c then atoiDigits cs (acc * 10 + (c.toNat - 48 : Nat)) else acc

/-- C `atoi`: optional white space, optional sign, decimal digits; the result
is an `int`. -/
def atoi (s : List Char) : Int :=
  match s.dropWhile isspace with
  | '-' :: cs => wrapInt (- atoiDigits cs 0)
  | '+' :: cs => wrapInt (atoiDigits cs 0)
  | cs => wrapInt (atoiDigits cs 0)

/-- Conversion `%d` of `printf` for a non-negative number. -/
def natDigits (n : Nat) : List Char := Nat.toDigits 10 n

/-- Conversion `%d` of `printf`. -/
def fmtD (n : Int) : List Char :=
  if n < 0 then '-' :: natDigits n.natAbs else natDigits n.natAbs

/-- Conversion `%03d` of `printf`: zero padding to a field of width three, the
sign counted in the width. -/
def fmt03D (n : Int) : List Char :=
  if n < 0 then
    '-' :: (List.replicate (2 - (natDigits n.natAbs).length) '0' ++ natDigits n.natAbs)
  else
    List.replicate (3 - (natDigits n.natAbs).length) '0' ++ natDigits n.natAbs

/-- Arduino `Stream::readBytesUntil(terminator, buffer, length)` on the receive
buffer: the bytes stored in `buffer` and the bytes left in the receive buffer.
The terminator is consumed and not stored; an empty receive buffer ends the
read (time-out). -/
def readBytesUntil (terminator : Char) : Nat → List Char → List Char × List Char
  | 0, input => ([], input)
  | _ + 1, [] => ([], [])
  | n + 1, c :: cs =>
    if c = terminator then ([], cs)
    else ((c :: (readBytesUntil terminator n cs).1), (readBytesUntil terminator n cs).2)

/-- Character `*cmd` with `cmd = str + 1`, `str` zero-filled before the read. -/
def cmdChar (str : List Char) : Char := str.getD 1 (Char.ofNat 0)

/-- C string `data = str + 2` of the 20-byte buffer `str`: it ends at the first
NUL, at the latest at the end of the buffer. -/
def dataString (str : List Char) : List Char := (str.drop 2).takeWhile (fun c => c ≠ Char.ofNat 0)

/-! ## Program state -/

/-- Global variables of `main.cpp`, the serial receive buffer and the logs of
what the firmware wrote to its peripherals. -/
structure State where
  encoderPos : Int
  brightness : Int
  lastBrightness : Int
  mode : panelMode
  lastMode : panelMode
  lastButtonState : Int
  valRotary : Int
  lastValRotary : Int
  protocol : interfaceProtocol
  deviceId : devices
  motorStatus : motorStatuses
  lightStatus : lightStatuses
  coverStatus : shutterStatuses
  motorDirection : motorDirections
  targetAngle : ℚ
  currentAngle : ℚ
  /-- bytes waiting in the serial receive buffer -/
  serialIn : List Char
  /-- bytes written by `Serial.write` and `Serial.println` -/
  serialOut : List Char
  /-- levels passed to `analogWrite(FLAT_PANEL_PWM_PIN, level)` -/
  pwmOut : List Int
  /-- values passed to `digitalWrite(MANUAL_LED_PIN, value)` -/
  ledOut : List Int
  /-- arguments of the calls of `updateDisplay` -/
  displayOut : List (panelMode × Int × interfaceProtocol)
  /-- arguments of the calls of `stepper.step` -/
  stepperOut : List Int

/-- Initial values of the globals, nothing received and nothing written. -/
def initialState : State where
  encoderPos := 0
  brightness := 0
  lastBrightness := 0
  mode := ASCOM
  lastMode := ASCOM
  lastButtonState := -1
  valRotary := 0
  lastValRotary := 0
  protocol := LEGACY
  deviceId := FLAT_MAN
  motorStatus := STOPPED
  lightStatus := OFF
  coverStatus := NEITHER_OPEN_NOR_CLOSED
  motorDirection := NONE
  targetAngle := 0
  currentAngle := 0
  serialIn := []
  serialOut := []
  pwmOut := []
  ledOut := []
  displayOut := []
  stepperOut := []

/-- Bytes arriving on the serial line are appended to the receive buffer. -/
def receive (s : State) (bytes : List Char) : State :=
  { s with serialIn := s.serialIn ++ bytes }

/-- Call `updateDisplay(mode, brightness, protocol)` of `display.cpp`. -/
def updateDisplay (s : State) (m : panelMode) (b : Int) (p : interfaceProtocol) : State :=
  { s with displayOut := s.displayOut ++ [(m, b, p)] }

/-- Call `Serial.write(temp)`. -/
def serialWrite (s : State) (temp : List Char) : State :=
  { s with serialOut := s.serialOut ++ temp }

/-- Call `Serial.println(temp)`: the text followed by carriage return and line
feed, as `Print::println` of the Arduino core writes them. -/
def serialPrintln (s : State) (temp : List Char) : State :=
  { s with serialOut := s.serialOut ++ temp ++ ['\r', '\n'] }

/-! ## The functions of `main.cpp` -/

/-- Function `setState` of `main.cpp`. -/
def setState (s : State) (mode : panelMode) : State :=
  if mode ≠ s.lastMode then
    let s1 : State := { s with ledOut := s.ledOut ++ [if mode = ASCOM then 0 else 1] }
    let s2 := updateDisplay s1 mode s1.brightness s1.protocol
    { s2 with lastMode := mode }
  else s

/-- Function `setBrightness` of `main.cpp`. -/
def setBrightness (s : State) (level : Int) : State :=
  if level ≠ s.lastBrightness then
    let s1 : State := { s with pwmOut := s.pwmOut ++ [level] }
    let s2 := updateDisplay s1 s1.mode level s1.protocol
    { s2 with lastBrightness := level }
  else s

/-- Function `setShutter` of `main.cpp`. -/
def setShutter (s : State) (val : shutterStatuses) : State :=
  if val = OPEN ∧ s.coverStatus ≠ OPEN then
    { s with motorDirection := OPENING, targetAngle := 90 }
  else if val = CLOSED ∧ s.coverStatus ≠ CLOSED then
    { s with motorDirection := CLOSING, targetAngle := 0 }
  else s

/-- Function `handleMotor` of `main.cpp`, the sums of the angles taken as exact
rationals; `handleMotorFloat` is the same function with the rounding of the
type `float`. -/
def handleMotor (s : State) : State :=
  if s.currentAngle < s.targetAngle ∧ s.motorDirection = OPENING then
    let s1 : State := { s with
      motorStatus := RUNNING
      coverStatus := NEITHER_OPEN_NOR_CLOSED
      stepperOut := s.stepperOut ++ [1]
      currentAngle := s.currentAngle + 360 / (STEPS : ℚ) }
    if s1.currentAngle ≥ s1.targetAngle then
      { s1 with motorStatus := STOPPED, motorDirection := NONE, coverStatus := OPEN }
    else s1
  else if s.currentAngle > s.targetAngle ∧ s.motorDirection = CLOSING then
    let s1 : State := { s with
      motorStatus := RUNNING
      coverStatus := NEITHER_OPEN_NOR_CLOSED
      stepperOut := s.stepperOut ++ [-1]
      currentAngle := s.currentAngle - 360 / (STEPS : ℚ) }
    if s1.currentAngle ≤ s1.targetAngle then
      { s1 with motorStatus := STOPPED, motorDirection := NONE, coverStatus := CLOSED }
    else s1
  else s

/-- The `switch (*cmd)` of `version4`. -/
def dispatch4 (s : State) (cmd : Char) (data : List Char) : State :=
  match cmd with
  | 'P' => serialWrite s ("*P".toList ++ fmtD s.deviceId.toInt ++ "OOO\n".toList)
  | 'O' =>
    let temp := "*O".toList ++ fmtD s.deviceId.toInt ++ "OOO\n".toList
    serialWrite (setShutter s OPEN) temp
  | 'C' =>
    let temp := "*C".toList ++ fmtD s.deviceId.toInt ++ "OOO\n".toList
    serialWrite (setShutter s CLOSED) temp
  | 'L' =>
    let s1 := serialWrite s ("*L".toList ++ fmtD s.deviceId.toInt ++ "OOO\n".toList)
    let s2 : State := { s1 with lightStatus := ON }
    setBrightness s2 s2.brightness
  | 'D' =>
    let s1 := serialWrite s ("*D".toList ++ fmtD s.deviceId.toInt ++ "OOO\n".toList)
    let s2 : State := { s1 with lightStatus := OFF }
    setBrightness s2 0
  | 'B' =>
    let s1 : State := { s with brightness := atoi data }
    let s2 := if s1.lightStatus = ON then setBrightness s1 s1.brightness else s1
    serialWrite s2 ("*B".toList ++ fmtD s2.deviceId.toInt ++ fmt03D s2.brightness ++ "\n".toList)
  | 'J' =>
    serialWrite s ("*J".toList ++ fmtD s.deviceId.toInt ++ fmt03D s.brightness ++ "\n".toList)
  | 'S' =>
    serialWrite s ("*S".toList ++ fmtD s.deviceId.toInt ++ fmtD s.motorStatus.toInt
      ++ fmtD s.lightStatus.toInt ++ fmtD s.coverStatus.toInt ++ "\n".toList)
  | 'V' => serialWrite s ("*V".toList ++ fmtD s.deviceId.toInt ++ "003\n".toList)
  | _ => s

/-- Function `version4` of `main.cpp` (the version 4 protocol). -/
def version4 (s : State) : State :=
  if s.serialIn.length ≥ 6 then
    let s1 := setState { s with mode := ASCOM } ASCOM
    let r := readBytesUntil '\r' 20 s1.serialIn
    let s2 : State := { s1 with serialIn := r.2 }
    let s3 := dispatch4 s2 (cmdChar r.1) (dataString r.1)
    { s3 with serialIn := [] }
  else s

/-- The `switch (*cmd)` of `version1`. -/
def dispatch1 (s : State) (cmd : Char) (data : List Char) : State :=
  match cmd with
  | 'P' => serialPrintln s ("*P".toList ++ fmtD s.deviceId.toInt ++ "000".toList)
  | 'O' =>
    let temp := "*O".toList ++ fmtD s.deviceId.toInt ++ "000".toList
    serialPrintln (setShutter s OPEN) temp
  | 'C' =>
    let temp := "*C".toList ++ fmtD s.deviceId.toInt ++ "000".toList
    serialPrintln (setShutter s CLOSED) temp
  | 'L' =>
    let s1 := serialPrintln s ("*L".toList ++ fmtD s.deviceId.toInt ++ "000".toList)
    let s2 : State := { s1 with lightStatus := ON }
    setBrightness s2 s2.brightness
  | 'D' =>
    let s1 := serialPrintln s ("*D".toList ++ fmtD s.deviceId.toInt ++ "000".toList)
    let s2 : State := { s1 with lightStatus := OFF }
    setBrightness s2 0
  | 'B' =>
    let s1 : State := { s with brightness := atoi data }
    let s2 := if s1.lightStatus = ON then setBrightness s1 s1.brightness else s1
    serialPrintln s2 ("*B".toList ++ fmtD s2.deviceId.toInt ++ fmt03D s2.brightness)
  | 'J' =>
    serialPrintln s ("*J".toList ++ fmtD s.deviceId.toInt ++ fmt03D s.brightness)
  | 'S' =>
    serialPrintln s ("*S".toList ++ fmtD s.deviceId.toInt ++ fmtD s.motorStatus.toInt
      ++ fmtD s.lightStatus.toInt ++ fmtD s.coverStatus.toInt)
  | 'V' => serialPrintln s ("*V".toList ++ fmtD s.deviceId.toInt ++ "001".toList)
  | _ => s

/-- Function `version1` of `main.cpp` (the legacy protocol). -/
def version1 (s : State) : State :=
  if s.serialIn.length ≥ 6 then
    let s1 := setState { s with mode := ASCOM } ASCOM
    let r := readBytesUntil '\n' 20 s1.serialIn
    let s2 : State := { s1 with serialIn := r.2 }
    let s3 := dispatch1 s2 (cmdChar r.1) (dataString r.1)
    { s3 with serialIn := [] }
  else s

/-- Function `processSerial` of `main.cpp`; `switch` is the level read on
`PROTOCOL_SWITCH`. -/
def processSerial (s : State) (switch : Bool) : State :=
  if pinLevel switch = 1 then version1 s
  else handleMotor (version4 s)

/-- Function `processEncoder` of `main.cpp`; `button` is the level read on
`BRIGHTNESS_ENCODER_BUTTON`. -/
def processEncoder (s : State) (button : Bool) : State :=
  let buttonState := pinLevel button
  let s1 : State := if s.lastButtonState = -1 then { s with lastButtonState := buttonState } else s
  let s2 : State :=
    if buttonState = 1 then
      if buttonState ≠ s1.lastButtonState then
        let t1 : State := { s1 with mode := if s1.mode = ASCOM then MANUAL else ASCOM }
        let t2 := setState t1 t1.mode
        if t2.mode = ASCOM then setBrightness t2 0 else setBrightness t2 t2.brightness
      else s1
    else s1
  let s3 : State := { s2 with lastButtonState := buttonState }
  let s4 : State :=
    if s3.valRotary > s3.lastValRotary then
      let t1 : State := { s3 with brightness := wrapInt (s3.brightness - MANUAL_INCREMENT) }
      let t2 : State := if t1.brightness < 0 then { t1 with brightness := 0 } else t1
      setBrightness t2 t2.brightness
    else s3
  let s5 : State :=
    if s4.valRotary < s4.lastValRotary then
      let t1 : State := { s4 with brightness := wrapInt (s4.brightness + MANUAL_INCREMENT) }
      let t2 : State := if t1.brightness > 255 then { t1 with brightness := 255 } else t1
      setBrightness t2 t2.brightness
    else s4
  { s5 with lastValRotary := s5.valRotary }

/-- Function `doEncoder` of `main.cpp`, the encoder interrupt; `same` tells
whether pins A and B read the same level.  The quotient `encoderPos / 2.5` is
truncated towards zero when it is stored in the `int` `valRotary`. -/
def doEncoder (s : State) (same : Bool) : State :=
  if s.mode = MANUAL then
    let s1 : State :=
      { s with encoderPos := if same then wrapInt (s.encoderPos + 1) else wrapInt (s.encoderPos - 1) }
    { s1 with valRotary := Int.tdiv (2 * s1.encoderPos) 5 }
  else s

/-- What the outside world does during one pass of `loop`. -/
structure PassInput where
  /-- encoder interrupts taken before the pass, each with "pin A = pin B" -/
  encoder : List Bool
  /-- bytes that arrived on the serial line before the pass -/
  arrived : List Char
  /-- level of the encoder button -/
  button : Bool
  /-- level of the protocol switch when `processSerial` reads it -/
  switch : Bool
  /-- level of the protocol switch when `loop` reads it at its end -/
  switchEnd : Bool

/-- Function `loop` of `main.cpp`: one pass of the main loop. -/
def loop (s : State) (i : PassInput) : State :=
  let s1 := receive (i.encoder.foldl doEncoder s) i.arrived
  let s2 := processEncoder s1 i.button
  let s3 := processSerial s2 i.switch
  { s3 with protocol := if pinLevel i.switchEnd = 1 then LEGACY else V4 }

/-- Function `setup` of `main.cpp`; `switch` is the level of the protocol
switch. -/
def setup (switch : Bool) : State :=
  let s1 : State := { initialState with protocol := if pinLevel switch = 1 then LEGACY else V4 }
  let s2 := updateDisplay s1 s1.mode s1.brightness s1.protocol
  let s3 := setBrightness s2 s2.brightness
  setState s3 s3.mode

/-! ## Vocabulary of the specification -/

/-- Command characters that have a `case` in the `switch` of `version4` and
of `version1`. -/
def recognized : List Char := ['P', 'O', 'C', 'L', 'D', 'B', 'J', 'S', 'V']

/-- Content of `str` after the read of `version4`. -/
def frame4 (s : State) : List Char := (readBytesUntil '\r' 20 s.serialIn).1

/-- Content of `str` after the read of `version1`. -/
def frame1 (s : State) : List Char := (readBytesUntil '\n' 20 s.serialIn).1

/-- Angle of one motor step, `360.0 / STEPS` degrees. -/
def stepAngle : ℚ := 360 / (STEPS : ℚ)

/-- Shutter and motor part of the state. -/
def shutterView (s : State) : shutterStatuses × motorDirections × ℚ × ℚ × motorStatuses :=
  (s.coverStatus, s.motorDirection, s.targetAngle, s.currentAngle, s.motorStatus)

/-- States the firmware can be in: the start-up states, closed under the
arrival of serial bytes, encoder interrupts, reads of the protocol switch and
calls of `processEncoder`, `version1`, `version4` and `handleMotor` in any
order. -/
inductive Reachable : State → Prop
  | boot : Reachable initialState
  | setup (switch : Bool) : Reachable (setup switch)
  | receive (s : State) (bytes : List Char) : Reachable s → Reachable (receive s bytes)
  | doEncoder (s : State) (same : Bool) : Reachable s → Reachable (doEncoder s same)
  | processEncoder (s : State) (button : Bool) :
      Reachable s → Reachable (processEncoder s button)
  | version1 (s : State) : Reachable s → Reachable (version1 s)
  | version4 (s : State) : Reachable s → Reachable (version4 s)
  | handleMotor (s : State) : Reachable s → Reachable (handleMotor s)
  | readSwitch (s : State) (p : interfaceProtocol) :
      Reachable s → Reachable { s with protocol := p }

/-- States at the end of `setup` and at the end of each pass of `loop`. -/
inductive LoopReach : State → Prop
  | setup (switch : Bool) : LoopReach (setup switch)
  | pass (s : State) (i : PassInput) : LoopReach s → LoopReach (loop s i)

/-- Passes of `processSerial` with the protocol switch on V4: before each
pass the listed bytes arrive on the serial line. -/
def runV4 (s : State) : List (List Char) → State
  | [] => s
  | bytes :: rest => runV4 (processSerial (receive s bytes) false) rest

/-- Invariant of the shutter: the angle is a whole number `k ≤ 510` of motor
steps, the cover is OPEN exactly at `k = 510` and CLOSED only at `k = 0`, the
target is the end the motor is driven to, and the motor only runs while a
direction is set and the cover is reported as moving. -/
def ShutterInv (s : State) : Prop :=
  ∃ k : ℕ, k ≤ 510 ∧ s.currentAngle = k * stepAngle ∧
    (s.coverStatus = OPEN ↔ k = 510) ∧
    (s.coverStatus = CLOSED → k = 0) ∧
    s.coverStatus ≠ TIMED_OUT ∧
    (s.motorDirection = OPENING → s.targetAngle = 90 ∧ s.coverStatus ≠ OPEN) ∧
    (s.motorDirection = CLOSING → s.targetAngle = 0 ∧ s.coverStatus ≠ CLOSED) ∧
    (s.motorDirection = NONE →
      (s.coverStatus = OPEN → s.targetAngle = 90) ∧ (s.coverStatus ≠ OPEN → s.targetAngle = 0)) ∧
    (s.motorStatus = RUNNING →
      s.motorDirection ≠ NONE ∧ s.coverStatus = NEITHER_OPEN_NOR_CLOSED)

/-- Relation between the state `s` before and the state `t` after a piece of
code that leaves the mode alone: mode, last notified mode, LED and protocol are
the same, and each level `w` written to the PWM pin comes with one refresh of
the display showing that level. -/
def BrightnessLog (s t : State) : Prop :=
  t.mode = s.mode ∧ t.lastMode = s.lastMode ∧ t.ledOut = s.ledOut ∧ t.protocol = s.protocol ∧
  ∃ w : List Int, t.pwmOut = s.pwmOut ++ w ∧
    t.displayOut = s.displayOut ++ w.map (fun level => (s.mode, level, s.protocol))

/-- Relation between the state `s` before and the state `t` after a decoded
frame: the mode is ASCOM, the mode LED is written (with 0) only if the mode
last notified was not ASCOM, and the display is refreshed once for the mode in
that case only, its other refreshes being those of the levels `w` written to
the PWM pin. -/
def ForcedToAscom (s t : State) : Prop :=
  t.mode = ASCOM ∧ t.lastMode = ASCOM ∧
  t.ledOut = s.ledOut ++ (if s.lastMode = ASCOM then [] else [0]) ∧
  ∃ w : List Int, t.pwmOut = s.pwmOut ++ w ∧
    t.displayOut = s.displayOut
      ++ (if s.lastMode = ASCOM then [] else [(ASCOM, s.brightness, s.protocol)])
      ++ w.map (fun level => (ASCOM, level, s.protocol))

/-- Relation between the state `s` before and the state `t` after a frame
that is ignored: no response byte, no write to the PWM pin or the stepper, and
every variable other than `mode` and `lastMode` keeps its value. -/
def Untouched (s t : State) : Prop :=
  t.serialOut = s.serialOut ∧ t.brightness = s.brightness ∧ t.lightStatus = s.lightStatus ∧
  t.coverStatus = s.coverStatus ∧ t.motorDirection = s.motorDirection ∧
  t.targetAngle = s.targetAngle ∧ t.lastBrightness = s.lastBrightness ∧ t.pwmOut = s.pwmOut ∧
  t.currentAngle = s.currentAngle ∧ t.motorStatus = s.motorStatus ∧
  t.stepperOut = s.stepperOut ∧ t.deviceId = s.deviceId ∧ t.protocol = s.protocol ∧
  t.encoderPos = s.encoderPos ∧ t.valRotary = s.valRotary ∧
  t.lastValRotary = s.lastValRotary ∧ t.lastButtonState = s.lastButtonState

/-- Input of a pass of `loop` with the protocol switch on V4, the encoder and
its button at rest, `bytes` arriving on the serial line. -/
def v4Pass (bytes : List Char) : PassInput where
  encoder := []
  arrived := bytes
  button := false
  switch := false
  switchEnd := false

/-- Input of a pass of `loop` with the protocol switch on LEGACY, the encoder
and its button at rest, `bytes` arriving on the serial line. -/
def legacyPass (bytes : List Char) : PassInput where
  encoder := []
  arrived := bytes
  button := false
  switch := true
  switchEnd := true

/-- Passes of `loop`, one for each input of the list. -/
def runLoop (s : State) : List PassInput → State
  | [] => s
  | i :: rest => runLoop (loop s i) rest

/-- State right after the Open command `>OOOO` of the V4 protocol has been
decoded in the initial state. -/
def openCommanded : State := version4 (receive initialState ">OOOO\r".toList)

/-- State after `setup` on V4, one pass of `loop` that receives the Open
command and 509 further passes that receive nothing. -/
def openedByLoop : State :=
  runLoop (setup false) (v4Pass ">OOOO\r".toList :: List.replicate 509 (v4Pass []))

/-- Resting closed state: the initial state with the cover reported CLOSED. -/
def closedRest : State := { initialState with coverStatus := CLOSED }

/-- Manual mode with a Ping frame of the V4 protocol in the receive buffer. -/
def manualWithPing : State :=
  receive { initialState with mode := MANUAL, lastMode := MANUAL } ">POOO\r".toList

/-- Initial state with a frame of unknown command `X` in the receive buffer. -/
def unknownFrame : State := receive initialState ">X000\r".toList

/-- Initial state with six bytes and no terminator in the receive buffer. -/
def unterminatedFrame : State := receive initialState ">B999x".toList

/-- First half of `processEncoder`, the handling of the button, with the
level `buttonState` read on the button pin. -/
def buttonPart (s : State) (buttonState : Int) : State :=
  let s1 : State := if s.lastButtonState = -1 then { s with lastButtonState := buttonState } else s
  let s2 : State :=
    if buttonState = 1 then
      if buttonState ≠ s1.lastButtonState then
        let t1 : State := { s1 with mode := if s1.mode = ASCOM then MANUAL else ASCOM }
        let t2 := setState t1 t1.mode
        if t2.mode = ASCOM then setBrightness t2 0 else setBrightness t2 t2.brightness
      else s1
    else s1
  { s2 with lastButtonState := buttonState }

/-- Second half of `processEncoder`, the handling of the rotary value. -/
def rotaryPart (s3 : State) : State :=
  let s4 : State :=
    if s3.valRotary > s3.lastValRotary then
      let t1 : State := { s3 with brightness := wrapInt (s3.brightness - MANUAL_INCREMENT) }
      let t2 : State := if t1.brightness < 0 then { t1 with brightness := 0 } else t1
      setBrightness t2 t2.brightness
    else s3
  let s5 : State :=
    if s4.valRotary < s4.lastValRotary then
      let t1 : State := { s4 with brightness := wrapInt (s4.brightness + MANUAL_INCREMENT) }
      let t2 : State := if t1.brightness > 255 then { t1 with brightness := 255 } else t1
      setBrightness t2 t2.brightness
    else s4
  { s5 with lastValRotary := s5.valRotary }

/-- The button fires an edge in `processEncoder`: the level read is 1, a level
has been sampled before, and it was not 1. -/
def buttonEdge (s : State) (button : Bool) : Prop :=
  pinLevel button = 1 ∧ s.lastButtonState ≠ -1 ∧ pinLevel button ≠ s.lastButtonState

/-- Part of the state that only `handleMotor` changes: cover status, angle,
motor status and the steps sent to the stepper. -/
def motionView (s : State) : shutterStatuses × ℚ × motorStatuses × List Int :=
  (s.coverStatus, s.currentAngle, s.motorStatus, s.stepperOut)

/-- State after the frame `>B128` of the V4 protocol has been decoded in the
initial state: the brightness is 128. -/
def brightness128 : State := version4 (receive initialState ">B128\r".toList)

/-- Character of the decimal digit `d`. -/
def digitChar (d : Nat) : Char := Char.ofNat (48 + d)

/-- The number `n` written as three decimal digits, zero-padded. -/
def threeDigits (n : Nat) : List Char :=
  [digitChar (n / 100), digitChar (n / 10 % 10), digitChar (n % 10)]

/-- State reached as follows: the button is sampled at 0 and then at 1, which
enters MANUAL mode; three encoder interrupts with pins A and B at different
levels bring `valRotary` to -1; then a Ping frame of the V4 protocol forces
ASCOM mode before `processEncoder` has run again. -/
def pendingInAscom : State :=
  version4 (receive
    (doEncoder (doEncoder (doEncoder
      (processEncoder (processEncoder initialState false) true) false) false) false)
    ">POOO\r".toList)

/-- State after `version4` has handled the eight bytes `>B10000\r` in the
initial state. -/
def brightness10000 : State := version4 (receive initialState ">B10000\r".toList)

/-- State after `version1` has handled the nine bytes `>B-32768\n` in the
initial state. -/
def brightnessLowest : State := version1 (receive initialState ">B-32768\n".toList)

/-- Bytes put on the serial line between the state `s` and the later state `t`. -/
def written (s t : State) : List Char := t.serialOut.drop s.serialOut.length

/-- A frame of six bytes with the terminator of the dialect at index 5. -/
@[reducible]
def wellFormed (terminator : Char) (f : List Char) : Prop :=
  f.length = 6 ∧ f.getD 5 'x' = terminator

/-- Response of the V4 protocol to the recognized command `c` with payload `d`,
as the comments of the cases of `version4` give it: `*`, the command letter,
the device identifier, three characters and a line feed. -/
def response4 (s : State) (c : Char) (d : List Char) : List Char :=
  '*' :: c :: (fmtD s.deviceId.toInt ++
    (if c = 'B' then fmt03D (atoi d)
      else if c = 'J' then fmt03D s.brightness
      else if c = 'S' then
        fmtD s.motorStatus.toInt ++ fmtD s.lightStatus.toInt ++ fmtD s.coverStatus.toInt
      else if c = 'V' then "003".toList
      else "OOO".toList) ++ ['\n'])

/-- Response of the legacy protocol to the recognized command `c` with payload
`d`: `*`, the command letter, the device identifier and three characters,
followed by the line ending of `Serial.println`. -/
def response1 (s : State) (c : Char) (d : List Char) : List Char :=
  '*' :: c :: (fmtD s.deviceId.toInt ++
    (if c = 'B' then fmt03D (atoi d)
      else if c = 'J' then fmt03D s.brightness
      else if c = 'S' then
        fmtD s.motorStatus.toInt ++ fmtD s.lightStatus.toInt ++ fmtD s.coverStatus.toInt
      else if c = 'V' then "001".toList
      else "000".toList) ++ ['\r', '\n'])

/-- The state `t` shows the effect of the command `c` with payload `d` executed
in the state `s`: `O` and `C` act on the shutter as `setShutter` does, `L` and
`D` switch the light and apply the stored brightness or 0, `B` stores the
parsed number and applies it when the light is on. -/
def Executed (s t : State) (c : Char) (d : List Char) : Prop :=
  (c = 'O' → shutterView t = shutterView (setShutter s OPEN)) ∧
  (c = 'C' → shutterView t = shutterView (setShutter s CLOSED)) ∧
  (c = 'L' → t.lightStatus = ON ∧ t.lastBrightness = s.brightness ∧
    t.pwmOut = s.pwmOut ++ (if s.brightness = s.lastBrightness then [] else [s.brightness])) ∧
  (c = 'D' → t.lightStatus = OFF ∧ t.lastBrightness = 0 ∧
    t.pwmOut = s.pwmOut ++ (if 0 = s.lastBrightness then [] else [0])) ∧
  (c = 'B' → t.brightness = atoi d ∧
    (s.lightStatus = ON → t.lastBrightness = atoi d ∧
      t.pwmOut = s.pwmOut ++ (if atoi d = s.lastBrightness then [] else [atoi d])) ∧
    (s.lightStatus ≠ ON → t.lastBrightness = s.lastBrightness ∧ t.pwmOut = s.pwmOut))

/-! ## The arithmetic of `float`

The angles `currentAngle` and `targetAngle` are `float` variables.  The
definition `handleMotor` above takes their sums as exact, as the claims on the
exact angles do; the definitions below round each sum to binary32, as the
processor does. -/

/-- Number of low bits of the magnitude `m` that do not fit a significand of 24
bits: the halvings needed to bring `m` below `2 ^ 24`, at most `fuel`. -/
def excessBits : Nat → Nat → Nat
  | 0, _ => 0
  | fuel + 1, m => if m < 2 ^ 24 then 0 else excessBits fuel (m / 2) + 1

/-- Rounding of a magnitude, counted in units of `2 ^ (-149)`, to the nearest
magnitude of a binary32 number, ties to the even significand.  Every finite
binary32 number is a whole number of these units with at most 24 significant
bits and a magnitude below `2 ^ 277` units, so 254 halvings are enough; the
overflow to infinity is not modelled, the angles stay below 128. -/
def roundMagnitude (m : Nat) : Nat :=
  let sh := excessBits 254 m
  let q := m / 2 ^ sh
  let r := m % 2 ^ sh
  if 2 ^ sh < 2 * r ∨ (2 * r = 2 ^ sh ∧ q % 2 = 1) then (q + 1) * 2 ^ sh else q * 2 ^ sh

/-- Rounding of a whole number of units of `2 ^ (-149)` to the nearest binary32
number, ties to even. -/
def roundUnits (n : Int) : Int :=
  if n < 0 then -(roundMagnitude n.natAbs : Int) else (roundMagnitude n.natAbs : Int)

/-- Value stored in a `float` for the exact result `x` of an operation: the
nearest binary32 number.  Sums and differences of two binary32 numbers are whole
numbers of units of `2 ^ (-149)`, so the floor changes nothing for them. -/
def roundFloat (x : ℚ) : ℚ := (roundUnits ⌊x * 2 ^ 149⌋ : ℚ) / 2 ^ 149

/-- The constant `360.0 / STEPS` as the compiler stores it: on the AVR boards
the firmware is written for, `double` has the 32 bits of `float`. -/
def stepFloat : ℚ := roundFloat (360 / (STEPS : ℚ))

/-- Function `handleMotor` of `main.cpp` with the arithmetic of the type
`float` of `currentAngle`: each sum and difference is rounded to binary32.  The
comparisons of two `float` values are exact. -/
def handleMotorFloat (s : State) : State :=
  if s.currentAngle < s.targetAngle ∧ s.motorDirection = OPENING then
    let s1 : State := { s with
      motorStatus := RUNNING
      coverStatus := NEITHER_OPEN_NOR_CLOSED
      stepperOut := s.stepperOut ++ [1]
      currentAngle := roundFloat (s.currentAngle + stepFloat) }
    if s1.currentAngle ≥ s1.targetAngle then
      { s1 with motorStatus := STOPPED, motorDirection := NONE, coverStatus := OPEN }
    else s1
  else if s.currentAngle > s.targetAngle ∧ s.motorDirection = CLOSING then
    let s1 : State := { s with
      motorStatus := RUNNING
      coverStatus := NEITHER_OPEN_NOR_CLOSED
      stepperOut := s.stepperOut ++ [-1]
      currentAngle := roundFloat (s.currentAngle - stepFloat) }
    if s1.currentAngle ≤ s1.targetAngle then
      { s1 with motorStatus := STOPPED, motorDirection := NONE, coverStatus := CLOSED }
    else s1
  else s

/-- Function `processSerial` of `main.cpp` with the `float` arithmetic of
`handleMotorFloat`. -/
def processSerialFloat (s : State) (switch : Bool) : State :=
  if pinLevel switch = 1 then version1 s
  else handleMotorFloat (version4 s)

/-- Function `loop` of `main.cpp` with the `float` arithmetic of
`handleMotorFloat`. -/
def loopFloat (s : State) (i : PassInput) : State :=
  let s1 := receive (i.encoder.foldl doEncoder s) i.arrived
  let s2 := processEncoder s1 i.button
  let s3 := processSerialFloat s2 i.switch
  { s3 with protocol := if pinLevel i.switchEnd = 1 then LEGACY else V4 }

/-- Passes of `loopFloat`, one for each input of the list. -/
def runLoopFloat (s : State) : List PassInput → State
  | [] => s
  | i :: rest => runLoopFloat (loopFloat s i) rest

/-- States reached from the initial state by `setShutter(OPEN)`,
`setShutter(CLOSED)` and `handleMotorFloat` in any order. -/
inductive ShutterReachFloat : State → Prop
  | init : ShutterReachFloat initialState
  | setOpen (s : State) : ShutterReachFloat s → ShutterReachFloat (setShutter s OPEN)
  | setClosed (s : State) : ShutterReachFloat s → ShutterReachFloat (setShutter s CLOSED)
  | advance (s : State) : ShutterReachFloat s → ShutterReachFloat (handleMotorFloat s)

/-- Angle after `k` opening steps of `handleMotorFloat` from the angle `x`. -/
def upAngle (k : ℕ) (x : ℚ) : ℚ := (fun a => roundFloat (a + stepFloat))^[k] x

/-- Angle after `k` closing steps of `handleMotorFloat` from the angle `x`. -/
def downAngle (k : ℕ) (x : ℚ) : ℚ := (fun a => roundFloat (a - stepFloat))^[k] x

/-- Shutter and motor part of the state together with the steps sent to the
stepper. -/
def motorView (s : State) :
    (shutterStatuses × motorDirections × ℚ × ℚ × motorStatuses) × List Int :=
  (shutterView s, s.stepperOut)

/-- The stored step `stepFloat` in units of `2 ^ (-149)`. -/
def stepUnits : Int := 11854363 * 2 ^ 123

/-- Opening steps on angles given in units of `2 ^ (-149)`: the angle after `k`
steps from `n`, provided the angle before each step is below `bound`. -/
def climb (bound : Int) : Nat → Int → Option Int
  | 0, n => some n
  | k + 1, n => if n < bound then climb bound k (roundUnits (n + stepUnits)) else none

/-- Closing steps on angles given in units of `2 ^ (-149)`: the angle after `k`
steps from `n`, provided the angle before each step is above `bound`. -/
def descend (bound : Int) : Nat → Int → Option Int
  | 0, n => some n
  | k + 1, n => if bound < n then descend bound k (roundUnits (n - stepUnits)) else none

/-- State after `setShutter(OPEN)` in the initial state and 510 calls of
`handleMotorFloat`. -/
def openedFloat : State := handleMotorFloat^[510] (setShutter initialState OPEN)

/-- State after `setShutter(CLOSED)` with the cover opened and 511 calls of
`handleMotorFloat`. -/
def closedFloat : State := handleMotorFloat^[511] (setShutter openedFloat CLOSED)

/-- Resting open state of the firmware computing in binary32: the cover
reported OPEN at the angle `11808033 / 2 ^ 17`, about 90.0881 degrees, which
510 opening steps from 0 reach. -/
def openRestFloat : State :=
  { initialState with coverStatus := OPEN, targetAngle := 90, currentAngle := 11808033 / 2 ^ 17 }

/-! ## Effect of the helper functions on the parts of the state -/

theorem shutterView_receive (s : State) (bytes : List Char) :
    shutterView (receive s bytes) = shutterView s := rfl

theorem shutterView_updateDisplay (s : State) (m : panelMode) (b : Int) (p : interfaceProtocol) :
    shutterView (updateDisplay s m b p) = shutterView s := rfl

theorem shutterView_serialWrite (s : State) (temp : List Char) :
    shutterView (serialWrite s temp) = shutterView s := rfl

theorem shutterView_serialPrintln (s : State) (temp : List Char) :
    shutterView (serialPrintln s temp) = shutterView s := rfl

theorem shutterView_setState (s : State) (m : panelMode) :
    shutterView (setState s m) = shutterView s := by
  unfold setState
  split <;> rfl

theorem shutterView_setBrightness (s : State) (level : Int) :
    shutterView (setBrightness s level) = shutterView s := by
  unfold setBrightness
  split <;> rfl

theorem shutterView_doEncoder (s : State) (same : Bool) :
    shutterView (doEncoder s same) = shutterView s := by
  unfold doEncoder
  split <;> rfl

theorem shutterView_foldl_doEncoder (l : List Bool) (s : State) :
    shutterView (l.foldl doEncoder s) = shutterView s := by
  induction l generalizing s with
  | nil => rfl
  | cons b l ih => rw [List.foldl_cons, ih, shutterView_doEncoder]

theorem shutterView_processEncoder (s : State) (button : Bool) :
    shutterView (processEncoder s button) = shutterView s := by
  unfold processEncoder
  lift_lets
  intro buttonState s1 t1 t2 s2 s3 t3 t4 s4 t5 t6 s5
  have h1 : shutterView s1 = shutterView s := by
    simp only [s1]; split <;> rfl
  have ht2 : shutterView t2 = shutterView s1 := by
    simp only [t2, shutterView_setState]; rfl
  have h2 : shutterView s2 = shutterView s1 := by
    simp only [s2]
    repeat' split
    all_goals first | rfl | simp only [shutterView_setBrightness, ht2]
  have h4 : shutterView s4 = shutterView s2 := by
    have ht4 : shutterView t4 = shutterView s2 := by
      simp only [t4]; split <;> rfl
    simp only [s4]
    split
    · rw [shutterView_setBrightness, ht4]
    · rfl
  have h5 : shutterView s5 = shutterView s4 := by
    have ht6 : shutterView t6 = shutterView s4 := by
      simp only [t6]; split <;> rfl
    simp only [s5]
    split
    · rw [shutterView_setBrightness, ht6]
    · rfl
  show shutterView s5 = shutterView s
  rw [h5, h4, h2, h1]

/-! ## Arithmetic of the motor steps -/

theorem angle_lt_90_iff (k : ℕ) : (k : ℚ) * stepAngle < 90 ↔ k ≤ 509 := by
  have h : (k : ℚ) * stepAngle < 90 ↔ (k : ℚ) * 360 < 90 * 2038 := by
    unfold stepAngle STEPS
    push_cast
    rw [← mul_div_assoc, div_lt_iff₀ (by norm_num)]
  rw [h]
  constructor
  · intro h1
    have : k * 360 < 90 * 2038 := by exact_mod_cast h1
    omega
  · intro h1
    have : k * 360 < 90 * 2038 := by omega
    exact_mod_cast this

theorem angle_pos_iff (k : ℕ) : 0 < (k : ℚ) * stepAngle ↔ 1 ≤ k := by
  have hs : (0 : ℚ) < stepAngle := by unfold stepAngle STEPS; norm_num
  constructor
  · intro h
    rcases Nat.eq_zero_or_pos k with h0 | h0
    · subst h0; simp at h
    · exact h0
  · intro h
    have : (0 : ℚ) < k := by exact_mod_cast h
    positivity

theorem angle_succ (k : ℕ) : (k : ℚ) * stepAngle + stepAngle = ((k + 1 : ℕ) : ℚ) * stepAngle := by
  push_cast; ring

theorem angle_pred (k : ℕ) (h : 1 ≤ k) :
    (k : ℚ) * stepAngle - stepAngle = ((k - 1 : ℕ) : ℚ) * stepAngle := by
  obtain ⟨j, rfl⟩ : ∃ j, k = j + 1 := ⟨k - 1, by omega⟩
  simp only [Nat.add_sub_cancel]
  push_cast; ring

/-! ## The four moves of `handleMotor` -/

theorem handleMotor_opening_step (s : State) (h1 : s.currentAngle < s.targetAngle)
    (hd : s.motorDirection = OPENING) (h2 : s.currentAngle + stepAngle < s.targetAngle) :
    handleMotor s = { s with
      motorStatus := RUNNING
      coverStatus := NEITHER_OPEN_NOR_CLOSED
      stepperOut := s.stepperOut ++ [1]
      currentAngle := s.currentAngle + stepAngle } := by
  unfold stepAngle at h2 ⊢
  simp only [handleMotor, h1, hd, and_self, if_true, ge_iff_le, not_le.mpr h2, if_false]

theorem handleMotor_opening_done (s : State) (h1 : s.currentAngle < s.targetAngle)
    (hd : s.motorDirection = OPENING) (h2 : s.targetAngle ≤ s.currentAngle + stepAngle) :
    handleMotor s = { s with
      motorStatus := STOPPED
      motorDirection := NONE
      coverStatus := OPEN
      stepperOut := s.stepperOut ++ [1]
      currentAngle := s.currentAngle + stepAngle } := by
  unfold stepAngle at h2 ⊢
  simp only [handleMotor, h1, hd, and_self, if_true, ge_iff_le, h2]

theorem handleMotor_closing_step (s : State) (h1 : s.targetAngle < s.currentAngle)
    (hd : s.motorDirection = CLOSING) (h2 : s.targetAngle < s.currentAngle - stepAngle) :
    handleMotor s = { s with
      motorStatus := RUNNING
      coverStatus := NEITHER_OPEN_NOR_CLOSED
      stepperOut := s.stepperOut ++ [-1]
      currentAngle := s.currentAngle - stepAngle } := by
  have h0 : ¬ s.currentAngle < s.targetAngle := not_lt.mpr h1.le
  unfold stepAngle at h2 ⊢
  simp only [handleMotor, h0, hd, false_and, if_false, gt_iff_lt, h1, and_self, if_true,
    not_le.mpr h2]

theorem handleMotor_closing_done (s : State) (h1 : s.targetAngle < s.currentAngle)
    (hd : s.motorDirection = CLOSING) (h2 : s.currentAngle - stepAngle ≤ s.targetAngle) :
    handleMotor s = { s with
      motorStatus := STOPPED
      motorDirection := NONE
      coverStatus := CLOSED
      stepperOut := s.stepperOut ++ [-1]
      currentAngle := s.currentAngle - stepAngle } := by
  have h0 : ¬ s.currentAngle < s.targetAngle := not_lt.mpr h1.le
  unfold stepAngle at h2 ⊢
  simp only [handleMotor, h0, hd, false_and, if_false, gt_iff_lt, h1, and_self, if_true, h2]

theorem handleMotor_idle (s : State)
    (h1 : ¬ (s.currentAngle < s.targetAngle ∧ s.motorDirection = OPENING))
    (h2 : ¬ (s.targetAngle < s.currentAngle ∧ s.motorDirection = CLOSING)) :
    handleMotor s = s := by
  simp only [handleMotor, h1, gt_iff_lt, h2, if_false]

/-! ## The shutter invariant -/

theorem shutterInv_congr (s t : State) (h : shutterView s = shutterView t) (ht : ShutterInv t) :
    ShutterInv s := by
  simp only [shutterView, Prod.mk.injEq] at h
  obtain ⟨h1, h2, h3, h4, h5⟩ := h
  unfold ShutterInv at ht ⊢
  rw [h1, h2, h3, h4, h5]
  exact ht

theorem shutterInv_initial : ShutterInv initialState :=
  ⟨0, by norm_num, by simp [initialState]⟩

theorem shutterInv_setup (switch : Bool) : ShutterInv (setup switch) :=
  shutterInv_congr _ initialState
    (by simp only [setup, shutterView_setState, shutterView_setBrightness]; rfl)
    shutterInv_initial

theorem shutterInv_setShutter (s : State) (val : shutterStatuses) (h : ShutterInv s) :
    ShutterInv (setShutter s val) := by
  obtain ⟨k, hk, hc, ho, hcl, ht, hop, hclo, hn, hr⟩ := h
  unfold setShutter
  split_ifs with h1 h2
  · refine ⟨k, hk, hc, ho, hcl, ht, ?_⟩
    simp only [reduceCtorEq, false_implies, true_implies, and_true, ne_eq, not_false_eq_true,
      true_and]
    exact ⟨h1.2, fun hr1 => (hr hr1).2⟩
  · refine ⟨k, hk, hc, ho, hcl, ht, ?_⟩
    simp only [reduceCtorEq, false_implies, true_implies, and_true, ne_eq, not_false_eq_true,
      true_and]
    exact ⟨h2.2, fun hr1 => (hr hr1).2⟩
  · exact ⟨k, hk, hc, ho, hcl, ht, hop, hclo, hn, hr⟩

theorem shutterInv_handleMotor (s : State) (h : ShutterInv s) : ShutterInv (handleMotor s) := by
  obtain ⟨k, hk, hc, ho, hcl, ht, hop, hclo, hn, hr⟩ := h
  by_cases h1 : s.currentAngle < s.targetAngle ∧ s.motorDirection = OPENING
  · obtain ⟨h1a, h1b⟩ := h1
    have htg := (hop h1b).1
    have h1c := h1a
    rw [hc, htg, angle_lt_90_iff] at h1c
    rcases lt_or_le (s.currentAngle + stepAngle) s.targetAngle with h2 | h2
    · have h2c := h2
      rw [hc, htg, angle_succ, angle_lt_90_iff] at h2c
      rw [handleMotor_opening_step s h1a h1b h2]
      refine ⟨k + 1, by omega, ?_⟩
      simp [hc, angle_succ, htg, h1b]
      omega
    · have h2c := h2
      rw [hc, htg, angle_succ, ← not_lt, angle_lt_90_iff] at h2c
      rw [handleMotor_opening_done s h1a h1b h2]
      refine ⟨k + 1, by omega, ?_⟩
      simp [hc, angle_succ, htg]
      omega
  · by_cases h3 : s.targetAngle < s.currentAngle ∧ s.motorDirection = CLOSING
    · obtain ⟨h3a, h3b⟩ := h3
      have htg := (hclo h3b).1
      have h3c := h3a
      rw [hc, htg, angle_pos_iff] at h3c
      rcases lt_or_le s.targetAngle (s.currentAngle - stepAngle) with h4 | h4
      · have h4c := h4
        rw [hc, htg, angle_pred k h3c, angle_pos_iff] at h4c
        rw [handleMotor_closing_step s h3a h3b h4]
        refine ⟨k - 1, by omega, ?_⟩
        simp [hc, angle_pred k h3c, htg, h3b]
        omega
      · have h4c := h4
        rw [hc, htg, angle_pred k h3c, ← not_lt, angle_pos_iff] at h4c
        rw [handleMotor_closing_done s h3a h3b h4]
        refine ⟨k - 1, by omega, ?_⟩
        simp [hc, angle_pred k h3c, htg]
        omega
    · rw [handleMotor_idle s h1 h3]
      exact ⟨k, hk, hc, ho, hcl, ht, hop, hclo, hn, hr⟩

theorem shutterInv_dispatch4 (s : State) (c : Char) (d : List Char) (h : ShutterInv s) :
    ShutterInv (dispatch4 s c d) := by
  unfold dispatch4
  split
  case h_2 =>
    exact shutterInv_congr _ _ (shutterView_serialWrite _ _) (shutterInv_setShutter s OPEN h)
  case h_3 =>
    exact shutterInv_congr _ _ (shutterView_serialWrite _ _) (shutterInv_setShutter s CLOSED h)
  case h_6 =>
    refine shutterInv_congr _ s ?_ h
    simp only [shutterView_serialWrite]
    split
    · rw [shutterView_setBrightness]; rfl
    · rfl
  all_goals
    refine shutterInv_congr _ s ?_ h
    first
      | rfl
      | (simp only [shutterView_setBrightness]; rfl)

theorem shutterInv_dispatch1 (s : State) (c : Char) (d : List Char) (h : ShutterInv s) :
    ShutterInv (dispatch1 s c d) := by
  unfold dispatch1
  split
  case h_2 =>
    exact shutterInv_congr _ _ (shutterView_serialPrintln _ _) (shutterInv_setShutter s OPEN h)
  case h_3 =>
    exact shutterInv_congr _ _ (shutterView_serialPrintln _ _) (shutterInv_setShutter s CLOSED h)
  case h_6 =>
    refine shutterInv_congr _ s ?_ h
    simp only [shutterView_serialPrintln]
    split
    · rw [shutterView_setBrightness]; rfl
    · rfl
  all_goals
    refine shutterInv_congr _ s ?_ h
    first
      | rfl
      | (simp only [shutterView_setBrightness]; rfl)

theorem shutterView_withSerialIn (t : State) (l : List Char) :
    shutterView { t with serialIn := l } = shutterView t := rfl

theorem shutterView_withMode (t : State) (m : panelMode) :
    shutterView { t with mode := m } = shutterView t := rfl

theorem setState_serialIn (s : State) (m : panelMode) : (setState s m).serialIn = s.serialIn := by
  unfold setState
  split <;> rfl

theorem version4_eq (s : State) (h : 6 ≤ s.serialIn.length) :
    version4 s =
      { dispatch4
          { setState { s with mode := ASCOM } ASCOM with
            serialIn := (readBytesUntil '\r' 20 s.serialIn).2 }
          (cmdChar (frame4 s)) (dataString (frame4 s)) with serialIn := [] } := by
  unfold version4
  rw [if_pos h]
  simp only [setState_serialIn, frame4]

theorem version1_eq (s : State) (h : 6 ≤ s.serialIn.length) :
    version1 s =
      { dispatch1
          { setState { s with mode := ASCOM } ASCOM with
            serialIn := (readBytesUntil '\n' 20 s.serialIn).2 }
          (cmdChar (frame1 s)) (dataString (frame1 s)) with serialIn := [] } := by
  unfold version1
  rw [if_pos h]
  simp only [setState_serialIn, frame1]

theorem version4_idle (s : State) (h : s.serialIn.length < 6) : version4 s = s := by
  unfold version4
  rw [if_neg (by omega)]

theorem version1_idle (s : State) (h : s.serialIn.length < 6) : version1 s = s := by
  unfold version1
  rw [if_neg (by omega)]

theorem shutterInv_version4 (s : State) (h : ShutterInv s) : ShutterInv (version4 s) := by
  rcases Nat.lt_or_ge s.serialIn.length 6 with h6 | h6
  · rw [version4_idle s h6]; exact h
  · rw [version4_eq s h6]
    refine shutterInv_congr _ _ (shutterView_withSerialIn _ _) (shutterInv_dispatch4 _ _ _ ?_)
    refine shutterInv_congr _ s ?_ h
    rw [shutterView_withSerialIn, shutterView_setState, shutterView_withMode]

theorem shutterInv_version1 (s : State) (h : ShutterInv s) : ShutterInv (version1 s) := by
  rcases Nat.lt_or_ge s.serialIn.length 6 with h6 | h6
  · rw [version1_idle s h6]; exact h
  · rw [version1_eq s h6]
    refine shutterInv_congr _ _ (shutterView_withSerialIn _ _) (shutterInv_dispatch1 _ _ _ ?_)
    refine shutterInv_congr _ s ?_ h
    rw [shutterView_withSerialIn, shutterView_setState, shutterView_withMode]

theorem shutterInv_of_reachable (s : State) (h : Reachable s) : ShutterInv s := by
  induction h with
  | boot => exact shutterInv_initial
  | setup switch => exact shutterInv_setup switch
  | receive s bytes _ ih => exact shutterInv_congr _ s rfl ih
  | doEncoder s same _ ih => exact shutterInv_congr _ s (shutterView_doEncoder s same) ih
  | processEncoder s button _ ih =>
    exact shutterInv_congr _ s (shutterView_processEncoder s button) ih
  | version1 s _ ih => exact shutterInv_version1 s ih
  | version4 s _ ih => exact shutterInv_version4 s ih
  | handleMotor s _ ih => exact shutterInv_handleMotor s ih
  | readSwitch s p _ ih => exact shutterInv_congr _ s rfl ih

/-! ## Command frames and runs of the motor -/

theorem dispatch4_O (s : State) (d : List Char) :
    dispatch4 s 'O' d =
      serialWrite (setShutter s OPEN) ("*O".toList ++ fmtD s.deviceId.toInt ++ "OOO\n".toList) := by
  rfl

theorem shutterView_setShutter_congr (s t : State) (val : shutterStatuses)
    (h : shutterView s = shutterView t) :
    shutterView (setShutter s val) = shutterView (setShutter t val) := by
  simp only [shutterView, Prod.mk.injEq] at h
  obtain ⟨h1, h2, h3, h4, h5⟩ := h
  unfold setShutter
  rw [h1]
  split_ifs <;> simp [shutterView, h1, h2, h3, h4, h5]

theorem version4_open_frame (s : State) (hin : s.serialIn = []) :
    shutterView (version4 (receive s ">OOOO\r".toList)) = shutterView (setShutter s OPEN) ∧
    (version4 (receive s ">OOOO\r".toList)).serialIn = [] := by
  have hr : (receive s ">OOOO\r".toList).serialIn = ">OOOO\r".toList := by
    simp [receive, hin]
  have hf : frame4 (receive s ">OOOO\r".toList) = ">OOOO".toList := by
    rw [frame4, hr]; decide
  have hc : cmdChar ">OOOO".toList = 'O' := by decide
  rw [version4_eq _ (by rw [hr]; decide), hf, hc, dispatch4_O]
  refine ⟨?_, ?_⟩
  · rw [shutterView_withSerialIn, shutterView_serialWrite]
    apply shutterView_setShutter_congr
    rw [shutterView_withSerialIn, shutterView_setState, shutterView_withMode, shutterView_receive]
  · simp only

theorem handleMotor_serialIn (s : State) : (handleMotor s).serialIn = s.serialIn := by
  unfold handleMotor
  simp only
  repeat' split
  all_goals rfl

theorem iterate_handleMotor_serialIn (n : ℕ) (s : State) :
    (handleMotor^[n] s).serialIn = s.serialIn := by
  induction n generalizing s with
  | zero => rfl
  | succ n ih => rw [Function.iterate_succ_apply, ih, handleMotor_serialIn]

theorem runV4_idle (n : ℕ) (s : State) (hin : s.serialIn = []) :
    runV4 s (List.replicate n []) = handleMotor^[n] s := by
  induction n generalizing s with
  | zero => rfl
  | succ n ih =>
    have hr : receive s [] = s := by
      unfold receive; simp
    rw [List.replicate_succ, runV4, hr, Function.iterate_succ_apply]
    have h4 : version4 s = s := version4_idle s (by rw [hin]; decide)
    have hp : processSerial s false = handleMotor s := by
      unfold processSerial
      rw [if_neg (by decide), h4]
    rw [hp]
    exact ih _ (by rw [handleMotor_serialIn, hin])

theorem opening_run (n : ℕ) (s : State) (k : ℕ) (hd : s.motorDirection = OPENING)
    (ht : s.targetAngle = 90) (hc : s.currentAngle = k * stepAngle) (hn : k + n ≤ 509) :
    (handleMotor^[n] s).motorDirection = OPENING ∧ (handleMotor^[n] s).targetAngle = 90 ∧
    (handleMotor^[n] s).currentAngle = ((k + n : ℕ) : ℚ) * stepAngle ∧
    (1 ≤ n → (handleMotor^[n] s).coverStatus = NEITHER_OPEN_NOR_CLOSED ∧
      (handleMotor^[n] s).motorStatus = RUNNING) := by
  induction n with
  | zero => exact ⟨hd, ht, by simpa using hc, fun h => absurd h (by decide)⟩
  | succ n ih =>
    obtain ⟨id, it, ic, _⟩ := ih (by omega)
    rw [Function.iterate_succ_apply']
    have h1 : (handleMotor^[n] s).currentAngle < (handleMotor^[n] s).targetAngle := by
      rw [ic, it, angle_lt_90_iff]; omega
    have h2 : (handleMotor^[n] s).currentAngle + stepAngle < (handleMotor^[n] s).targetAngle := by
      rw [ic, it, angle_succ, angle_lt_90_iff]; omega
    rw [handleMotor_opening_step _ h1 id h2]
    refine ⟨id, it, ?_, fun _ => ⟨rfl, rfl⟩⟩
    show (handleMotor^[n] s).currentAngle + stepAngle = _
    rw [ic, angle_succ, Nat.add_assoc]

theorem opening_finish (s : State) (hd : s.motorDirection = OPENING) (ht : s.targetAngle = 90)
    (hc : s.currentAngle = (509 : ℕ) * stepAngle) :
    (handleMotor s).coverStatus = OPEN ∧ (handleMotor s).motorDirection = NONE ∧
    (handleMotor s).motorStatus = STOPPED ∧ (handleMotor s).targetAngle = 90 ∧
    (handleMotor s).currentAngle = (510 : ℕ) * stepAngle := by
  have h1 : s.currentAngle < s.targetAngle := by
    rw [hc, ht, angle_lt_90_iff]
  have h2 : s.targetAngle ≤ s.currentAngle + stepAngle := by
    rw [hc, ht, angle_succ, ← not_lt, angle_lt_90_iff]; omega
  rw [handleMotor_opening_done s h1 hd h2]
  refine ⟨rfl, rfl, rfl, ht, ?_⟩
  show s.currentAngle + stepAngle = _
  rw [hc, angle_succ]

theorem resting_iterate (n : ℕ) (s : State) (hd : s.motorDirection = NONE) :
    handleMotor^[n] s = s := by
  have h : handleMotor s = s :=
    handleMotor_idle s (by rw [hd]; simp) (by rw [hd]; simp)
  exact Function.iterate_fixed h n



theorem opening_completes (s : State) (j : ℕ) (hd : s.motorDirection = OPENING)
    (ht : s.targetAngle = 90) (hc : s.currentAngle = j * stepAngle) (hj : j ≤ 509)
    (m : ℕ) (hm : 510 - j ≤ m) :
    (handleMotor^[m] s).coverStatus = OPEN ∧ (handleMotor^[m] s).motorDirection = NONE ∧
    (handleMotor^[m] s).motorStatus = STOPPED ∧ (handleMotor^[m] s).targetAngle = 90 ∧
    (handleMotor^[m] s).currentAngle = (510 : ℕ) * stepAngle := by
  obtain ⟨id, it, ic, _⟩ := opening_run (509 - j) s j hd ht hc (by omega)
  have e : j + (509 - j) = 509 := by omega
  rw [e] at ic
  have hf := opening_finish _ id it ic
  have hm' : m = (m - (510 - j)) + ((509 - j) + 1) := by omega
  rw [hm', Function.iterate_add_apply, Function.iterate_succ_apply',
    resting_iterate _ _ hf.2.1]
  exact hf

theorem runV4_command (s : State) (bytes : List Char) (n : ℕ)
    (h : (version4 (receive s bytes)).serialIn = []) :
    runV4 s (bytes :: List.replicate n []) = handleMotor^[n + 1] (version4 (receive s bytes)) := by
  have hp : processSerial (receive s bytes) false = handleMotor (version4 (receive s bytes)) := by
    unfold processSerial
    rw [if_neg (by decide)]
  rw [runV4, hp, runV4_idle n _ (by rw [handleMotor_serialIn, h]), Function.iterate_succ_apply]

/-! ## Reachable states -/

theorem setBrightness_serialIn (s : State) (level : Int) :
    (setBrightness s level).serialIn = s.serialIn := by
  unfold setBrightness
  split <;> rfl

theorem doEncoder_serialIn (s : State) (same : Bool) : (doEncoder s same).serialIn = s.serialIn := by
  unfold doEncoder
  split <;> rfl

theorem processEncoder_serialIn (s : State) (button : Bool) :
    (processEncoder s button).serialIn = s.serialIn := by
  unfold processEncoder
  lift_lets
  intro buttonState s1 t1 t2 s2 s3 t3 t4 s4 t5 t6 s5
  have h1 : s1.serialIn = s.serialIn := by
    simp only [s1]; split <;> rfl
  have ht2 : t2.serialIn = s1.serialIn := by
    simp only [t2, setState_serialIn]
  have h2 : s2.serialIn = s1.serialIn := by
    simp only [s2]
    repeat' split
    all_goals first | rfl | simp only [setBrightness_serialIn, ht2]
  have h4 : s4.serialIn = s2.serialIn := by
    have ht4 : t4.serialIn = s2.serialIn := by
      simp only [t4]; split <;> rfl
    simp only [s4]
    split
    · rw [setBrightness_serialIn, ht4]
    · rfl
  have h5 : s5.serialIn = s4.serialIn := by
    have ht6 : t6.serialIn = s4.serialIn := by
      simp only [t6]; split <;> rfl
    simp only [s5]
    split
    · rw [setBrightness_serialIn, ht6]
    · rfl
  show s5.serialIn = s.serialIn
  rw [h5, h4, h2, h1]

theorem reachable_foldl_doEncoder (l : List Bool) (s : State) (h : Reachable s) :
    Reachable (l.foldl doEncoder s) := by
  induction l generalizing s with
  | nil => exact h
  | cons b l ih => exact ih _ (Reachable.doEncoder s b h)

theorem reachable_before_serial (s : State) (i : PassInput) (h : Reachable s) :
    Reachable (processEncoder (receive (i.encoder.foldl doEncoder s) i.arrived) i.button) :=
  Reachable.processEncoder _ _ (Reachable.receive _ _ (reachable_foldl_doEncoder _ _ h))

theorem reachable_loop (s : State) (i : PassInput) (h : Reachable s) : Reachable (loop s i) := by
  unfold loop processSerial
  refine Reachable.readSwitch _ _ ?_
  split
  · exact Reachable.version1 _ (reachable_before_serial s i h)
  · exact Reachable.handleMotor _ (Reachable.version4 _ (reachable_before_serial s i h))

theorem reachable_of_loopReach (s : State) (h : LoopReach s) : Reachable s := by
  induction h with
  | setup switch => exact Reachable.setup switch
  | pass s i _ ih => exact reachable_loop s i ih

theorem shutterView_handleMotor_congr (s t : State) (h : shutterView s = shutterView t) :
    shutterView (handleMotor s) = shutterView (handleMotor t) := by
  simp only [shutterView, Prod.mk.injEq] at h
  obtain ⟨h1, h2, h3, h4, h5⟩ := h
  unfold handleMotor
  simp only [h2, h3, h4]
  repeat' split
  all_goals simp [shutterView, h1, h2, h3, h4, h5]

theorem shutterView_iterate_handleMotor_congr (n : ℕ) (s t : State)
    (h : shutterView s = shutterView t) :
    shutterView (handleMotor^[n] s) = shutterView (handleMotor^[n] t) := by
  induction n generalizing s t with
  | zero => exact h
  | succ n ih =>
    rw [Function.iterate_succ_apply, Function.iterate_succ_apply]
    exact ih _ _ (shutterView_handleMotor_congr s t h)

/-- After `handleMotor` a direction is set only while the cover is reported as moving. -/
theorem moving_after_handleMotor (s : State) (h : ShutterInv s)
    (hd : (handleMotor s).motorDirection ≠ NONE) :
    (handleMotor s).coverStatus = NEITHER_OPEN_NOR_CLOSED := by
  obtain ⟨k, hk, hc, ho, hcl, ht, hop, hclo, hn, hr⟩ := h
  by_cases h1 : s.currentAngle < s.targetAngle ∧ s.motorDirection = OPENING
  · obtain ⟨h1a, h1b⟩ := h1
    rcases lt_or_le (s.currentAngle + stepAngle) s.targetAngle with h2 | h2
    · rw [handleMotor_opening_step s h1a h1b h2]
    · rw [handleMotor_opening_done s h1a h1b h2] at hd
      exact absurd rfl hd
  · by_cases h3 : s.targetAngle < s.currentAngle ∧ s.motorDirection = CLOSING
    · obtain ⟨h3a, h3b⟩ := h3
      rcases lt_or_le s.targetAngle (s.currentAngle - stepAngle) with h4 | h4
      · rw [handleMotor_closing_step s h3a h3b h4]
      · rw [handleMotor_closing_done s h3a h3b h4] at hd
        exact absurd rfl hd
    · rw [handleMotor_idle s h1 h3] at hd ⊢
      cases hdir : s.motorDirection with
      | NONE => exact absurd hdir hd
      | OPENING =>
        have htg := hop hdir
        have : ¬ (k : ℚ) * stepAngle < 90 := by
          intro hlt
          exact h1 ⟨by rw [hc, htg.1]; exact hlt, hdir⟩
        rw [angle_lt_90_iff] at this
        exact absurd (ho.mpr (by omega)) htg.2
      | CLOSING =>
        have htg := hclo hdir
        have : ¬ 0 < (k : ℚ) * stepAngle := by
          intro hlt
          exact h3 ⟨by rw [hc, htg.1]; exact hlt, hdir⟩
        rw [angle_pos_iff] at this
        cases hcov : s.coverStatus with
        | NEITHER_OPEN_NOR_CLOSED => rfl
        | CLOSED => exact absurd hcov htg.2
        | OPEN => have := ho.mp hcov; omega
        | TIMED_OUT => exact absurd hcov ht

/-! ## Decoded frames: mode, responses and ignored frames -/

theorem brightnessLog_refl (s : State) : BrightnessLog s s :=
  ⟨rfl, rfl, rfl, rfl, [], by simp, by simp⟩

theorem brightnessLog_setBrightness (s : State) (level : Int) :
    BrightnessLog s (setBrightness s level) := by
  unfold setBrightness
  split
  · exact ⟨rfl, rfl, rfl, rfl, [level], rfl, rfl⟩
  · exact brightnessLog_refl s

theorem brightnessLog_setShutter (s : State) (val : shutterStatuses) :
    BrightnessLog s (setShutter s val) := by
  unfold setShutter
  repeat' split
  all_goals exact ⟨rfl, rfl, rfl, rfl, [], by simp, by simp⟩

theorem brightnessLog_dispatch4 (s : State) (c : Char) (d : List Char) :
    BrightnessLog s (dispatch4 s c d) := by
  unfold dispatch4
  split
  case h_2 => exact brightnessLog_setShutter s OPEN
  case h_3 => exact brightnessLog_setShutter s CLOSED
  case h_4 =>
    exact brightnessLog_setBrightness
      { serialWrite s ("*L".toList ++ fmtD s.deviceId.toInt ++ "OOO\n".toList) with
        lightStatus := ON } _
  case h_5 =>
    exact brightnessLog_setBrightness
      { serialWrite s ("*D".toList ++ fmtD s.deviceId.toInt ++ "OOO\n".toList) with
        lightStatus := OFF } _
  case h_6 =>
    simp only
    split
    · exact brightnessLog_setBrightness { s with brightness := atoi d } _
    · exact brightnessLog_refl s
  all_goals exact brightnessLog_refl s

theorem brightnessLog_dispatch1 (s : State) (c : Char) (d : List Char) :
    BrightnessLog s (dispatch1 s c d) := by
  unfold dispatch1
  split
  case h_2 => exact brightnessLog_setShutter s OPEN
  case h_3 => exact brightnessLog_setShutter s CLOSED
  case h_4 =>
    exact brightnessLog_setBrightness
      { serialPrintln s ("*L".toList ++ fmtD s.deviceId.toInt ++ "000".toList) with
        lightStatus := ON } _
  case h_5 =>
    exact brightnessLog_setBrightness
      { serialPrintln s ("*D".toList ++ fmtD s.deviceId.toInt ++ "000".toList) with
        lightStatus := OFF } _
  case h_6 =>
    simp only
    split
    · exact brightnessLog_setBrightness { s with brightness := atoi d } _
    · exact brightnessLog_refl s
  all_goals exact brightnessLog_refl s

theorem setState_ascom_same (s : State) (hm : s.lastMode = ASCOM) : setState s ASCOM = s := by
  unfold setState
  rw [if_neg (not_not.mpr hm.symm)]

theorem setState_ascom_changed (s : State) (hm : s.lastMode ≠ ASCOM) :
    setState s ASCOM = { s with
      ledOut := s.ledOut ++ [0]
      displayOut := s.displayOut ++ [(ASCOM, s.brightness, s.protocol)]
      lastMode := ASCOM } := by
  unfold setState
  rw [if_pos (Ne.symm hm)]
  rfl

theorem forcedToAscom_of_dispatch (s t : State) (r : List Char)
    (h : BrightnessLog { setState { s with mode := ASCOM } ASCOM with serialIn := r } t) :
    ForcedToAscom s { t with serialIn := [] } := by
  by_cases hm : s.lastMode = ASCOM
  · rw [setState_ascom_same { s with mode := ASCOM } hm] at h
    obtain ⟨h1, h2, h3, _, w, h5, h6⟩ := h
    refine ⟨h1, h2.trans hm, ?_, w, h5, ?_⟩
    · rw [if_pos hm, List.append_nil]; exact h3
    · rw [if_pos hm, List.append_nil]; exact h6
  · rw [setState_ascom_changed { s with mode := ASCOM } hm] at h
    obtain ⟨h1, h2, h3, _, w, h5, h6⟩ := h
    refine ⟨h1, h2, ?_, w, h5, ?_⟩
    · rw [if_neg hm]; exact h3
    · rw [if_neg hm]; exact h6

theorem forcedToAscom_version4 (s : State) (h : 6 ≤ s.serialIn.length) :
    ForcedToAscom s (version4 s) := by
  rw [version4_eq s h]
  exact forcedToAscom_of_dispatch s _ _ (brightnessLog_dispatch4 _ _ _)

theorem forcedToAscom_version1 (s : State) (h : 6 ≤ s.serialIn.length) :
    ForcedToAscom s (version1 s) := by
  rw [version1_eq s h]
  exact forcedToAscom_of_dispatch s _ _ (brightnessLog_dispatch1 _ _ _)



theorem dispatch4_unrecognized (s : State) (c : Char) (d : List Char) (h : c ∉ recognized) :
    dispatch4 s c d = s := by
  unfold dispatch4
  split <;> simp_all [recognized]

theorem dispatch1_unrecognized (s : State) (c : Char) (d : List Char) (h : c ∉ recognized) :
    dispatch1 s c d = s := by
  unfold dispatch1
  split <;> simp_all [recognized]

theorem untouched_setState (s : State) (r l : List Char) :
    Untouched s { ({ setState { s with mode := ASCOM } ASCOM with serialIn := r } : State) with
      serialIn := l } := by
  by_cases hm : s.lastMode = ASCOM
  · rw [setState_ascom_same { s with mode := ASCOM } hm]
    simp [Untouched]
  · rw [setState_ascom_changed { s with mode := ASCOM } hm]
    simp [Untouched]

theorem untouched_refl (s : State) : Untouched s s := by
  simp [Untouched]

theorem untouched_version4 (s : State) (h : cmdChar (frame4 s) ∉ recognized) :
    Untouched s (version4 s) := by
  rcases Nat.lt_or_ge s.serialIn.length 6 with h6 | h6
  · rw [version4_idle s h6]; exact untouched_refl s
  · rw [version4_eq s h6, dispatch4_unrecognized _ _ _ h]
    exact untouched_setState s _ _

theorem untouched_version1 (s : State) (h : cmdChar (frame1 s) ∉ recognized) :
    Untouched s (version1 s) := by
  rcases Nat.lt_or_ge s.serialIn.length 6 with h6 | h6
  · rw [version1_idle s h6]; exact untouched_refl s
  · rw [version1_eq s h6, dispatch1_unrecognized _ _ _ h]
    exact untouched_setState s _ _

theorem readBytesUntil_fst_of_not_mem (t : Char) (n : Nat) (inp : List Char) (h : t ∉ inp) :
    (readBytesUntil t n inp).1 = inp.take n := by
  induction n generalizing inp with
  | zero => simp [readBytesUntil]
  | succ n ih =>
    cases inp with
    | nil => simp [readBytesUntil]
    | cons c cs =>
      simp only [List.mem_cons, not_or] at h
      have hc : c ≠ t := fun e => h.1 e.symm
      simp [readBytesUntil, hc, ih cs h.2]

theorem readBytesUntil_fst_append_term (t : Char) (n : Nat) (inp : List Char) (h : t ∉ inp) :
    (readBytesUntil t n (inp ++ [t])).1 = inp.take n := by
  induction n generalizing inp with
  | zero => simp [readBytesUntil]
  | succ n ih =>
    cases inp with
    | nil => simp [readBytesUntil]
    | cons c cs =>
      simp only [List.mem_cons, not_or] at h
      have hc : c ≠ t := fun e => h.1 e.symm
      simp [readBytesUntil, hc, ih cs h.2]

theorem setState_withSerialIn (s : State) (m : panelMode) (l : List Char) :
    setState { s with serialIn := l } m = { setState s m with serialIn := l } := by
  unfold setState
  split <;> rfl

theorem dispatch4_withSerialIn (s : State) (a : List Char) (c : Char) (d : List Char) :
    dispatch4 { s with serialIn := a } c d = { dispatch4 s c d with serialIn := a } := by
  unfold dispatch4
  split <;> simp only [serialWrite, setShutter, setBrightness, updateDisplay] <;>
    (repeat' split) <;> rfl

theorem dispatch1_withSerialIn (s : State) (a : List Char) (c : Char) (d : List Char) :
    dispatch1 { s with serialIn := a } c d = { dispatch1 s c d with serialIn := a } := by
  unfold dispatch1
  split <;> simp only [serialPrintln, setShutter, setBrightness, updateDisplay] <;>
    (repeat' split) <;> rfl

theorem dispatch4_clear (s : State) (a : List Char) (c : Char) (d : List Char) :
    ({ dispatch4 { s with serialIn := a } c d with serialIn := [] } : State)
      = { dispatch4 s c d with serialIn := [] } := by
  rw [dispatch4_withSerialIn s a c d]

theorem dispatch1_clear (s : State) (a : List Char) (c : Char) (d : List Char) :
    ({ dispatch1 { s with serialIn := a } c d with serialIn := [] } : State)
      = { dispatch1 s c d with serialIn := [] } := by
  rw [dispatch1_withSerialIn s a c d]

/-- Result of `version4` on at least six bytes: the bytes left in the receive
buffer play no part. -/
theorem version4_of_frame (s : State) (h : 6 ≤ s.serialIn.length) :
    version4 s =
      { dispatch4 (setState { s with mode := ASCOM } ASCOM) (cmdChar (frame4 s))
          (dataString (frame4 s)) with serialIn := [] } :=
  (version4_eq s h).trans (dispatch4_clear _ _ _ _)

/-- Result of `version1` on at least six bytes: the bytes left in the receive
buffer play no part. -/
theorem version1_of_frame (s : State) (h : 6 ≤ s.serialIn.length) :
    version1 s =
      { dispatch1 (setState { s with mode := ASCOM } ASCOM) (cmdChar (frame1 s))
          (dataString (frame1 s)) with serialIn := [] } :=
  (version1_eq s h).trans (dispatch1_clear _ _ _ _)

theorem version4_append_terminator (s : State) (h : 6 ≤ s.serialIn.length)
    (hn : '\r' ∉ s.serialIn) : version4 s = version4 (receive s ['\r']) := by
  have hl : 6 ≤ (receive s ['\r']).serialIn.length := by
    simp only [receive, List.length_append]; omega
  have hf : frame4 (receive s ['\r']) = frame4 s := by
    simp only [frame4, receive]
    rw [readBytesUntil_fst_append_term _ _ _ hn, readBytesUntil_fst_of_not_mem _ _ _ hn]
  have e : setState { receive s ['\r'] with mode := ASCOM } ASCOM
      = { setState { s with mode := ASCOM } ASCOM with serialIn := s.serialIn ++ ['\r'] } :=
    setState_withSerialIn { s with mode := ASCOM } ASCOM (s.serialIn ++ ['\r'])
  rw [version4_of_frame s h, version4_of_frame _ hl, hf, e]
  exact (dispatch4_clear _ _ _ _).symm

theorem version1_append_terminator (s : State) (h : 6 ≤ s.serialIn.length)
    (hn : '\n' ∉ s.serialIn) : version1 s = version1 (receive s ['\n']) := by
  have hl : 6 ≤ (receive s ['\n']).serialIn.length := by
    simp only [receive, List.length_append]; omega
  have hf : frame1 (receive s ['\n']) = frame1 s := by
    simp only [frame1, receive]
    rw [readBytesUntil_fst_append_term _ _ _ hn, readBytesUntil_fst_of_not_mem _ _ _ hn]
  have e : setState { receive s ['\n'] with mode := ASCOM } ASCOM
      = { setState { s with mode := ASCOM } ASCOM with serialIn := s.serialIn ++ ['\n'] } :=
    setState_withSerialIn { s with mode := ASCOM } ASCOM (s.serialIn ++ ['\n'])
  rw [version1_of_frame s h, version1_of_frame _ hl, hf, e]
  exact (dispatch1_clear _ _ _ _).symm

/-! ## Passes of the main loop -/

theorem shutterView_dispatch4 (s : State) (c : Char) (d : List Char) :
    shutterView (dispatch4 s c d) =
      if c = 'O' then shutterView (setShutter s OPEN)
      else if c = 'C' then shutterView (setShutter s CLOSED)
      else shutterView s := by
  unfold dispatch4
  split
  case h_2 => rw [if_pos rfl, shutterView_serialWrite]
  case h_3 => rw [if_neg (by decide), if_pos rfl, shutterView_serialWrite]
  case h_6 =>
    rw [if_neg (by decide), if_neg (by decide), shutterView_serialWrite]
    split
    · rw [shutterView_setBrightness]; rfl
    · rfl
  case h_10 h1 h2 h3 h4 h5 h6 h7 h8 h9 =>
    rw [if_neg (fun e => h2 e), if_neg (fun e => h3 e)]
  all_goals
    rw [if_neg (by decide), if_neg (by decide)]
    first
      | rfl
      | (simp only [shutterView_setBrightness]; rfl)

theorem shutterView_dispatch1 (s : State) (c : Char) (d : List Char) :
    shutterView (dispatch1 s c d) =
      if c = 'O' then shutterView (setShutter s OPEN)
      else if c = 'C' then shutterView (setShutter s CLOSED)
      else shutterView s := by
  unfold dispatch1
  split
  case h_2 => rw [if_pos rfl, shutterView_serialPrintln]
  case h_3 => rw [if_neg (by decide), if_pos rfl, shutterView_serialPrintln]
  case h_6 =>
    rw [if_neg (by decide), if_neg (by decide), shutterView_serialPrintln]
    split
    · rw [shutterView_setBrightness]; rfl
    · rfl
  case h_10 h1 h2 h3 h4 h5 h6 h7 h8 h9 =>
    rw [if_neg (fun e => h2 e), if_neg (fun e => h3 e)]
  all_goals
    rw [if_neg (by decide), if_neg (by decide)]
    first
      | rfl
      | (simp only [shutterView_setBrightness]; rfl)

theorem shutterView_forced (s : State) :
    shutterView (setState { s with mode := ASCOM } ASCOM) = shutterView s := by
  rw [shutterView_setState, shutterView_withMode]

/-- Shutter part after `version4` on at least six bytes: only the commands
`O` and `C` touch it, through `setShutter`. -/
theorem shutterView_version4 (s : State) (h : 6 ≤ s.serialIn.length) :
    shutterView (version4 s) =
      if cmdChar (frame4 s) = 'O' then shutterView (setShutter s OPEN)
      else if cmdChar (frame4 s) = 'C' then shutterView (setShutter s CLOSED)
      else shutterView s := by
  rw [version4_of_frame s h, shutterView_withSerialIn, shutterView_dispatch4,
    shutterView_setShutter_congr _ s OPEN (shutterView_forced s),
    shutterView_setShutter_congr _ s CLOSED (shutterView_forced s), shutterView_forced]

/-- Shutter part after `version1` on at least six bytes. -/
theorem shutterView_version1 (s : State) (h : 6 ≤ s.serialIn.length) :
    shutterView (version1 s) =
      if cmdChar (frame1 s) = 'O' then shutterView (setShutter s OPEN)
      else if cmdChar (frame1 s) = 'C' then shutterView (setShutter s CLOSED)
      else shutterView s := by
  rw [version1_of_frame s h, shutterView_withSerialIn, shutterView_dispatch1,
    shutterView_setShutter_congr _ s OPEN (shutterView_forced s),
    shutterView_setShutter_congr _ s CLOSED (shutterView_forced s), shutterView_forced]

theorem coverStatus_setShutter (s : State) (val : shutterStatuses) :
    (setShutter s val).coverStatus = s.coverStatus := by
  unfold setShutter
  repeat' split
  all_goals rfl

theorem coverStatus_version1 (s : State) : (version1 s).coverStatus = s.coverStatus := by
  rcases Nat.lt_or_ge s.serialIn.length 6 with h6 | h6
  · rw [version1_idle s h6]
  · have h := congrArg Prod.fst (shutterView_version1 s h6)
    have e : (shutterView (version1 s)).1 = (version1 s).coverStatus := rfl
    rw [← e, h]
    split_ifs
    · exact coverStatus_setShutter s OPEN
    · exact coverStatus_setShutter s CLOSED
    · rfl

theorem foldl_doEncoder_serialIn (l : List Bool) (s : State) :
    (l.foldl doEncoder s).serialIn = s.serialIn := by
  induction l generalizing s with
  | nil => rfl
  | cons b l ih => rw [List.foldl_cons, ih, doEncoder_serialIn]

theorem version4_serialIn (s : State) :
    (version4 s).serialIn = if 6 ≤ s.serialIn.length then [] else s.serialIn := by
  rcases Nat.lt_or_ge s.serialIn.length 6 with h6 | h6
  · rw [version4_idle s h6, if_neg (by omega)]
  · rw [version4_of_frame s h6, if_pos h6]

theorem frame4_congr (s t : State) (h : s.serialIn = t.serialIn) : frame4 s = frame4 t := by
  unfold frame4
  rw [h]

/-- The shutter part and the receive buffer after `version4` and `handleMotor`
depend on the shutter part and the receive buffer before only. -/
theorem v4_branch_congr (s t : State) (hv : shutterView s = shutterView t)
    (hi : s.serialIn = t.serialIn) :
    shutterView (handleMotor (version4 s)) = shutterView (handleMotor (version4 t)) ∧
    (handleMotor (version4 s)).serialIn = (handleMotor (version4 t)).serialIn := by
  constructor
  · apply shutterView_handleMotor_congr
    rcases Nat.lt_or_ge s.serialIn.length 6 with h6 | h6
    · rw [version4_idle s h6, version4_idle t (by rw [← hi]; exact h6)]
      exact hv
    · rw [shutterView_version4 s h6, shutterView_version4 t (by rw [← hi]; exact h6),
        frame4_congr s t hi, shutterView_setShutter_congr s t OPEN hv,
        shutterView_setShutter_congr s t CLOSED hv, hv]
  · rw [handleMotor_serialIn, handleMotor_serialIn, version4_serialIn, version4_serialIn, hi]

/-- The manual half of a pass leaves the shutter alone and only adds the
arrived bytes to the receive buffer. -/
theorem before_serial (s : State) (i : PassInput) :
    shutterView (processEncoder (receive (i.encoder.foldl doEncoder s) i.arrived) i.button)
      = shutterView s ∧
    (processEncoder (receive (i.encoder.foldl doEncoder s) i.arrived) i.button).serialIn
      = s.serialIn ++ i.arrived := by
  constructor
  · rw [shutterView_processEncoder, shutterView_receive, shutterView_foldl_doEncoder]
  · rw [processEncoder_serialIn]
    show (i.encoder.foldl doEncoder s).serialIn ++ i.arrived = _
    rw [foldl_doEncoder_serialIn]

theorem loop_v4 (s : State) (i : PassInput) (h : i.switch = false) :
    loop s i = { handleMotor (version4
        (processEncoder (receive (i.encoder.foldl doEncoder s) i.arrived) i.button)) with
      protocol := if pinLevel i.switchEnd = 1 then LEGACY else V4 } := by
  unfold loop processSerial
  rw [h]
  rfl

theorem loop_legacy (s : State) (i : PassInput) (h : i.switch = true) :
    loop s i = { version1
        (processEncoder (receive (i.encoder.foldl doEncoder s) i.arrived) i.button) with
      protocol := if pinLevel i.switchEnd = 1 then LEGACY else V4 } := by
  unfold loop processSerial
  rw [h]
  rfl

/-- A run of V4 passes of `loop` moves the shutter as the same run of
`processSerial` alone does. -/
theorem runLoop_v4 (ps : List PassInput) (s t : State) (h : ∀ p ∈ ps, p.switch = false)
    (hv : shutterView s = shutterView t) (hi : s.serialIn = t.serialIn) :
    shutterView (runLoop s ps) = shutterView (runV4 t (ps.map (fun p => p.arrived))) ∧
    (runLoop s ps).serialIn = (runV4 t (ps.map (fun p => p.arrived))).serialIn := by
  induction ps generalizing s t with
  | nil => exact ⟨hv, hi⟩
  | cons p ps ih =>
    rw [List.map_cons, runLoop, runV4]
    have hb := before_serial s p
    have hp : processSerial (receive t p.arrived) false
        = handleMotor (version4 (receive t p.arrived)) := by
      unfold processSerial
      rw [if_neg (by decide)]
    have hc := v4_branch_congr
      (processEncoder (receive (p.encoder.foldl doEncoder s) p.arrived) p.button)
      (receive t p.arrived)
      (by rw [hb.1, shutterView_receive, hv])
      (by rw [hb.2, hi]; rfl)
    apply ih _ _ (fun q hq => h q (List.mem_cons_of_mem _ hq))
    · rw [loop_v4 s p (h p (List.mem_cons_self _ _)), hp]
      exact hc.1
    · rw [loop_v4 s p (h p (List.mem_cons_self _ _)), hp]
      exact hc.2

theorem loopReach_runLoop (ps : List PassInput) (s : State) (h : LoopReach s) :
    LoopReach (runLoop s ps) := by
  induction ps generalizing s with
  | nil => exact h
  | cons p ps ih => exact ih _ (LoopReach.pass s p h)

/-! ## Facts used by the claims -/

theorem fields_of_shutterView (s t : State) (h : shutterView s = shutterView t) :
    s.coverStatus = t.coverStatus ∧ s.motorDirection = t.motorDirection ∧
    s.targetAngle = t.targetAngle ∧ s.currentAngle = t.currentAngle ∧
    s.motorStatus = t.motorStatus := by
  simpa only [shutterView, Prod.mk.injEq] using h

theorem setShutter_open (s : State) (h : s.coverStatus ≠ OPEN) :
    setShutter s OPEN = { s with motorDirection := OPENING, targetAngle := 90 } := by
  unfold setShutter
  rw [if_pos ⟨rfl, h⟩]

theorem setShutter_closed (s : State) (h : s.coverStatus ≠ CLOSED) :
    setShutter s CLOSED = { s with motorDirection := CLOSING, targetAngle := 0 } := by
  unfold setShutter
  rw [if_neg (by simp), if_pos ⟨rfl, h⟩]

/-- Open command of the V4 protocol received with an empty buffer and the cover
not open. -/
theorem open_command (s : State) (hin : s.serialIn = []) (hc : s.coverStatus ≠ OPEN) :
    (version4 (receive s ">OOOO\r".toList)).motorDirection = OPENING ∧
    (version4 (receive s ">OOOO\r".toList)).targetAngle = 90 ∧
    (version4 (receive s ">OOOO\r".toList)).currentAngle = s.currentAngle ∧
    (version4 (receive s ">OOOO\r".toList)).coverStatus = s.coverStatus ∧
    (version4 (receive s ">OOOO\r".toList)).motorStatus = s.motorStatus ∧
    (version4 (receive s ">OOOO\r".toList)).serialIn = [] := by
  obtain ⟨hv, hs⟩ := version4_open_frame s hin
  rw [setShutter_open s hc] at hv
  obtain ⟨h1, h2, h3, h4, h5⟩ := fields_of_shutterView _ _ hv
  exact ⟨h2, h3, h4, h1, h5, hs⟩

theorem openCommanded_facts :
    openCommanded.motorDirection = OPENING ∧ openCommanded.targetAngle = 90 ∧
    openCommanded.currentAngle = ((0 : ℕ) : ℚ) * stepAngle ∧
    openCommanded.motorStatus = STOPPED ∧ openCommanded.serialIn = [] := by
  obtain ⟨h1, h2, h3, _, h5, h6⟩ :=
    open_command initialState rfl (by decide : initialState.coverStatus ≠ OPEN)
  refine ⟨h1, h2, ?_, h5, h6⟩
  show (version4 (receive initialState ">OOOO\r".toList)).currentAngle = _
  rw [h3]
  simp [initialState]

theorem reachable_openCommanded : Reachable openCommanded :=
  Reachable.version4 _ (Reachable.receive _ _ Reachable.boot)

/-- A run of V4 passes of `loop` that receives `bytes` in its first pass and
nothing afterwards. -/
theorem v4_segment (s : State) (ps : List PassInput) (hps : ∀ p ∈ ps, p.switch = false)
    (bytes : List Char) (n : ℕ)
    (hmap : ps.map (fun p => p.arrived) = bytes :: List.replicate n [])
    (h : (version4 (receive s bytes)).serialIn = []) :
    shutterView (runLoop s ps) = shutterView (handleMotor^[n + 1] (version4 (receive s bytes))) ∧
    (runLoop s ps).serialIn = [] := by
  obtain ⟨hv, hi⟩ := runLoop_v4 ps s s hps rfl rfl
  rw [hmap, runV4_command s bytes n h] at hv hi
  exact ⟨hv, by rw [hi, iterate_handleMotor_serialIn, h]⟩

theorem openedByLoop_facts :
    openedByLoop.coverStatus = OPEN ∧ openedByLoop.motorDirection = NONE ∧
    openedByLoop.serialIn = [] := by
  obtain ⟨h1, h2, h3, _, _, h6⟩ :=
    open_command (setup false) rfl (by decide : (setup false).coverStatus ≠ OPEN)
  have hc : (version4 (receive (setup false) ">OOOO\r".toList)).currentAngle
      = ((0 : ℕ) : ℚ) * stepAngle := by
    rw [h3]; simp [setup, setBrightness, setState, updateDisplay, initialState]
  obtain ⟨hv, hi⟩ := v4_segment (setup false)
    (v4Pass ">OOOO\r".toList :: List.replicate 509 (v4Pass []))
    (by intro p hp
        rcases List.mem_cons.mp hp with e | e
        · rw [e]; rfl
        · rw [List.eq_of_mem_replicate e]; rfl)
    ">OOOO\r".toList 509 (by rw [List.map_cons, List.map_replicate]; rfl) h6
  obtain ⟨a, b, _, _, _⟩ := opening_completes _ 0 h1 h2 hc (by omega) 510 (by omega)
  obtain ⟨f1, f2, _, _, _⟩ := fields_of_shutterView _ _ hv
  exact ⟨f1.trans a, f2.trans b, hi⟩

theorem version1_close (s : State) (hin : s.serialIn = ">C000\n".toList) :
    shutterView (version1 s) = shutterView (setShutter s CLOSED) := by
  have hf : frame1 s = ">C000".toList := by
    rw [frame1, hin]; decide
  have hc : cmdChar ">C000".toList = 'C' := by decide
  rw [shutterView_version1 s (by rw [hin]; decide), hf, hc, if_neg (by decide), if_pos rfl]

/-- A LEGACY pass of `loop` that receives a Close command with the cover
reported OPEN. -/
theorem legacy_close_pass (s : State) (ha : s.coverStatus = OPEN) (hc : s.serialIn = []) :
    (loop s (legacyPass ">C000\n".toList)).motorDirection = CLOSING ∧
    (loop s (legacyPass ">C000\n".toList)).coverStatus = OPEN := by
  obtain ⟨bv, bi⟩ := before_serial s (legacyPass ">C000\n".toList)
  rw [hc] at bi
  have hv := version1_close _ bi
  rw [shutterView_setShutter_congr _ _ CLOSED bv,
    setShutter_closed s (by rw [ha]; decide)] at hv
  obtain ⟨f1, f2, _, _, _⟩ := fields_of_shutterView _ _ hv
  rw [loop_legacy _ _ rfl]
  exact ⟨f2, f1.trans ha⟩

/-- A V4 pass of `loop` that receives an Open command with the cover not
reported OPEN and the angle below 90 by more than a step. -/
theorem v4_open_pass (s : State) (ha : s.coverStatus ≠ OPEN) (hc : s.serialIn = [])
    (h0 : s.currentAngle = 0) :
    (loop s (v4Pass ">OOOO\r".toList)).motorDirection = OPENING := by
  obtain ⟨h1, h2, h3, _, _, h6⟩ := open_command s hc ha
  obtain ⟨hv, _⟩ := v4_segment s [v4Pass ">OOOO\r".toList]
    (by intro p hp; rw [List.mem_singleton.mp hp]; rfl) ">OOOO\r".toList 0 rfl h6
  have hcur : (version4 (receive s ">OOOO\r".toList)).currentAngle
      = ((0 : ℕ) : ℚ) * stepAngle := by
    rw [h3, h0]; simp
  obtain ⟨a, _, _, _⟩ := opening_run 1 _ 0 h1 h2 hcur (by omega)
  exact (fields_of_shutterView _ _ hv).2.1.trans a

theorem ledOut_changed_iff (s t : State) (h : ForcedToAscom s t) (hm : s.lastMode = s.mode) :
    t.ledOut ≠ s.ledOut ↔ s.mode ≠ t.mode := by
  obtain ⟨h1, _, h3, _⟩ := h
  rw [h3, h1, hm]
  by_cases hs : s.mode = ASCOM
  · simp [hs]
  · simp [hs]

theorem setState_notified (s : State) (m : panelMode) :
    (setState s m).lastMode = m ∧ (setState s m).mode = s.mode := by
  unfold setState
  split
  · exact ⟨rfl, rfl⟩
  · next h => exact ⟨(not_not.mp h).symm, rfl⟩

theorem setBrightness_mode (s : State) (level : Int) :
    (setBrightness s level).mode = s.mode ∧ (setBrightness s level).lastMode = s.lastMode := by
  unfold setBrightness
  split <;> exact ⟨rfl, rfl⟩

theorem handleMotor_mode (s : State) :
    (handleMotor s).mode = s.mode ∧ (handleMotor s).lastMode = s.lastMode := by
  unfold handleMotor
  simp only
  repeat' split
  all_goals exact ⟨rfl, rfl⟩

theorem processEncoder_lastMode (s : State) (button : Bool) (h : s.lastMode = s.mode) :
    (processEncoder s button).lastMode = (processEncoder s button).mode := by
  unfold processEncoder
  lift_lets
  intro buttonState s1 t1 t2 s2 s3 t3 t4 s4 t5 t6 s5
  have h1 : s1.lastMode = s1.mode := by
    simp only [s1]; split <;> exact h
  have ht2 : t2.lastMode = t2.mode := by
    simp only [t2]
    rw [(setState_notified t1 t1.mode).1, (setState_notified t1 t1.mode).2]
  have h2 : s2.lastMode = s2.mode := by
    simp only [s2]
    repeat' split
    all_goals first
      | exact h1
      | (rw [(setBrightness_mode _ _).1, (setBrightness_mode _ _).2]; exact ht2)
  have h4 : s4.lastMode = s4.mode := by
    have ht4 : t4.lastMode = t4.mode := by
      simp only [t4]; split <;> exact h2
    simp only [s4]
    split
    · rw [(setBrightness_mode _ _).1, (setBrightness_mode _ _).2]; exact ht4
    · exact h2
  have h5 : s5.lastMode = s5.mode := by
    have ht6 : t6.lastMode = t6.mode := by
      simp only [t6]; split <;> exact h4
    simp only [s5]
    split
    · rw [(setBrightness_mode _ _).1, (setBrightness_mode _ _).2]; exact ht6
    · exact h4
  exact h5

/-- In every reachable state the mode last notified is the mode. -/
theorem lastMode_eq_mode_of_reachable (s : State) (h : Reachable s) : s.lastMode = s.mode := by
  induction h with
  | boot => rfl
  | setup switch => cases switch <;> rfl
  | receive s bytes _ ih => exact ih
  | doEncoder s same _ ih =>
    unfold doEncoder
    split <;> exact ih
  | processEncoder s button _ ih => exact processEncoder_lastMode s button ih
  | version1 s _ ih =>
    rcases Nat.lt_or_ge s.serialIn.length 6 with h6 | h6
    · rw [version1_idle s h6]; exact ih
    · obtain ⟨a, b, _⟩ := forcedToAscom_version1 s h6
      rw [a, b]
  | version4 s _ ih =>
    rcases Nat.lt_or_ge s.serialIn.length 6 with h6 | h6
    · rw [version4_idle s h6]; exact ih
    · obtain ⟨a, b, _⟩ := forcedToAscom_version4 s h6
      rw [a, b]
  | handleMotor s _ ih =>
    rw [(handleMotor_mode s).1, (handleMotor_mode s).2]; exact ih
  | readSwitch s p _ ih => exact ih

/-! ## The claims -/

/-- C1 (code defect): the frame `>B999` makes `version4` and `version1` store
the brightness 999 and answer with 999; the parsed value is not clamped to
[0,255]. -/
theorem C1_brightness_999_stored :
    (version4 (receive initialState ">B999\r".toList)).brightness = 999 ∧
    (version4 (receive initialState ">B999\r".toList)).serialOut = "*B19999\n".toList ∧
    (version1 (receive initialState ">B999\n".toList)).brightness = 999 := by
  decide

/-- C2 (code defect): after a LEGACY pass with the frame `>L000` and one with
the frame `>B999` the level 999 has been written to the PWM pin by
`setBrightness`. -/
theorem C2_level_999_written :
    LoopReach (runLoop (setup true) [legacyPass ">L000\n".toList, legacyPass ">B999\n".toList]) ∧
    (runLoop (setup true) [legacyPass ">L000\n".toList, legacyPass ">B999\n".toList]).pwmOut
      = [999] :=
  ⟨loopReach_runLoop _ _ (LoopReach.setup true), by decide⟩

/-- C4 (counterexample): after V4 passes have opened the cover, a LEGACY pass
that receives a Close command ends with direction CLOSING while the cover is
still reported OPEN. -/
theorem C4_legacy_close_leaves_cover_open :
    LoopReach (loop openedByLoop (legacyPass ">C000\n".toList)) ∧
    (loop openedByLoop (legacyPass ">C000\n".toList)).motorDirection = CLOSING ∧
    (loop openedByLoop (legacyPass ">C000\n".toList)).coverStatus = OPEN :=
  ⟨LoopReach.pass _ _ (loopReach_runLoop _ _ (LoopReach.setup false)),
   legacy_close_pass openedByLoop openedByLoop_facts.1 openedByLoop_facts.2.2⟩

/-- C4 (amended): at the end of every pass of `loop` that took the V4 branch
of `processSerial`, whatever passes of either dialect came before, and at the
end of every LEGACY pass that began with the cover reported as
NEITHER_OPEN_NOR_CLOSED, a motor direction other than NONE implies that the
cover is reported as NEITHER_OPEN_NOR_CLOSED. -/
theorem C4_direction_implies_moving (s : State) (h : LoopReach s) (i : PassInput)
    (hv : i.switch = false ∨ s.coverStatus = NEITHER_OPEN_NOR_CLOSED)
    (hd : (loop s i).motorDirection ≠ NONE) :
    (loop s i).coverStatus = NEITHER_OPEN_NOR_CLOSED := by
  have hr := reachable_before_serial s i (reachable_of_loopReach s h)
  cases hsw : i.switch with
  | false =>
    rw [loop_v4 s i hsw] at hd ⊢
    exact moving_after_handleMotor _
      (shutterInv_version4 _ (shutterInv_of_reachable _ hr)) hd
  | true =>
    rcases hv with hv | hv
    · rw [hsw] at hv; exact absurd hv (by decide)
    · rw [loop_legacy s i hsw]
      show (version1 _).coverStatus = _
      rw [coverStatus_version1]
      exact (fields_of_shutterView _ _ (before_serial s i).1).1.trans hv

/-- C4 (witness): the amended statement at the first V4 pass after `setup`,
which receives an Open command. -/
theorem C4_direction_implies_moving_witness :
    (loop (setup false) (v4Pass ">OOOO\r".toList)).coverStatus = NEITHER_OPEN_NOR_CLOSED :=
  C4_direction_implies_moving (setup false) (LoopReach.setup false) (v4Pass ">OOOO\r".toList)
    (Or.inl rfl)
    (by rw [v4_open_pass (setup false) (by decide) rfl rfl]; decide)

/-- C5 (counterexample): right after an Open command has been decoded the
direction is OPENING while the motor status is still STOPPED. -/
theorem C5_direction_set_motor_stopped :
    Reachable openCommanded ∧ openCommanded.motorDirection = OPENING ∧
    openCommanded.motorStatus = STOPPED :=
  ⟨reachable_openCommanded, openCommanded_facts.1, openCommanded_facts.2.2.2.1⟩

/-- C5 (amended): in every reachable state, motor status RUNNING implies that
a direction is set (and that the cover is reported as moving). -/
theorem C5_running_implies_direction (s : State) (h : Reachable s)
    (hr : s.motorStatus = RUNNING) :
    s.motorDirection ≠ NONE ∧ s.coverStatus = NEITHER_OPEN_NOR_CLOSED := by
  obtain ⟨k, _, _, _, _, _, _, _, _, hrun⟩ := shutterInv_of_reachable s h
  exact hrun hr

/-- C5 (witness): the amended statement after an Open command and one
advance. -/
theorem C5_running_implies_direction_witness :
    (handleMotor openCommanded).motorStatus = RUNNING ∧
    (handleMotor openCommanded).motorDirection ≠ NONE :=
  have hr : (handleMotor openCommanded).motorStatus = RUNNING :=
    ((opening_run 1 openCommanded 0 openCommanded_facts.1 openCommanded_facts.2.1
      openCommanded_facts.2.2.1 (by omega)).2.2.2 (le_refl 1)).2
  ⟨hr, (C5_running_implies_direction _ (Reachable.handleMotor _ reachable_openCommanded) hr).1⟩

/-- C6: with `STEPS = 2038` and exact angles, from angle 0 with direction
OPENING and target 90, the cover is still NEITHER_OPEN_NOR_CLOSED with the
motor RUNNING after each of the first 509 calls of `handleMotor`, and after
the 510th call (510 being the ceiling of 2038/4) it is OPEN with the motor
STOPPED and the direction NONE. -/
theorem C6_opening_takes_510_advances (s : State) (h0 : s.currentAngle = 0)
    (hd : s.motorDirection = OPENING) (ht : s.targetAngle = 90) :
    ⌈(STEPS : ℚ) / 4⌉₊ = 510 ∧
    (∀ n, 1 ≤ n → n ≤ 509 →
      (handleMotor^[n] s).coverStatus = NEITHER_OPEN_NOR_CLOSED ∧
      (handleMotor^[n] s).motorStatus = RUNNING) ∧
    (handleMotor^[510] s).coverStatus = OPEN ∧
    (handleMotor^[510] s).motorStatus = STOPPED ∧
    (handleMotor^[510] s).motorDirection = NONE := by
  have hc : s.currentAngle = ((0 : ℕ) : ℚ) * stepAngle := by rw [h0]; simp
  refine ⟨?_, ?_, ?_⟩
  · rw [Nat.ceil_eq_iff (by norm_num)]
    unfold STEPS
    norm_num
  · intro n h1 h2
    exact (opening_run n s 0 hd ht hc (by omega)).2.2.2 h1
  · obtain ⟨a, b, c, _, _⟩ := opening_completes s 0 hd ht hc (by omega) 510 (by omega)
    exact ⟨a, c, b⟩

/-- C6 (witness): the statement at the initial state after `setShutter(OPEN)`. -/
theorem C6_opening_takes_510_advances_witness :
    (handleMotor^[510] (setShutter initialState OPEN)).coverStatus = OPEN :=
  (C6_opening_takes_510_advances (setShutter initialState OPEN) rfl rfl rfl).2.2.1

/-- C8: for every state with at least 6 bytes available and for every content
of these bytes, after `version4` and after `version1` the mode is ASCOM (so a
frame received in MANUAL mode forces ASCOM); the mode LED is written, and the
display refreshed for the mode, only if ASCOM differs from the mode last
notified (`lastMode`), every other display refresh being the one of a level
written to the PWM pin; when `lastMode` is the mode, as in every reachable
state, the LED is written exactly when the mode changed. -/
theorem C8_frame_forces_ascom (s : State) (h : 6 ≤ s.serialIn.length) :
    ForcedToAscom s (version4 s) ∧ ForcedToAscom s (version1 s) ∧
    (s.lastMode = s.mode →
      ((version4 s).ledOut ≠ s.ledOut ↔ s.mode ≠ (version4 s).mode) ∧
      ((version1 s).ledOut ≠ s.ledOut ↔ s.mode ≠ (version1 s).mode)) :=
  ⟨forcedToAscom_version4 s h, forcedToAscom_version1 s h, fun hm =>
    ⟨ledOut_changed_iff s _ (forcedToAscom_version4 s h) hm,
     ledOut_changed_iff s _ (forcedToAscom_version1 s h) hm⟩⟩

/-- C8 (witness): a Ping frame received in MANUAL mode forces ASCOM. -/
theorem C8_frame_forces_ascom_witness :
    manualWithPing.mode = MANUAL ∧ (version4 manualWithPing).mode = ASCOM ∧
    (version1 manualWithPing).mode = ASCOM :=
  ⟨rfl, (C8_frame_forces_ascom manualWithPing (by decide)).1.1,
   (C8_frame_forces_ascom manualWithPing (by decide)).2.1.1⟩

/-- C9: when the command character of the frame read by `version4`, or by
`version1`, is none of P, O, C, L, D, B, J, S, V, no response byte is written
and brightness, light status, cover status, motor direction, target angle,
applied level and PWM output (and every variable other than `mode` and
`lastMode`) are unchanged. -/
theorem C9_unrecognized_command_ignored (s : State) :
    (cmdChar (frame4 s) ∉ recognized → Untouched s (version4 s)) ∧
    (cmdChar (frame1 s) ∉ recognized → Untouched s (version1 s)) :=
  ⟨untouched_version4 s, untouched_version1 s⟩

/-- C9 (witness): the frame `>X000` is ignored under both dialects. -/
theorem C9_unrecognized_command_ignored_witness :
    Untouched unknownFrame (version4 unknownFrame) ∧
    Untouched unknownFrame (version1 unknownFrame) :=
  ⟨(C9_unrecognized_command_ignored unknownFrame).1 (by decide),
   (C9_unrecognized_command_ignored unknownFrame).2 (by decide)⟩

/-- C10 (counterexample): six bytes without any terminator, `>B999x`, are
not dropped: `version4` sets the brightness to 999 and answers `*B19999`. -/
theorem C10_unterminated_frame_executed :
    6 ≤ unterminatedFrame.serialIn.length ∧ '\r' ∉ unterminatedFrame.serialIn ∧
    (version4 unterminatedFrame).serialOut = "*B19999\n".toList ∧
    (version4 unterminatedFrame).brightness = 999 := by
  decide

/-! ## Facts used by the claims C11 to C20 -/

theorem processEncoder_eq (s : State) (button : Bool) :
    processEncoder s button = rotaryPart (buttonPart s (pinLevel button)) := rfl

theorem buttonPart_no_edge (s : State) (button : Bool) (h : ¬ buttonEdge s button) :
    buttonPart s (pinLevel button) = { s with lastButtonState := pinLevel button } := by
  unfold buttonPart
  unfold buttonEdge at h
  by_cases h1 : s.lastButtonState = -1
  · simp only [h1, if_true]
    split
    · next hb => rw [hb]; simp
    · rfl
  · simp only [h1, if_false]
    by_cases hb : pinLevel button = 1
    · have h2 : ¬ (pinLevel button ≠ s.lastButtonState) := fun hne => h ⟨hb, h1, hne⟩
      simp only [hb, if_true]
      rw [hb] at h2
      rw [if_neg h2]
    · simp only [hb, if_false]

theorem buttonPart_edge (s : State) (button : Bool) (h : buttonEdge s button) :
    buttonPart s (pinLevel button) =
      { (if s.mode = ASCOM
          then setBrightness (setState { s with mode := MANUAL } MANUAL) s.brightness
          else setBrightness (setState { s with mode := ASCOM } ASCOM) 0) with
        lastButtonState := 1 } := by
  obtain ⟨hb, h1, h2⟩ := h
  unfold buttonPart
  rw [hb] at h2 ⊢
  simp only [h1, if_false, if_true, h2, ne_eq, not_false_eq_true]
  by_cases hm : s.mode = ASCOM
  · simp only [hm, if_true]
    have e : (setState { s with mode := MANUAL } MANUAL).mode = MANUAL :=
      (setState_notified _ _).2
    rw [e]
    simp only [reduceCtorEq, if_false]
    have e2 : (setState { s with mode := MANUAL } MANUAL).brightness = s.brightness := by
      unfold setState; split <;> rfl
    rw [e2]
  · simp only [hm, if_false]
    have e : (setState { s with mode := ASCOM } ASCOM).mode = ASCOM :=
      (setState_notified _ _).2
    rw [e]
    simp only [if_true]

theorem setBrightness_brightness (s : State) (level : Int) :
    (setBrightness s level).brightness = s.brightness := by
  unfold setBrightness
  split <;> rfl

theorem setBrightness_lastBrightness (s : State) (level : Int) :
    (setBrightness s level).lastBrightness = level := by
  unfold setBrightness
  split
  · rfl
  · next h => exact (not_not.mp h).symm

theorem setBrightness_pwmOut (s : State) (level : Int) :
    (setBrightness s level).pwmOut =
      s.pwmOut ++ (if level = s.lastBrightness then [] else [level]) := by
  unfold setBrightness
  by_cases h : level = s.lastBrightness
  · rw [if_neg (not_not.mpr h), if_pos h, List.append_nil]
  · rw [if_pos h, if_neg h]
    rfl

theorem setBrightness_lightStatus (s : State) (level : Int) :
    (setBrightness s level).lightStatus = s.lightStatus := by
  unfold setBrightness
  split <;> rfl

theorem setBrightness_lastButtonState (s : State) (level : Int) :
    (setBrightness s level).lastButtonState = s.lastButtonState := by
  unfold setBrightness
  split <;> rfl

theorem setBrightness_valRotary (s : State) (level : Int) :
    (setBrightness s level).valRotary = s.valRotary := by
  unfold setBrightness
  split <;> rfl

theorem setBrightness_lastValRotary (s : State) (level : Int) :
    (setBrightness s level).lastValRotary = s.lastValRotary := by
  unfold setBrightness
  split <;> rfl

theorem wrapInt_of_small (x : Int) (h1 : -32768 ≤ x) (h2 : x < 32768) : wrapInt x = x := by
  unfold wrapInt
  omega

/-- The rotary half of `processEncoder` when the rotary value has not moved. -/
theorem rotaryPart_still (s : State) (h : s.valRotary = s.lastValRotary) :
    (rotaryPart s).brightness = s.brightness ∧
    (rotaryPart s).lastBrightness = s.lastBrightness ∧ (rotaryPart s).pwmOut = s.pwmOut ∧
    (rotaryPart s).mode = s.mode ∧ (rotaryPart s).lightStatus = s.lightStatus ∧
    (rotaryPart s).lastValRotary = s.valRotary ∧ (rotaryPart s).valRotary = s.valRotary ∧
    (rotaryPart s).lastButtonState = s.lastButtonState := by
  have hn1 : ¬ s.valRotary > s.lastValRotary := by rw [h]; exact lt_irrefl _
  have hn2 : ¬ s.valRotary < s.lastValRotary := by rw [h]; exact lt_irrefl _
  unfold rotaryPart
  simp only [if_neg hn1, if_neg hn2, and_self]

/-- The rotary half of `processEncoder` when the rotary value has grown. -/
theorem rotaryPart_gt (s : State) (h : s.valRotary > s.lastValRotary) :
    (rotaryPart s).brightness =
      (if wrapInt (s.brightness - MANUAL_INCREMENT) < 0 then 0
        else wrapInt (s.brightness - MANUAL_INCREMENT)) ∧
    (rotaryPart s).lastBrightness = (rotaryPart s).brightness ∧
    (rotaryPart s).pwmOut = s.pwmOut ++
      (if (rotaryPart s).brightness = s.lastBrightness then []
        else [(rotaryPart s).brightness]) ∧
    (rotaryPart s).mode = s.mode ∧ (rotaryPart s).lightStatus = s.lightStatus ∧
    (rotaryPart s).lastValRotary = s.valRotary ∧ (rotaryPart s).valRotary = s.valRotary ∧
    (rotaryPart s).lastButtonState = s.lastButtonState := by
  have hn : ¬ s.valRotary < s.lastValRotary := not_lt.mpr (le_of_lt h)
  unfold rotaryPart
  by_cases hb : wrapInt (s.brightness - MANUAL_INCREMENT) < 0
  · simp only [if_pos h, if_pos hb, setBrightness_valRotary, setBrightness_lastValRotary,
      if_neg hn, setBrightness_brightness, setBrightness_lastBrightness, setBrightness_pwmOut,
      (setBrightness_mode _ _).1, setBrightness_lightStatus, setBrightness_lastButtonState,
      and_self]
  · simp only [if_pos h, if_neg hb, setBrightness_valRotary, setBrightness_lastValRotary,
      if_neg hn, setBrightness_brightness, setBrightness_lastBrightness, setBrightness_pwmOut,
      (setBrightness_mode _ _).1, setBrightness_lightStatus, setBrightness_lastButtonState,
      and_self]

/-- The rotary half of `processEncoder` when the rotary value has shrunk. -/
theorem rotaryPart_lt (s : State) (h : s.valRotary < s.lastValRotary) :
    (rotaryPart s).brightness =
      (if wrapInt (s.brightness + MANUAL_INCREMENT) > 255 then 255
        else wrapInt (s.brightness + MANUAL_INCREMENT)) ∧
    (rotaryPart s).lastBrightness = (rotaryPart s).brightness ∧
    (rotaryPart s).pwmOut = s.pwmOut ++
      (if (rotaryPart s).brightness = s.lastBrightness then []
        else [(rotaryPart s).brightness]) ∧
    (rotaryPart s).mode = s.mode ∧ (rotaryPart s).lightStatus = s.lightStatus ∧
    (rotaryPart s).lastValRotary = s.valRotary ∧ (rotaryPart s).valRotary = s.valRotary ∧
    (rotaryPart s).lastButtonState = s.lastButtonState := by
  have hn : ¬ s.valRotary > s.lastValRotary := not_lt.mpr (le_of_lt h)
  unfold rotaryPart
  by_cases hb : wrapInt (s.brightness + MANUAL_INCREMENT) > 255
  · simp only [if_neg hn, if_pos h, if_pos hb, setBrightness_valRotary,
      setBrightness_brightness, setBrightness_lastBrightness, setBrightness_pwmOut,
      (setBrightness_mode _ _).1, setBrightness_lightStatus, setBrightness_lastButtonState,
      and_self]
  · simp only [if_neg hn, if_pos h, if_neg hb, setBrightness_valRotary,
      setBrightness_brightness, setBrightness_lastBrightness, setBrightness_pwmOut,
      (setBrightness_mode _ _).1, setBrightness_lightStatus, setBrightness_lastButtonState,
      and_self]

theorem version1_serialIn (s : State) :
    (version1 s).serialIn = if 6 ≤ s.serialIn.length then [] else s.serialIn := by
  rcases Nat.lt_or_ge s.serialIn.length 6 with h6 | h6
  · rw [version1_idle s h6, if_neg (by omega)]
  · rw [version1_of_frame s h6, if_pos h6]

theorem motionView_setState (s : State) (m : panelMode) :
    motionView (setState s m) = motionView s := by
  unfold setState
  split <;> rfl

theorem motionView_setBrightness (s : State) (level : Int) :
    motionView (setBrightness s level) = motionView s := by
  unfold setBrightness
  split <;> rfl

theorem motionView_setShutter (s : State) (val : shutterStatuses) :
    motionView (setShutter s val) = motionView s := by
  unfold setShutter
  repeat' split
  all_goals rfl

theorem motionView_dispatch1 (s : State) (c : Char) (d : List Char) :
    motionView (dispatch1 s c d) = motionView s := by
  unfold dispatch1
  split
  case h_2 => exact motionView_setShutter s OPEN
  case h_3 => exact motionView_setShutter s CLOSED
  case h_4 => rw [motionView_setBrightness]; rfl
  case h_5 => rw [motionView_setBrightness]; rfl
  case h_6 =>
    show motionView (if _ then _ else _) = _
    split
    · rw [motionView_setBrightness]; rfl
    · rfl
  all_goals rfl

theorem motionView_version1 (s : State) : motionView (version1 s) = motionView s := by
  rcases Nat.lt_or_ge s.serialIn.length 6 with h6 | h6
  · rw [version1_idle s h6]
  · rw [version1_of_frame s h6]
    show motionView (dispatch1 _ _ _) = _
    rw [motionView_dispatch1, motionView_setState]
    rfl

theorem untouched_forced (s : State) : Untouched s (setState { s with mode := ASCOM } ASCOM) := by
  by_cases hm : s.lastMode = ASCOM
  · rw [setState_ascom_same { s with mode := ASCOM } hm]
    simp [Untouched]
  · rw [setState_ascom_changed { s with mode := ASCOM } hm]
    simp [Untouched]

theorem setBrightness_deviceId (s : State) (level : Int) :
    (setBrightness s level).deviceId = s.deviceId := by
  unfold setBrightness
  split <;> rfl

theorem dispatch4_B (s : State) (d : List Char) :
    dispatch4 s 'B' d =
      serialWrite
        (if s.lightStatus = ON then setBrightness { s with brightness := atoi d } (atoi d)
          else { s with brightness := atoi d })
        ("*B".toList ++ fmtD s.deviceId.toInt ++ fmt03D (atoi d) ++ "\n".toList) := by
  unfold dispatch4
  simp only
  split <;> simp only [setBrightness_brightness, setBrightness_deviceId]

theorem setBrightness_serialOut (s : State) (level : Int) :
    (setBrightness s level).serialOut = s.serialOut := by
  unfold setBrightness
  split <;> rfl

theorem dispatch4_B_fields (s : State) (d : List Char) :
    (dispatch4 s 'B' d).brightness = atoi d ∧
    (dispatch4 s 'B' d).serialOut = s.serialOut ++
      ("*B".toList ++ fmtD s.deviceId.toInt ++ fmt03D (atoi d) ++ "\n".toList) := by
  rw [dispatch4_B]
  by_cases h : s.lightStatus = ON
  · simp only [if_pos h, serialWrite, setBrightness_brightness, setBrightness_serialOut,
      and_self]
  · simp only [if_neg h, serialWrite, and_self]

/-- Effect of the command `B` of the V4 protocol. -/
theorem version4_B (s : State) (h : 6 ≤ s.serialIn.length) (hc : cmdChar (frame4 s) = 'B') :
    (version4 s).brightness = atoi (dataString (frame4 s)) ∧
    (version4 s).serialOut = s.serialOut ++
      ("*B".toList ++ fmtD s.deviceId.toInt ++ fmt03D (atoi (dataString (frame4 s)))
        ++ "\n".toList) ∧
    (version4 s).serialIn = [] := by
  obtain ⟨u1, _, _, _, _, _, _, _, _, _, _, u12, _⟩ := untouched_forced s
  rw [version4_of_frame s h, hc]
  dsimp only
  rw [(dispatch4_B_fields _ _).1, (dispatch4_B_fields _ _).2, u1, u12]
  exact ⟨rfl, rfl, rfl⟩

theorem dispatch4_J (s : State) (d : List Char) :
    dispatch4 s 'J' d =
      serialWrite s ("*J".toList ++ fmtD s.deviceId.toInt ++ fmt03D s.brightness
        ++ "\n".toList) := rfl

theorem dispatch1_J (s : State) (d : List Char) :
    dispatch1 s 'J' d =
      serialPrintln s ("*J".toList ++ fmtD s.deviceId.toInt ++ fmt03D s.brightness) := rfl

/-- Effect of the command `J` of the V4 protocol. -/
theorem version4_J (s : State) (h : 6 ≤ s.serialIn.length) (hc : cmdChar (frame4 s) = 'J') :
    (version4 s).brightness = s.brightness ∧
    (version4 s).serialOut = s.serialOut ++
      ("*J".toList ++ fmtD s.deviceId.toInt ++ fmt03D s.brightness ++ "\n".toList) := by
  obtain ⟨u1, u2, _, _, _, _, _, _, _, _, _, u12, _⟩ := untouched_forced s
  rw [version4_of_frame s h, hc, dispatch4_J]
  dsimp only [serialWrite]
  rw [u1, u2, u12]
  exact ⟨rfl, rfl⟩

/-- Effect of the command `J` of the legacy protocol. -/
theorem version1_J (s : State) (h : 6 ≤ s.serialIn.length) (hc : cmdChar (frame1 s) = 'J') :
    (version1 s).brightness = s.brightness ∧
    (version1 s).serialOut = s.serialOut ++
      ("*J".toList ++ fmtD s.deviceId.toInt ++ fmt03D s.brightness) ++ ['\r', '\n'] := by
  obtain ⟨u1, u2, _, _, _, _, _, _, _, _, _, u12, _⟩ := untouched_forced s
  rw [version1_of_frame s h, hc, dispatch1_J]
  dsimp only [serialPrintln]
  rw [u1, u2, u12]
  exact ⟨rfl, rfl⟩

set_option maxRecDepth 100000 in
/-- Reading, parsing and printing the three digits of a number below 256. -/
theorem threeDigits_facts : ∀ n, n < 256 →
    readBytesUntil '\r' 20 ('>' :: 'B' :: threeDigits n ++ ['\r'])
      = ('>' :: 'B' :: threeDigits n, []) ∧
    cmdChar ('>' :: 'B' :: threeDigits n) = 'B' ∧
    atoi (dataString ('>' :: 'B' :: threeDigits n)) = (n : Int) ∧
    fmt03D (n : Int) = threeDigits n := by
  decide

theorem dispatch4_D (s : State) (d : List Char) :
    dispatch4 s 'D' d =
      setBrightness
        { serialWrite s ("*D".toList ++ fmtD s.deviceId.toInt ++ "OOO\n".toList) with
          lightStatus := OFF } 0 := rfl

theorem dispatch4_L (s : State) (d : List Char) :
    dispatch4 s 'L' d =
      setBrightness
        { serialWrite s ("*L".toList ++ fmtD s.deviceId.toInt ++ "OOO\n".toList) with
          lightStatus := ON } s.brightness := rfl

theorem dispatch1_D (s : State) (d : List Char) :
    dispatch1 s 'D' d =
      setBrightness
        { serialPrintln s ("*D".toList ++ fmtD s.deviceId.toInt ++ "000".toList) with
          lightStatus := OFF } 0 := rfl

theorem dispatch1_L (s : State) (d : List Char) :
    dispatch1 s 'L' d =
      setBrightness
        { serialPrintln s ("*L".toList ++ fmtD s.deviceId.toInt ++ "000".toList) with
          lightStatus := ON } s.brightness := rfl

/-- Effect of the command `D` (light off) of the V4 protocol. -/
theorem version4_D (s : State) (h : 6 ≤ s.serialIn.length) (hc : cmdChar (frame4 s) = 'D') :
    (version4 s).lightStatus = OFF ∧ (version4 s).lastBrightness = 0 ∧
    (version4 s).brightness = s.brightness ∧
    (version4 s).pwmOut = s.pwmOut ++ (if 0 = s.lastBrightness then [] else [0]) ∧
    (version4 s).serialIn = [] := by
  obtain ⟨_, u2, _, _, _, _, u7, u8, _⟩ := untouched_forced s
  rw [version4_of_frame s h, hc, dispatch4_D]
  dsimp only
  rw [setBrightness_lightStatus, setBrightness_lastBrightness, setBrightness_brightness,
    setBrightness_pwmOut]
  dsimp only [serialWrite]
  rw [u2, u7, u8]
  exact ⟨rfl, rfl, rfl, rfl, rfl⟩

/-- Effect of the command `L` (light on) of the V4 protocol. -/
theorem version4_L (s : State) (h : 6 ≤ s.serialIn.length) (hc : cmdChar (frame4 s) = 'L') :
    (version4 s).lightStatus = ON ∧ (version4 s).lastBrightness = s.brightness ∧
    (version4 s).brightness = s.brightness ∧
    (version4 s).pwmOut = s.pwmOut ++
      (if s.brightness = s.lastBrightness then [] else [s.brightness]) ∧
    (version4 s).serialIn = [] := by
  obtain ⟨_, u2, _, _, _, _, u7, u8, _⟩ := untouched_forced s
  rw [version4_of_frame s h, hc, dispatch4_L]
  dsimp only
  rw [setBrightness_lightStatus, setBrightness_lastBrightness, setBrightness_brightness,
    setBrightness_pwmOut]
  dsimp only [serialWrite]
  rw [u2, u7, u8]
  exact ⟨rfl, rfl, rfl, rfl, rfl⟩

/-- Effect of the command `D` (light off) of the legacy protocol. -/
theorem version1_D (s : State) (h : 6 ≤ s.serialIn.length) (hc : cmdChar (frame1 s) = 'D') :
    (version1 s).lightStatus = OFF ∧ (version1 s).lastBrightness = 0 ∧
    (version1 s).brightness = s.brightness ∧
    (version1 s).pwmOut = s.pwmOut ++ (if 0 = s.lastBrightness then [] else [0]) ∧
    (version1 s).serialIn = [] := by
  obtain ⟨_, u2, _, _, _, _, u7, u8, _⟩ := untouched_forced s
  rw [version1_of_frame s h, hc, dispatch1_D]
  dsimp only
  rw [setBrightness_lightStatus, setBrightness_lastBrightness, setBrightness_brightness,
    setBrightness_pwmOut]
  dsimp only [serialPrintln]
  rw [u2, u7, u8]
  exact ⟨rfl, rfl, rfl, rfl, rfl⟩

/-- Effect of the command `L` (light on) of the legacy protocol. -/
theorem version1_L (s : State) (h : 6 ≤ s.serialIn.length) (hc : cmdChar (frame1 s) = 'L') :
    (version1 s).lightStatus = ON ∧ (version1 s).lastBrightness = s.brightness ∧
    (version1 s).brightness = s.brightness ∧
    (version1 s).pwmOut = s.pwmOut ++
      (if s.brightness = s.lastBrightness then [] else [s.brightness]) ∧
    (version1 s).serialIn = [] := by
  obtain ⟨_, u2, _, _, _, _, u7, u8, _⟩ := untouched_forced s
  rw [version1_of_frame s h, hc, dispatch1_L]
  dsimp only
  rw [setBrightness_lightStatus, setBrightness_lastBrightness, setBrightness_brightness,
    setBrightness_pwmOut]
  dsimp only [serialPrintln]
  rw [u2, u7, u8]
  exact ⟨rfl, rfl, rfl, rfl, rfl⟩

theorem untouched_setState_any (s : State) (m : panelMode) : Untouched s (setState s m) := by
  unfold setState
  split <;> simp [Untouched, updateDisplay]

/-- Fields after `processEncoder` when the button fires no edge and the rotary
value has not moved. -/
theorem processEncoder_quiet (s : State) (button : Bool) (he : ¬ buttonEdge s button)
    (hr : s.valRotary = s.lastValRotary) :
    (processEncoder s button).mode = s.mode ∧
    (processEncoder s button).brightness = s.brightness ∧
    (processEncoder s button).lastBrightness = s.lastBrightness ∧
    (processEncoder s button).pwmOut = s.pwmOut ∧
    (processEncoder s button).lightStatus = s.lightStatus ∧
    (processEncoder s button).lastButtonState = pinLevel button ∧
    (processEncoder s button).valRotary = s.valRotary ∧
    (processEncoder s button).lastValRotary = s.valRotary := by
  rw [processEncoder_eq, buttonPart_no_edge s button he]
  obtain ⟨a, b, c, d, e, f, g, h⟩ :=
    rotaryPart_still { s with lastButtonState := pinLevel button } hr
  exact ⟨d, a, b, c, e, h, g, f⟩

/-- Fields after `processEncoder` when the button fires an edge and the rotary
value has not moved. -/
theorem processEncoder_edge (s : State) (button : Bool) (he : buttonEdge s button)
    (hr : s.valRotary = s.lastValRotary) :
    (processEncoder s button).mode = (if s.mode = ASCOM then MANUAL else ASCOM) ∧
    (processEncoder s button).lastBrightness = (if s.mode = ASCOM then s.brightness else 0) ∧
    (processEncoder s button).brightness = s.brightness ∧
    (processEncoder s button).lastButtonState = 1 ∧
    (processEncoder s button).valRotary = s.valRotary ∧
    (processEncoder s button).lastValRotary = s.valRotary := by
  rw [processEncoder_eq, buttonPart_edge s button he]
  by_cases hm : s.mode = ASCOM
  · simp only [if_pos hm]
    obtain ⟨_, u2, _, _, _, _, _, _, _, _, _, _, _, _, u15, u16, _⟩ :=
      untouched_setState_any { s with mode := MANUAL } MANUAL
    have hm2 := (setState_notified { s with mode := MANUAL } MANUAL).2
    have hv : ({ setBrightness (setState { s with mode := MANUAL } MANUAL) s.brightness with
        lastButtonState := 1 } : State).valRotary
        = ({ setBrightness (setState { s with mode := MANUAL } MANUAL) s.brightness with
        lastButtonState := 1 } : State).lastValRotary := by
      dsimp only
      rw [setBrightness_valRotary, setBrightness_lastValRotary, u15, u16]
      exact hr
    obtain ⟨a, b, _, d, _, f, g, h⟩ := rotaryPart_still _ hv
    rw [a, b, d, f, g, h]
    dsimp only
    rw [setBrightness_brightness, setBrightness_lastBrightness, (setBrightness_mode _ _).1,
      setBrightness_valRotary, u2, u15, hm2]
    exact ⟨rfl, rfl, rfl, rfl, rfl, rfl⟩
  · simp only [if_neg hm]
    obtain ⟨_, u2, _, _, _, _, _, _, _, _, _, _, _, _, u15, u16, _⟩ :=
      untouched_setState_any { s with mode := ASCOM } ASCOM
    have hm2 := (setState_notified { s with mode := ASCOM } ASCOM).2
    have hv : ({ setBrightness (setState { s with mode := ASCOM } ASCOM) 0 with
        lastButtonState := 1 } : State).valRotary
        = ({ setBrightness (setState { s with mode := ASCOM } ASCOM) 0 with
        lastButtonState := 1 } : State).lastValRotary := by
      dsimp only
      rw [setBrightness_valRotary, setBrightness_lastValRotary, u15, u16]
      exact hr
    obtain ⟨a, b, _, d, _, f, g, h⟩ := rotaryPart_still _ hv
    rw [a, b, d, f, g, h]
    dsimp only
    rw [setBrightness_brightness, setBrightness_lastBrightness, (setBrightness_mode _ _).1,
      setBrightness_valRotary, u2, u15, hm2]
    exact ⟨rfl, rfl, rfl, rfl, rfl, rfl⟩

/-- Levels written to the PWM pin by `processEncoder` when the button fires an
edge and the rotary value has not moved: the level of the new mode, unless it
is the level applied last. -/
theorem processEncoder_edge_pwmOut (s : State) (button : Bool) (he : buttonEdge s button)
    (hr : s.valRotary = s.lastValRotary) :
    (processEncoder s button).pwmOut = s.pwmOut ++
      (if (if s.mode = ASCOM then s.brightness else 0) = s.lastBrightness then []
        else [if s.mode = ASCOM then s.brightness else 0]) := by
  rw [processEncoder_eq, buttonPart_edge s button he]
  by_cases hm : s.mode = ASCOM
  · simp only [if_pos hm]
    obtain ⟨_, _, _, _, _, _, u7, u8, _, _, _, _, _, _, u15, u16, _⟩ :=
      untouched_setState_any { s with mode := MANUAL } MANUAL
    have hv : ({ setBrightness (setState { s with mode := MANUAL } MANUAL) s.brightness with
        lastButtonState := 1 } : State).valRotary
        = ({ setBrightness (setState { s with mode := MANUAL } MANUAL) s.brightness with
        lastButtonState := 1 } : State).lastValRotary := by
      dsimp only
      rw [setBrightness_valRotary, setBrightness_lastValRotary, u15, u16]
      exact hr
    obtain ⟨_, _, c, _⟩ := rotaryPart_still _ hv
    rw [c]
    dsimp only
    rw [setBrightness_pwmOut, u7, u8]
  · simp only [if_neg hm]
    obtain ⟨_, _, _, _, _, _, u7, u8, _, _, _, _, _, _, u15, u16, _⟩ :=
      untouched_setState_any { s with mode := ASCOM } ASCOM
    have hv : ({ setBrightness (setState { s with mode := ASCOM } ASCOM) 0 with
        lastButtonState := 1 } : State).valRotary
        = ({ setBrightness (setState { s with mode := ASCOM } ASCOM) 0 with
        lastButtonState := 1 } : State).lastValRotary := by
      dsimp only
      rw [setBrightness_valRotary, setBrightness_lastValRotary, u15, u16]
      exact hr
    obtain ⟨_, _, c, _⟩ := rotaryPart_still _ hv
    rw [c]
    dsimp only
    rw [setBrightness_pwmOut, u7, u8]

/-! ## The claims C11 to C20 -/

/-- C11: with at least 6 bytes available the receive buffer is empty after
`version4` and after `version1`, whatever the bytes are; with fewer than 6
bytes available both functions return the state as it is: nothing is
consumed, nothing is sent and nothing changes. -/
theorem C11_buffer_drained_or_untouched (s : State) :
    (6 ≤ s.serialIn.length → (version4 s).serialIn = [] ∧ (version1 s).serialIn = []) ∧
    (s.serialIn.length < 6 → version4 s = s ∧ version1 s = s) := by
  constructor
  · intro h
    rw [version4_serialIn, version1_serialIn, if_pos h]
    exact ⟨rfl, rfl⟩
  · intro h
    exact ⟨version4_idle s h, version1_idle s h⟩

/-- C11 (witness): eight bytes `>X000` and two more are all discarded; three
bytes are left alone. -/
theorem C11_buffer_drained_or_untouched_witness :
    (version4 (receive initialState ">X000\rzz".toList)).serialIn = [] ∧
    version4 (receive initialState ">X0".toList) = receive initialState ">X0".toList :=
  ⟨((C11_buffer_drained_or_untouched (receive initialState ">X000\rzz".toList)).1
      (by decide)).1,
   ((C11_buffer_drained_or_untouched (receive initialState ">X0".toList)).2 (by decide)).1⟩

/-- C12: for every `n` from 0 to 255, with device id 19, `version4` on the
frame `>B`, the three zero-padded decimal digits of `n` and a carriage return
sets the brightness to `n` and writes exactly `*B19`, the same three digits
and a line feed. -/
theorem C12_set_brightness_round_trip (s : State) (n : ℕ) (hn : n ≤ 255)
    (hd : s.deviceId = FLAT_MAN)
    (hin : s.serialIn = '>' :: 'B' :: threeDigits n ++ ['\r']) :
    (version4 s).brightness = (n : Int) ∧
    (version4 s).serialOut = s.serialOut ++ ("*B19".toList ++ threeDigits n ++ ['\n']) := by
  obtain ⟨f1, f2, f3, f4⟩ := threeDigits_facts n (by omega)
  have hf : frame4 s = '>' :: 'B' :: threeDigits n := by
    rw [frame4, hin, f1]
  have h6 : 6 ≤ s.serialIn.length := by
    rw [hin]; simp [threeDigits]
  obtain ⟨b1, b2, _⟩ := version4_B s h6 (by rw [hf]; exact f2)
  rw [hf, f3] at b1 b2
  refine ⟨b1, ?_⟩
  rw [b2, f4, hd]
  rfl

/-- C12 (witness): the frame `>B128` gives brightness 128 and the response
`*B19128`. -/
theorem C12_set_brightness_round_trip_witness :
    (version4 (receive initialState ">B128\r".toList)).brightness = 128 ∧
    (version4 (receive initialState ">B128\r".toList)).serialOut = "*B19128\n".toList :=
  C12_set_brightness_round_trip (receive initialState ">B128\r".toList) 128 (by decide) rfl
    (by decide)

/-- C13 (counterexample): with the brightness set to 128 by the frame `>B128`
and device id 19, the command `J` is answered under V4 with `*J19128` and a
line feed, which is not `*B19128` and a line feed. -/
theorem C13_reply_letter_is_J :
    brightness128.brightness = 128 ∧ brightness128.deviceId = FLAT_MAN ∧
    (version4 (receive brightness128 ">JOOO\r".toList)).serialOut
      = brightness128.serialOut ++ "*J19128\n".toList ∧
    (version4 (receive brightness128 ">JOOO\r".toList)).serialOut
      ≠ brightness128.serialOut ++ "*B19128\n".toList := by
  decide

/-- C13 (amended): with brightness 128 and device id 19 the command `J` is
answered with `*J19128` followed by the line end, a line feed under V4 and the
carriage return and line feed of `Serial.println` under LEGACY: the reply
carries the command letter `J` and the brightness as three digits, and the
brightness stays 128. -/
theorem C13_get_brightness_reply (s : State) (hb : s.brightness = 128)
    (hd : s.deviceId = FLAT_MAN) :
    (s.serialIn = ">JOOO\r".toList →
      (version4 s).serialOut = s.serialOut ++ "*J19128\n".toList ∧
      (version4 s).brightness = 128) ∧
    (s.serialIn = ">J000\n".toList →
      (version1 s).serialOut = s.serialOut ++ "*J19128\r\n".toList ∧
      (version1 s).brightness = 128) := by
  constructor
  · intro hin
    have hf : cmdChar (frame4 s) = 'J' := by rw [frame4, hin]; decide
    obtain ⟨j1, j2⟩ := version4_J s (by rw [hin]; decide) hf
    rw [hb, hd] at j2
    exact ⟨j2, j1.trans hb⟩
  · intro hin
    have hf : cmdChar (frame1 s) = 'J' := by rw [frame1, hin]; decide
    obtain ⟨j1, j2⟩ := version1_J s (by rw [hin]; decide) hf
    rw [hb, hd] at j2
    exact ⟨by rw [j2, List.append_assoc]; rfl, j1.trans hb⟩

/-- C13 (witness): the amended statement at the state reached by the frame
`>B128`, for the V4 frame `>JOOO` and the legacy frame `>J000`. -/
theorem C13_get_brightness_reply_witness :
    (version4 (receive brightness128 ">JOOO\r".toList)).serialOut
      = (receive brightness128 ">JOOO\r".toList).serialOut ++ "*J19128\n".toList ∧
    (version1 (receive brightness128 ">J000\n".toList)).serialOut
      = (receive brightness128 ">J000\n".toList).serialOut ++ "*J19128\r\n".toList :=
  ⟨((C13_get_brightness_reply (receive brightness128 ">JOOO\r".toList) (by decide)
      (by decide)).1 (by decide)).1,
   ((C13_get_brightness_reply (receive brightness128 ">J000\n".toList) (by decide)
      (by decide)).2 (by decide)).1⟩

/-- C14: for every state, under either dialect, the command `D` sets the light
status to OFF, makes the applied level (`lastBrightness`) 0, writing 0 to the
PWM pin unless 0 was the level applied last, and leaves the stored brightness
unchanged; the command `L` received next sets the light status to ON and makes
the applied level equal to that stored brightness, writing the stored
brightness to the PWM pin unless it is 0, the level the pin already has. -/
theorem C14_light_off_then_on (s : State) (bytes : List Char) (h : 6 ≤ s.serialIn.length)
    (hb : 6 ≤ bytes.length) :
    (cmdChar (frame4 s) = 'D' →
      ((version4 s).lightStatus = OFF ∧ (version4 s).lastBrightness = 0 ∧
        (version4 s).brightness = s.brightness ∧
        (version4 s).pwmOut = s.pwmOut ++ (if 0 = s.lastBrightness then [] else [0])) ∧
      (cmdChar (frame4 (receive (version4 s) bytes)) = 'L' →
        (version4 (receive (version4 s) bytes)).lightStatus = ON ∧
        (version4 (receive (version4 s) bytes)).lastBrightness = s.brightness ∧
        (version4 (receive (version4 s) bytes)).brightness = s.brightness ∧
        (version4 (receive (version4 s) bytes)).pwmOut = (version4 s).pwmOut ++
          (if s.brightness = 0 then [] else [s.brightness]))) ∧
    (cmdChar (frame1 s) = 'D' →
      ((version1 s).lightStatus = OFF ∧ (version1 s).lastBrightness = 0 ∧
        (version1 s).brightness = s.brightness ∧
        (version1 s).pwmOut = s.pwmOut ++ (if 0 = s.lastBrightness then [] else [0])) ∧
      (cmdChar (frame1 (receive (version1 s) bytes)) = 'L' →
        (version1 (receive (version1 s) bytes)).lightStatus = ON ∧
        (version1 (receive (version1 s) bytes)).lastBrightness = s.brightness ∧
        (version1 (receive (version1 s) bytes)).brightness = s.brightness ∧
        (version1 (receive (version1 s) bytes)).pwmOut = (version1 s).pwmOut ++
          (if s.brightness = 0 then [] else [s.brightness]))) := by
  constructor
  · intro hd
    obtain ⟨d1, d2, d3, d4, d5⟩ := version4_D s h hd
    refine ⟨⟨d1, d2, d3, d4⟩, fun hl => ?_⟩
    have h6 : 6 ≤ (receive (version4 s) bytes).serialIn.length := by
      show 6 ≤ ((version4 s).serialIn ++ bytes).length
      rw [d5]; exact hb
    obtain ⟨l1, l2, l3, l4, _⟩ := version4_L _ h6 hl
    have e1 : (receive (version4 s) bytes).brightness = s.brightness := d3
    have e2 : (receive (version4 s) bytes).lastBrightness = 0 := d2
    rw [e1, e2] at l4
    exact ⟨l1, l2.trans d3, l3.trans d3, l4⟩
  · intro hd
    obtain ⟨d1, d2, d3, d4, d5⟩ := version1_D s h hd
    refine ⟨⟨d1, d2, d3, d4⟩, fun hl => ?_⟩
    have h6 : 6 ≤ (receive (version1 s) bytes).serialIn.length := by
      show 6 ≤ ((version1 s).serialIn ++ bytes).length
      rw [d5]; exact hb
    obtain ⟨l1, l2, l3, l4, _⟩ := version1_L _ h6 hl
    have e1 : (receive (version1 s) bytes).brightness = s.brightness := d3
    have e2 : (receive (version1 s) bytes).lastBrightness = 0 := d2
    rw [e1, e2] at l4
    exact ⟨l1, l2.trans d3, l3.trans d3, l4⟩

/-- C14 (witness): with the stored brightness 128, `D` then `L` under V4
and under LEGACY: the level 128 is applied and written to the PWM pin. -/
theorem C14_light_off_then_on_witness :
    (version4 (receive (version4 (receive brightness128 ">DOOO\r".toList))
      ">LOOO\r".toList)).lastBrightness = 128 ∧
    (version1 (receive (version1 (receive brightness128 ">D000\n".toList))
      ">L000\n".toList)).lastBrightness = 128 ∧
    (version4 (receive (version4 (receive brightness128 ">DOOO\r".toList))
      ">LOOO\r".toList)).pwmOut =
      (version4 (receive brightness128 ">DOOO\r".toList)).pwmOut ++
        (if (receive brightness128 ">DOOO\r".toList).brightness = 0 then []
          else [(receive brightness128 ">DOOO\r".toList).brightness]) :=
  ⟨(((C14_light_off_then_on (receive brightness128 ">DOOO\r".toList) ">LOOO\r".toList
      (by decide) (by decide)).1 (by decide)).2 (by decide)).2.1,
   (((C14_light_off_then_on (receive brightness128 ">D000\n".toList) ">L000\n".toList
      (by decide) (by decide)).2 (by decide)).2 (by decide)).2.1,
   (((C14_light_off_then_on (receive brightness128 ">DOOO\r".toList) ">LOOO\r".toList
      (by decide) (by decide)).1 (by decide)).2 (by decide)).2.2.2⟩

/-- C15: for a level that differs from the last applied level, the first call
of `setBrightness` writes the level to the PWM pin, refreshes the display and
records the level; a second call with the same level writes nothing,
refreshes nothing and returns the state unchanged. -/
theorem C15_setBrightness_twice (s : State) (level : Int) (h : level ≠ s.lastBrightness) :
    (setBrightness s level).pwmOut = s.pwmOut ++ [level] ∧
    (setBrightness s level).displayOut = s.displayOut ++ [(s.mode, level, s.protocol)] ∧
    (setBrightness s level).lastBrightness = level ∧
    setBrightness (setBrightness s level) level = setBrightness s level ∧
    (setBrightness (setBrightness s level) level).pwmOut = s.pwmOut ++ [level] := by
  have e : setBrightness s level = { s with
      pwmOut := s.pwmOut ++ [level]
      displayOut := s.displayOut ++ [(s.mode, level, s.protocol)]
      lastBrightness := level } := by
    unfold setBrightness
    rw [if_pos h]
    rfl
  have e2 : setBrightness (setBrightness s level) level = setBrightness s level := by
    have hl : (setBrightness s level).lastBrightness = level := by rw [e]
    generalize setBrightness s level = t at hl ⊢
    unfold setBrightness
    rw [if_neg (not_not.mpr hl.symm)]
  refine ⟨by rw [e], by rw [e], by rw [e], e2, by rw [e2, e]⟩

/-- C15 (witness): the level 128 applied twice in the initial state. -/
theorem C15_setBrightness_twice_witness :
    (setBrightness (setBrightness initialState 128) 128).pwmOut = [128] :=
  (C15_setBrightness_twice initialState 128 (by decide)).2.2.2.2

/-- C16 (counterexample): in a reachable state with mode ASCOM and no button
edge, but with a rotary difference left over from MANUAL mode,
`processEncoder` changes the brightness from 0 to 1 and writes 1 to the PWM
pin. -/
theorem C16_leftover_rotary_applied_in_ascom :
    Reachable pendingInAscom ∧ pendingInAscom.mode = ASCOM ∧ ¬ buttonEdge pendingInAscom true ∧
    pendingInAscom.valRotary = -1 ∧ pendingInAscom.lastValRotary = 0 ∧
    pendingInAscom.brightness = 0 ∧ pendingInAscom.pwmOut = [] ∧
    (processEncoder pendingInAscom true).brightness = 1 ∧
    (processEncoder pendingInAscom true).lastBrightness = 1 ∧
    (processEncoder pendingInAscom true).pwmOut = [1] := by
  refine ⟨?_, ?_⟩
  · exact Reachable.version4 _ (Reachable.receive _ _ (Reachable.doEncoder _ _
      (Reachable.doEncoder _ _ (Reachable.doEncoder _ _ (Reachable.processEncoder _ _
        (Reachable.processEncoder _ _ Reachable.boot))))))
  · unfold buttonEdge
    decide

/-- C16 (amended): in every state with mode ASCOM and no button edge,
`processEncoder` leaves the brightness, the applied level and the PWM output
unchanged when `valRotary` equals `lastValRotary`; and while the mode is ASCOM
`doEncoder` changes nothing, so rotary movement made in ASCOM mode never
makes the two values differ. -/
theorem C16_ascom_ignores_rotary (s : State) (button : Bool) (hm : s.mode = ASCOM)
    (he : ¬ buttonEdge s button) :
    (s.valRotary = s.lastValRotary →
      (processEncoder s button).brightness = s.brightness ∧
      (processEncoder s button).lastBrightness = s.lastBrightness ∧
      (processEncoder s button).pwmOut = s.pwmOut ∧
      (processEncoder s button).mode = ASCOM) ∧
    (∀ same : Bool, doEncoder s same = s) := by
  constructor
  · intro hr
    obtain ⟨a, b, c, d, _⟩ := processEncoder_quiet s button he hr
    exact ⟨b, c, d, a.trans hm⟩
  · intro same
    unfold doEncoder
    rw [if_neg (by rw [hm]; decide)]

/-- C16 (witness): the amended statement at the initial state with the button
at 0. -/
theorem C16_ascom_ignores_rotary_witness :
    (processEncoder initialState false).brightness = 0 ∧
    doEncoder initialState true = initialState :=
  ⟨((C16_ascom_ignores_rotary initialState false rfl (by unfold buttonEdge; decide)).1
      rfl).1,
   (C16_ascom_ignores_rotary initialState false rfl (by unfold buttonEdge; decide)).2 true⟩

/-- C17: with no pending rotary movement, a button edge (level 1 after a
sampled 0) in ASCOM mode sets the mode to MANUAL and makes the applied level
the stored brightness, which is written to the PWM pin unless it is the level
applied last; an edge in MANUAL mode sets the mode to ASCOM and makes the
applied level 0 whatever the stored brightness, which is unchanged, 0 being
written to the PWM pin unless it is the level applied last; so a press, a
sample at 0 and a second press starting in ASCOM end in ASCOM with applied
level 0, the second press writing 0 to the PWM pin unless the stored
brightness is 0; the very first sample (`lastButtonState = -1`) fires no edge
at either level. -/
theorem C17_button_toggles_mode (s : State) (hr : s.valRotary = s.lastValRotary) :
    (s.lastButtonState = 0 → s.mode = ASCOM →
      ((processEncoder s true).mode = MANUAL ∧
        (processEncoder s true).lastBrightness = s.brightness ∧
        (processEncoder s true).brightness = s.brightness ∧
        (processEncoder s true).pwmOut = s.pwmOut ++
          (if s.brightness = s.lastBrightness then [] else [s.brightness])) ∧
      ((processEncoder (processEncoder (processEncoder s true) false) true).mode = ASCOM ∧
        (processEncoder (processEncoder (processEncoder s true) false) true).lastBrightness
          = 0 ∧
        (processEncoder (processEncoder (processEncoder s true) false) true).brightness
          = s.brightness ∧
        (processEncoder (processEncoder (processEncoder s true) false) true).pwmOut
          = (processEncoder s true).pwmOut ++ (if 0 = s.brightness then [] else [0]))) ∧
    (s.lastButtonState = 0 → s.mode = MANUAL →
      (processEncoder s true).mode = ASCOM ∧
      (processEncoder s true).lastBrightness = 0 ∧
      (processEncoder s true).brightness = s.brightness ∧
      (processEncoder s true).pwmOut = s.pwmOut ++
        (if 0 = s.lastBrightness then [] else [0])) ∧
    (s.lastButtonState = -1 → ∀ button : Bool,
      (processEncoder s button).mode = s.mode ∧
      (processEncoder s button).lastBrightness = s.lastBrightness ∧
      (processEncoder s button).brightness = s.brightness ∧
      (processEncoder s button).pwmOut = s.pwmOut ∧
      (processEncoder s button).lastButtonState = pinLevel button) := by
  refine ⟨?_, ?_, ?_⟩
  · intro hl hm
    have he : buttonEdge s true := ⟨rfl, by rw [hl]; decide, by rw [hl]; decide⟩
    obtain ⟨a1, a2, a3, a4, a5, a6⟩ := processEncoder_edge s true he hr
    have p1 := processEncoder_edge_pwmOut s true he hr
    rw [if_pos hm] at a1 a2 p1
    refine ⟨⟨a1, a2, a3, p1⟩, ?_⟩
    have he2 : ¬ buttonEdge (processEncoder s true) false := fun h => absurd h.1 (by decide)
    obtain ⟨b1, b2, b3, b4, _, b6, b7, b8⟩ :=
      processEncoder_quiet (processEncoder s true) false he2 (a5.trans a6.symm)
    have he3 : buttonEdge (processEncoder (processEncoder s true) false) true :=
      ⟨rfl, by rw [b6]; decide, by rw [b6]; decide⟩
    obtain ⟨c1, c2, c3, _⟩ :=
      processEncoder_edge (processEncoder (processEncoder s true) false) true he3
        (b7.trans b8.symm)
    have p3 := processEncoder_edge_pwmOut (processEncoder (processEncoder s true) false) true
      he3 (b7.trans b8.symm)
    rw [b1, a1] at c1 c2
    have e : (if MANUAL = ASCOM then
        (processEncoder (processEncoder s true) false).brightness else 0) = 0 :=
      if_neg (by decide)
    rw [b1, a1, e, b3, a2, b4] at p3
    exact ⟨c1, c2, c3.trans (b2.trans a3), p3⟩
  · intro hl hm
    have he : buttonEdge s true := ⟨rfl, by rw [hl]; decide, by rw [hl]; decide⟩
    obtain ⟨a1, a2, a3, _⟩ := processEncoder_edge s true he hr
    have p1 := processEncoder_edge_pwmOut s true he hr
    have e : (if s.mode = ASCOM then s.brightness else 0) = 0 :=
      if_neg (by rw [hm]; decide)
    rw [if_neg (by rw [hm]; decide)] at a1 a2
    rw [e] at p1
    exact ⟨a1, a2, a3, p1⟩
  · intro hl button
    have he : ¬ buttonEdge s button := fun h => h.2.1 hl
    obtain ⟨a, b, c, d, _, f, _⟩ := processEncoder_quiet s button he hr
    exact ⟨a, c, b, d, f⟩

/-- C17 (witness): with the stored brightness 128 and the button sampled at 0,
a press enters MANUAL mode and applies 128, which is written to the PWM pin; a
second press returns to ASCOM and applies 0. -/
theorem C17_button_toggles_mode_witness :
    (processEncoder (processEncoder brightness128 false) true).mode = MANUAL ∧
    (processEncoder (processEncoder brightness128 false) true).lastBrightness = 128 ∧
    (processEncoder (processEncoder (processEncoder (processEncoder brightness128 false) true)
      false) true).lastBrightness = 0 ∧
    (processEncoder (processEncoder brightness128 false) true).pwmOut =
      (processEncoder brightness128 false).pwmOut ++
        (if (processEncoder brightness128 false).brightness
            = (processEncoder brightness128 false).lastBrightness then []
          else [(processEncoder brightness128 false).brightness]) :=
  ⟨(((C17_button_toggles_mode (processEncoder brightness128 false) (by decide)).1
      (by decide) (by decide)).1).1,
   (((C17_button_toggles_mode (processEncoder brightness128 false) (by decide)).1
      (by decide) (by decide)).1).2.1,
   (((C17_button_toggles_mode (processEncoder brightness128 false) (by decide)).1
      (by decide) (by decide)).2).2.1,
   (((C17_button_toggles_mode (processEncoder brightness128 false) (by decide)).1
      (by decide) (by decide)).1).2.2.2⟩

/-- C18: with the protocol switch on LEGACY one call of `processSerial` is
`version1` alone: no step is sent to the stepper and angle, motor status and
cover status are unchanged, for every state and every content of the receive
buffer; with the switch on V4 it is `version4` followed by one call of
`handleMotor`, whether or not a frame was available. -/
theorem C18_legacy_never_steps (s : State) :
    processSerial s true = version1 s ∧
    (processSerial s true).stepperOut = s.stepperOut ∧
    (processSerial s true).currentAngle = s.currentAngle ∧
    (processSerial s true).motorStatus = s.motorStatus ∧
    (processSerial s true).coverStatus = s.coverStatus ∧
    processSerial s false = handleMotor (version4 s) := by
  have e : processSerial s true = version1 s := rfl
  have h := motionView_version1 s
  simp only [motionView, Prod.mk.injEq] at h
  obtain ⟨h1, h2, h3, h4⟩ := h
  rw [e]
  exact ⟨rfl, h4, h2, h3, h1, rfl⟩

/-- C19: for every state with the brightness in [0,255] and no button edge,
`processEncoder` sets the brightness to `max (brightness - 1) 0` when
`valRotary` is above `lastValRotary`, to `min (brightness + 1) 255` when it is
below, and leaves it unchanged when they are equal; in the first two cases the
applied level is the new brightness, which is written to the PWM pin unless it
is the level applied last; in the third case nothing is written; afterwards
`lastValRotary` is `valRotary`. -/
theorem C19_rotary_steps_brightness (s : State) (button : Bool) (h0 : 0 ≤ s.brightness)
    (h1 : s.brightness ≤ 255) (he : ¬ buttonEdge s button) :
    (s.valRotary > s.lastValRotary →
      (processEncoder s button).brightness = max (s.brightness - 1) 0 ∧
      (processEncoder s button).lastBrightness = (processEncoder s button).brightness ∧
      (processEncoder s button).pwmOut = s.pwmOut ++
        (if (processEncoder s button).brightness = s.lastBrightness then []
          else [(processEncoder s button).brightness])) ∧
    (s.valRotary < s.lastValRotary →
      (processEncoder s button).brightness = min (s.brightness + 1) 255 ∧
      (processEncoder s button).lastBrightness = (processEncoder s button).brightness ∧
      (processEncoder s button).pwmOut = s.pwmOut ++
        (if (processEncoder s button).brightness = s.lastBrightness then []
          else [(processEncoder s button).brightness])) ∧
    (s.valRotary = s.lastValRotary →
      (processEncoder s button).brightness = s.brightness ∧
      (processEncoder s button).lastBrightness = s.lastBrightness ∧
      (processEncoder s button).pwmOut = s.pwmOut) ∧
    (processEncoder s button).lastValRotary = (processEncoder s button).valRotary ∧
    (processEncoder s button).valRotary = s.valRotary := by
  rw [processEncoder_eq, buttonPart_no_edge s button he]
  have hdec : wrapInt (s.brightness - MANUAL_INCREMENT) = s.brightness - 1 := by
    unfold MANUAL_INCREMENT
    exact wrapInt_of_small _ (by omega) (by omega)
  have hinc : wrapInt (s.brightness + MANUAL_INCREMENT) = s.brightness + 1 := by
    unfold MANUAL_INCREMENT
    exact wrapInt_of_small _ (by omega) (by omega)
  refine ⟨?_, ?_, ?_, ?_⟩
  · intro hgt
    obtain ⟨a, b, c, _⟩ := rotaryPart_gt { s with lastButtonState := pinLevel button } hgt
    refine ⟨?_, b, c⟩
    rw [a]
    dsimp only
    rw [hdec]
    split <;> omega
  · intro hlt
    obtain ⟨a, b, c, _⟩ := rotaryPart_lt { s with lastButtonState := pinLevel button } hlt
    refine ⟨?_, b, c⟩
    rw [a]
    dsimp only
    rw [hinc]
    split <;> omega
  · intro heq
    obtain ⟨a, b, c, _⟩ := rotaryPart_still { s with lastButtonState := pinLevel button } heq
    exact ⟨a, b, c⟩
  · rcases lt_trichotomy s.valRotary s.lastValRotary with h | h | h
    · obtain ⟨_, _, _, _, _, f, g, _⟩ :=
        rotaryPart_lt { s with lastButtonState := pinLevel button } h
      exact ⟨f.trans g.symm, g⟩
    · obtain ⟨_, _, _, _, _, f, g, _⟩ :=
        rotaryPart_still { s with lastButtonState := pinLevel button } h
      exact ⟨f.trans g.symm, g⟩
    · obtain ⟨_, _, _, _, _, f, g, _⟩ :=
        rotaryPart_gt { s with lastButtonState := pinLevel button } h
      exact ⟨f.trans g.symm, g⟩

/-- C19 (witness): in the state with a rotary value one below the last one,
`processEncoder` raises the brightness from 0 to 1, applies it and writes it
to the PWM pin. -/
theorem C19_rotary_steps_brightness_witness :
    (processEncoder pendingInAscom true).brightness = min (pendingInAscom.brightness + 1) 255 ∧
    (processEncoder pendingInAscom true).lastBrightness = 1 ∧
    (processEncoder pendingInAscom true).pwmOut = pendingInAscom.pwmOut ++
      (if (processEncoder pendingInAscom true).brightness = pendingInAscom.lastBrightness
        then [] else [(processEncoder pendingInAscom true).brightness]) :=
  ⟨((C19_rotary_steps_brightness pendingInAscom true (by decide) (by decide)
      (by unfold buttonEdge; decide)).2.1 (by decide)).1,
   ((C19_rotary_steps_brightness pendingInAscom true (by decide) (by decide)
      (by unfold buttonEdge; decide)).2.1 (by decide)).2.1,
   ((C19_rotary_steps_brightness pendingInAscom true (by decide) (by decide)
      (by unfold buttonEdge; decide)).2.1 (by decide)).2.2⟩

/-! ## Length of the responses -/

theorem natDigits_length_le (n e : Nat) (he : 0 < e) (h : n < 10 ^ e) :
    (natDigits n).length ≤ e :=
  Nat.toDigitsCore_length 10 (by decide) (n + 1) n e h he

/-- Length of the text printed by `%03d` for a number from -999 to 9999. -/
theorem fmt03D_length_le (n : Int) (h1 : -999 ≤ n) (h2 : n ≤ 9999) :
    (fmt03D n).length ≤ 4 := by
  unfold fmt03D
  split
  · have h : (natDigits n.natAbs).length ≤ 3 :=
      natDigits_length_le _ 3 (by decide) (by norm_num; omega)
    simp only [List.length_cons, List.length_append, List.length_replicate]
    omega
  · have h : (natDigits n.natAbs).length ≤ 4 :=
      natDigits_length_le _ 4 (by decide) (by norm_num; omega)
    simp only [List.length_append, List.length_replicate]
    omega

/-- The digit loop of `atoi` on `l` yields less than `(acc + 1) * 10 ^ l.length`. -/
theorem atoiDigits_bounds (l : List Char) (acc : Int) (h : 0 ≤ acc) :
    0 ≤ atoiDigits l acc ∧ atoiDigits l acc < (acc + 1) * 10 ^ l.length := by
  induction l generalizing acc with
  | nil => simp [atoiDigits, h]
  | cons c cs ih =>
    have hp : (0 : Int) < 10 ^ cs.length := by positivity
    unfold atoiDigits
    split
    · rename_i hd
      have hc : ((c.toNat - 48 : Nat) : Int) ≤ 9 := by
        simp only [isdigit, Bool.and_eq_true, decide_eq_true_eq] at hd
        omega
      have h0 : (0 : Int) ≤ ((c.toNat - 48 : Nat) : Int) := Int.ofNat_nonneg _
      obtain ⟨a, b⟩ := ih (acc * 10 + ((c.toNat - 48 : Nat) : Int)) (by omega)
      refine ⟨a, lt_of_lt_of_le b ?_⟩
      rw [List.length_cons, pow_succ]
      have h3 : (acc * 10 + ((c.toNat - 48 : Nat) : Int) + 1) ≤ (acc + 1) * 10 := by omega
      calc (acc * 10 + ((c.toNat - 48 : Nat) : Int) + 1) * 10 ^ cs.length
          ≤ ((acc + 1) * 10) * 10 ^ cs.length := mul_le_mul_of_nonneg_right h3 hp.le
        _ = (acc + 1) * (10 ^ cs.length * 10) := by ring
    · refine ⟨h, ?_⟩
      rw [List.length_cons, pow_succ]
      nlinarith

theorem atoiDigits_short (l : List Char) (h : l.length ≤ 3) :
    0 ≤ atoiDigits l 0 ∧ atoiDigits l 0 ≤ 999 := by
  obtain ⟨a, b⟩ := atoiDigits_bounds l 0 le_rfl
  have hp : (10 : Int) ^ l.length ≤ 10 ^ 3 := pow_le_pow_right₀ (by norm_num) h
  refine ⟨a, ?_⟩
  norm_num at b hp
  omega

/-- The number read by `atoi` from at most three characters. -/
theorem atoi_short (d : List Char) (h : d.length ≤ 3) : -999 ≤ atoi d ∧ atoi d ≤ 999 := by
  have hl : (d.dropWhile isspace).length ≤ 3 :=
    le_trans (List.dropWhile_sublist _).length_le h
  unfold atoi
  split
  · rename_i cs heq
    rw [heq, List.length_cons] at hl
    obtain ⟨a, b⟩ := atoiDigits_short cs (by omega)
    unfold wrapInt
    omega
  · rename_i cs heq
    rw [heq, List.length_cons] at hl
    obtain ⟨a, b⟩ := atoiDigits_short cs (by omega)
    unfold wrapInt
    omega
  · obtain ⟨a, b⟩ := atoiDigits_short _ hl
    unfold wrapInt
    omega

/-- The bytes stored by `readBytesUntil` stop before the first terminator. -/
theorem readBytesUntil_fst_length (t : Char) (n : Nat) (inp : List Char) (k : Nat)
    (hk : k < inp.length) (h : inp.getD k 'x' = t) :
    (readBytesUntil t n inp).1.length ≤ k := by
  induction inp generalizing n k with
  | nil => simp at hk
  | cons c cs ih =>
    cases n with
    | zero => simp [readBytesUntil]
    | succ n =>
      unfold readBytesUntil
      split
      · simp
      · rename_i hc
        cases k with
        | zero => exact absurd h hc
        | succ k =>
          simp only [List.length_cons]
          have := ih n k (by simpa using hk) (by simpa using h)
          omega

/-- The payload of a well-formed frame has at most three characters. -/
theorem dataString_short (t : Char) (f : List Char) (h : wellFormed t f) :
    (dataString (readBytesUntil t 20 f).1).length ≤ 3 := by
  have h5 := readBytesUntil_fst_length t 20 f 5 (by rw [h.1]; decide) h.2
  unfold dataString
  refine le_trans (List.takeWhile_sublist _).length_le ?_
  rw [List.length_drop]
  omega

theorem setShutter_serialOut (s : State) (val : shutterStatuses) :
    (setShutter s val).serialOut = s.serialOut := by
  unfold setShutter
  repeat' split
  all_goals rfl

theorem setShutter_deviceId (s : State) (val : shutterStatuses) :
    (setShutter s val).deviceId = s.deviceId := by
  unfold setShutter
  repeat' split
  all_goals rfl

/-- The status digits of the reply to `S` take one character each. -/
theorem status_digits (m : motorStatuses) (l : lightStatuses) (c : shutterStatuses) :
    (fmtD m.toInt).length = 1 ∧ (fmtD l.toInt).length = 1 ∧ (fmtD c.toInt).length = 1 := by
  cases m <;> cases l <;> cases c <;> decide

/-- Text formatted by the `switch` of `version4`: at most nine characters when
the stored brightness lies between -999 and 9999 and the payload has at most
three characters. -/
theorem dispatch4_reply (s : State) (c : Char) (d : List Char) (hd : s.deviceId = FLAT_MAN)
    (h1 : -999 ≤ s.brightness) (h2 : s.brightness ≤ 9999) (hl : d.length ≤ 3) :
    ∃ temp, (dispatch4 s c d).serialOut = s.serialOut ++ temp ∧ temp.length ≤ 9 := by
  have hid : fmtD s.deviceId.toInt = ['1', '9'] := by rw [hd]; decide
  have hb := fmt03D_length_le s.brightness h1 h2
  have ha := fmt03D_length_le (atoi d) (atoi_short d hl).1 (by have := (atoi_short d hl).2; omega)
  obtain ⟨m1, m2, m3⟩ := status_digits s.motorStatus s.lightStatus s.coverStatus
  by_cases hB : c = 'B'
  · subst hB
    refine ⟨_, (dispatch4_B_fields s d).2, ?_⟩
    simp only [List.length_append, hid, String.toList, List.length_cons, List.length_nil]
    omega
  unfold dispatch4
  split
  · exact ⟨_, rfl, by rw [hid]; decide⟩
  · refine ⟨"*O".toList ++ fmtD s.deviceId.toInt ++ "OOO\n".toList, ?_, by rw [hid]; decide⟩
    simp only [serialWrite, setShutter_serialOut]
  · refine ⟨"*C".toList ++ fmtD s.deviceId.toInt ++ "OOO\n".toList, ?_, by rw [hid]; decide⟩
    simp only [serialWrite, setShutter_serialOut]
  · refine ⟨"*L".toList ++ fmtD s.deviceId.toInt ++ "OOO\n".toList, ?_, by rw [hid]; decide⟩
    simp only [serialWrite, setBrightness_serialOut]
  · refine ⟨"*D".toList ++ fmtD s.deviceId.toInt ++ "OOO\n".toList, ?_, by rw [hid]; decide⟩
    simp only [serialWrite, setBrightness_serialOut]
  · exact absurd rfl hB
  · refine ⟨_, rfl, ?_⟩
    simp only [List.length_append, hid, String.toList, List.length_cons, List.length_nil]
    omega
  · refine ⟨_, rfl, ?_⟩
    simp only [List.length_append, hid, String.toList, List.length_cons, List.length_nil,
      m1, m2, m3]
    omega
  · exact ⟨_, rfl, by rw [hid]; decide⟩
  · exact ⟨[], by simp, by decide⟩

theorem dispatch1_B_fields (s : State) (d : List Char) :
    (dispatch1 s 'B' d).serialOut = s.serialOut ++
      ("*B".toList ++ fmtD s.deviceId.toInt ++ fmt03D (atoi d)) ++ ['\r', '\n'] := by
  unfold dispatch1
  simp only
  split <;>
    simp only [serialPrintln, setBrightness_brightness, setBrightness_deviceId,
      setBrightness_serialOut]

/-- Text formatted by the `switch` of `version1`: at most nine characters when
the stored brightness lies between -999 and 9999 and the payload has at most
three characters. -/
theorem dispatch1_reply (s : State) (c : Char) (d : List Char) (hd : s.deviceId = FLAT_MAN)
    (h1 : -999 ≤ s.brightness) (h2 : s.brightness ≤ 9999) (hl : d.length ≤ 3) :
    (dispatch1 s c d).serialOut = s.serialOut ∨
    ∃ temp, (dispatch1 s c d).serialOut = s.serialOut ++ temp ++ ['\r', '\n'] ∧
      temp.length ≤ 9 := by
  have hid : fmtD s.deviceId.toInt = ['1', '9'] := by rw [hd]; decide
  have hb := fmt03D_length_le s.brightness h1 h2
  have ha := fmt03D_length_le (atoi d) (atoi_short d hl).1 (by have := (atoi_short d hl).2; omega)
  obtain ⟨m1, m2, m3⟩ := status_digits s.motorStatus s.lightStatus s.coverStatus
  by_cases hB : c = 'B'
  · subst hB
    refine Or.inr ⟨_, dispatch1_B_fields s d, ?_⟩
    simp only [List.length_append, hid, String.toList, List.length_cons, List.length_nil]
    omega
  unfold dispatch1
  split
  · exact Or.inr ⟨_, rfl, by rw [hid]; decide⟩
  · refine Or.inr ⟨"*O".toList ++ fmtD s.deviceId.toInt ++ "000".toList, ?_, by rw [hid]; decide⟩
    simp only [serialPrintln, setShutter_serialOut]
  · refine Or.inr ⟨"*C".toList ++ fmtD s.deviceId.toInt ++ "000".toList, ?_, by rw [hid]; decide⟩
    simp only [serialPrintln, setShutter_serialOut]
  · refine Or.inr ⟨"*L".toList ++ fmtD s.deviceId.toInt ++ "000".toList, ?_, by rw [hid]; decide⟩
    simp only [serialPrintln, setBrightness_serialOut]
  · refine Or.inr ⟨"*D".toList ++ fmtD s.deviceId.toInt ++ "000".toList, ?_, by rw [hid]; decide⟩
    simp only [serialPrintln, setBrightness_serialOut]
  · exact absurd rfl hB
  · refine Or.inr ⟨_, rfl, ?_⟩
    simp only [List.length_append, hid, String.toList, List.length_cons, List.length_nil]
    omega
  · refine Or.inr ⟨_, rfl, ?_⟩
    simp only [List.length_append, hid, String.toList, List.length_cons, List.length_nil,
      m1, m2, m3]
    omega
  · exact Or.inr ⟨_, rfl, by rw [hid]; decide⟩
  · exact Or.inl rfl

/-- Under V4 the response to a well-formed frame has at most nine characters
when the device is the Flat-Man and the stored brightness lies between -999
and 9999. -/
theorem version4_reply_fits (s : State) (hd : s.deviceId = FLAT_MAN)
    (h1 : -999 ≤ s.brightness) (h2 : s.brightness ≤ 9999)
    (hf : wellFormed '\r' s.serialIn) :
    (written s (version4 s)).length ≤ 9 := by
  obtain ⟨u1, u2, _, _, _, _, _, _, _, _, _, u12, _⟩ := untouched_forced s
  have h6 : 6 ≤ s.serialIn.length := by rw [hf.1]
  obtain ⟨temp, e, hl⟩ := dispatch4_reply (setState { s with mode := ASCOM } ASCOM)
    (cmdChar (frame4 s)) (dataString (frame4 s)) (by rw [u12, hd]) (by rw [u2]; exact h1)
    (by rw [u2]; exact h2) (dataString_short '\r' s.serialIn hf)
  unfold written
  rw [version4_of_frame s h6]
  dsimp only
  rw [e, u1, List.drop_left]
  exact hl

/-- Under the legacy protocol the text formatted for a well-formed frame has at
most nine characters when the device is the Flat-Man and the stored brightness
lies between -999 and 9999; `Serial.println` adds the line ending. -/
theorem version1_reply_fits (s : State) (hd : s.deviceId = FLAT_MAN)
    (h1 : -999 ≤ s.brightness) (h2 : s.brightness ≤ 9999)
    (hf : wellFormed '\n' s.serialIn) :
    written s (version1 s) = [] ∨
    ∃ temp, written s (version1 s) = temp ++ ['\r', '\n'] ∧ temp.length ≤ 9 := by
  obtain ⟨u1, u2, _, _, _, _, _, _, _, _, _, u12, _⟩ := untouched_forced s
  have h6 : 6 ≤ s.serialIn.length := by rw [hf.1]
  unfold written
  rw [version1_of_frame s h6]
  dsimp only
  rcases dispatch1_reply (setState { s with mode := ASCOM } ASCOM)
    (cmdChar (frame1 s)) (dataString (frame1 s)) (by rw [u12, hd]) (by rw [u2]; exact h1)
    (by rw [u2]; exact h2) (dataString_short '\n' s.serialIn hf) with e | ⟨temp, e, hl⟩
  · left
    rw [e, u1, List.drop_length]
  · right
    refine ⟨temp, ?_, hl⟩
    rw [e, u1, List.append_assoc, List.drop_left]

theorem setShutter_brightness (s : State) (val : shutterStatuses) :
    (setShutter s val).brightness = s.brightness := by
  unfold setShutter
  repeat' split
  all_goals rfl

/-- A command with a payload of at most three characters keeps the device
identifier and leaves the stored brightness between -999 and 9999. -/
theorem dispatch4_range (s : State) (c : Char) (d : List Char) (hd : s.deviceId = FLAT_MAN)
    (h1 : -999 ≤ s.brightness) (h2 : s.brightness ≤ 9999) (hl : d.length ≤ 3) :
    (dispatch4 s c d).deviceId = FLAT_MAN ∧ -999 ≤ (dispatch4 s c d).brightness ∧
    (dispatch4 s c d).brightness ≤ 9999 := by
  obtain ⟨a1, a2⟩ := atoi_short d hl
  unfold dispatch4
  split
  · exact ⟨hd, h1, h2⟩
  · simp only [serialWrite, setShutter_deviceId, setShutter_brightness]
    exact ⟨hd, h1, h2⟩
  · simp only [serialWrite, setShutter_deviceId, setShutter_brightness]
    exact ⟨hd, h1, h2⟩
  · simp only [serialWrite, setBrightness_deviceId, setBrightness_brightness]
    exact ⟨hd, h1, h2⟩
  · simp only [serialWrite, setBrightness_deviceId, setBrightness_brightness]
    exact ⟨hd, h1, h2⟩
  · simp only
    split <;> simp only [serialWrite, setBrightness_deviceId, setBrightness_brightness]
    · exact ⟨hd, a1, by omega⟩
    · exact ⟨hd, a1, by omega⟩
  · exact ⟨hd, h1, h2⟩
  · exact ⟨hd, h1, h2⟩
  · exact ⟨hd, h1, h2⟩
  · exact ⟨hd, h1, h2⟩

/-- The legacy counterpart of `dispatch4_range`. -/
theorem dispatch1_range (s : State) (c : Char) (d : List Char) (hd : s.deviceId = FLAT_MAN)
    (h1 : -999 ≤ s.brightness) (h2 : s.brightness ≤ 9999) (hl : d.length ≤ 3) :
    (dispatch1 s c d).deviceId = FLAT_MAN ∧ -999 ≤ (dispatch1 s c d).brightness ∧
    (dispatch1 s c d).brightness ≤ 9999 := by
  obtain ⟨a1, a2⟩ := atoi_short d hl
  unfold dispatch1
  split
  · exact ⟨hd, h1, h2⟩
  · simp only [serialPrintln, setShutter_deviceId, setShutter_brightness]
    exact ⟨hd, h1, h2⟩
  · simp only [serialPrintln, setShutter_deviceId, setShutter_brightness]
    exact ⟨hd, h1, h2⟩
  · simp only [serialPrintln, setBrightness_deviceId, setBrightness_brightness]
    exact ⟨hd, h1, h2⟩
  · simp only [serialPrintln, setBrightness_deviceId, setBrightness_brightness]
    exact ⟨hd, h1, h2⟩
  · simp only
    split <;> simp only [serialPrintln, setBrightness_deviceId, setBrightness_brightness]
    · exact ⟨hd, a1, by omega⟩
    · exact ⟨hd, a1, by omega⟩
  · exact ⟨hd, h1, h2⟩
  · exact ⟨hd, h1, h2⟩
  · exact ⟨hd, h1, h2⟩
  · exact ⟨hd, h1, h2⟩

/-- A well-formed V4 frame keeps the device identifier and leaves the stored
brightness between -999 and 9999. -/
theorem version4_range (s : State) (hd : s.deviceId = FLAT_MAN)
    (h1 : -999 ≤ s.brightness) (h2 : s.brightness ≤ 9999)
    (hf : wellFormed '\r' s.serialIn) :
    (version4 s).deviceId = FLAT_MAN ∧ -999 ≤ (version4 s).brightness ∧
    (version4 s).brightness ≤ 9999 := by
  obtain ⟨u1, u2, _, _, _, _, _, _, _, _, _, u12, _⟩ := untouched_forced s
  have h6 : 6 ≤ s.serialIn.length := by rw [hf.1]
  rw [version4_of_frame s h6]
  exact dispatch4_range (setState { s with mode := ASCOM } ASCOM)
    (cmdChar (frame4 s)) (dataString (frame4 s)) (by rw [u12, hd]) (by rw [u2]; exact h1)
    (by rw [u2]; exact h2) (dataString_short '\r' s.serialIn hf)

/-- A well-formed legacy frame keeps the device identifier and leaves the
stored brightness between -999 and 9999. -/
theorem version1_range (s : State) (hd : s.deviceId = FLAT_MAN)
    (h1 : -999 ≤ s.brightness) (h2 : s.brightness ≤ 9999)
    (hf : wellFormed '\n' s.serialIn) :
    (version1 s).deviceId = FLAT_MAN ∧ -999 ≤ (version1 s).brightness ∧
    (version1 s).brightness ≤ 9999 := by
  obtain ⟨u1, u2, _, _, _, _, _, _, _, _, _, u12, _⟩ := untouched_forced s
  have h6 : 6 ≤ s.serialIn.length := by rw [hf.1]
  rw [version1_of_frame s h6]
  exact dispatch1_range (setState { s with mode := ASCOM } ASCOM)
    (cmdChar (frame1 s)) (dataString (frame1 s)) (by rw [u12, hd]) (by rw [u2]; exact h1)
    (by rw [u2]; exact h2) (dataString_short '\n' s.serialIn hf)

/-- The replies of the initial state to one well-formed frame fit: an instance
of `version4_reply_fits` and of `version1_reply_fits`. -/
theorem reply_fits_initial :
    (written (receive initialState ">B255\r".toList)
      (version4 (receive initialState ">B255\r".toList))).length ≤ 9 ∧
    (written (receive initialState ">S000\n".toList)
        (version1 (receive initialState ">S000\n".toList)) = [] ∨
      ∃ temp, written (receive initialState ">S000\n".toList)
        (version1 (receive initialState ">S000\n".toList)) = temp ++ ['\r', '\n'] ∧
        temp.length ≤ 9) :=
  ⟨version4_reply_fits _ (by decide) (by decide) (by decide) (by decide),
    version1_reply_fits _ (by decide) (by decide) (by decide) (by decide)⟩

/-! ## The claim C21 -/

set_option maxRecDepth 100000 in
/-- C21 (code defect): with the device identifier 19 the text formatted for the
well-formed frame `>JOOO` has ten characters once the stored brightness is
10000, and so has the text formatted for the legacy frame `>J000` once the
stored brightness is -32768: with the closing NUL that is eleven bytes for the
ten bytes of `temp`. The brightness got there through the command `B`, which
stores the parsed number without clamping it to [0,255]. -/
theorem C21_brightness_reply_exceeds_temp :
    brightness10000.deviceId.toInt = 19 ∧ brightness10000.brightness = 10000 ∧
    wellFormed '\r' ">JOOO\r".toList ∧
    written brightness10000 (version4 (receive brightness10000 ">JOOO\r".toList))
      = "*J1910000\n".toList ∧
    "*J1910000\n".toList.length = 10 ∧
    brightnessLowest.deviceId.toInt = 19 ∧ brightnessLowest.brightness = -32768 ∧
    wellFormed '\n' ">J000\n".toList ∧
    written brightnessLowest (version1 (receive brightnessLowest ">J000\n".toList))
      = "*J19-32768".toList ++ ['\r', '\n'] ∧
    "*J19-32768".toList.length = 10 := by
  decide

/-! ## Responses and effects of the recognized commands -/

/-- Text sent by the `switch` of `version4` for a recognized command. -/
theorem dispatch4_response (s : State) (c : Char) (d : List Char) (hc : c ∈ recognized) :
    (dispatch4 s c d).serialOut = s.serialOut ++ response4 s c d := by
  by_cases hB : c = 'B'
  · subst hB
    rw [(dispatch4_B_fields s d).2]
    simp [response4]
  unfold dispatch4
  split
  · simp [response4, serialWrite]
  · simp [response4, serialWrite, setShutter_serialOut, setShutter_deviceId]
  · simp [response4, serialWrite, setShutter_serialOut, setShutter_deviceId]
  · simp [response4, serialWrite, setBrightness_serialOut]
  · simp [response4, serialWrite, setBrightness_serialOut]
  · exact absurd rfl hB
  · simp [response4, serialWrite]
  · simp [response4, serialWrite]
  · simp [response4, serialWrite]
  · simp [recognized] at hc
    simp_all

/-- Text sent by the `switch` of `version1` for a recognized command. -/
theorem dispatch1_response (s : State) (c : Char) (d : List Char) (hc : c ∈ recognized) :
    (dispatch1 s c d).serialOut = s.serialOut ++ response1 s c d := by
  by_cases hB : c = 'B'
  · subst hB
    rw [dispatch1_B_fields s d]
    simp [response1]
  unfold dispatch1
  split
  · simp [response1, serialPrintln]
  · simp [response1, serialPrintln, setShutter_serialOut, setShutter_deviceId]
  · simp [response1, serialPrintln, setShutter_serialOut, setShutter_deviceId]
  · simp [response1, serialPrintln, setBrightness_serialOut]
  · simp [response1, serialPrintln, setBrightness_serialOut]
  · exact absurd rfl hB
  · simp [response1, serialPrintln]
  · simp [response1, serialPrintln]
  · simp [response1, serialPrintln]
  · simp [recognized] at hc
    simp_all

theorem dispatch4_B_applied (s : State) (d : List Char) :
    (s.lightStatus = ON → (dispatch4 s 'B' d).lastBrightness = atoi d ∧
      (dispatch4 s 'B' d).pwmOut =
        s.pwmOut ++ (if atoi d = s.lastBrightness then [] else [atoi d])) ∧
    (s.lightStatus ≠ ON → (dispatch4 s 'B' d).lastBrightness = s.lastBrightness ∧
      (dispatch4 s 'B' d).pwmOut = s.pwmOut) := by
  rw [dispatch4_B]
  constructor
  · intro h
    simp only [if_pos h, serialWrite, setBrightness_lastBrightness, setBrightness_pwmOut,
      and_self]
  · intro h
    simp only [if_neg h, serialWrite, and_self]

theorem dispatch1_B (s : State) (d : List Char) :
    dispatch1 s 'B' d =
      serialPrintln
        (if s.lightStatus = ON then setBrightness { s with brightness := atoi d } (atoi d)
          else { s with brightness := atoi d })
        ("*B".toList ++ fmtD s.deviceId.toInt ++ fmt03D (atoi d)) := by
  unfold dispatch1
  simp only
  split <;> simp only [setBrightness_brightness, setBrightness_deviceId]

theorem dispatch1_B_applied (s : State) (d : List Char) :
    (dispatch1 s 'B' d).brightness = atoi d ∧
    (s.lightStatus = ON → (dispatch1 s 'B' d).lastBrightness = atoi d ∧
      (dispatch1 s 'B' d).pwmOut =
        s.pwmOut ++ (if atoi d = s.lastBrightness then [] else [atoi d])) ∧
    (s.lightStatus ≠ ON → (dispatch1 s 'B' d).lastBrightness = s.lastBrightness ∧
      (dispatch1 s 'B' d).pwmOut = s.pwmOut) := by
  rw [dispatch1_B]
  refine ⟨?_, ?_, ?_⟩
  · by_cases h : s.lightStatus = ON
    · simp only [if_pos h, serialPrintln, setBrightness_brightness]
    · simp only [if_neg h, serialPrintln]
  · intro h
    simp only [if_pos h, serialPrintln, setBrightness_lastBrightness, setBrightness_pwmOut,
      and_self]
  · intro h
    simp only [if_neg h, serialPrintln, and_self]

/-- Text sent by `version4` for a recognized command. -/
theorem version4_response (s : State) (h : 6 ≤ s.serialIn.length)
    (hc : cmdChar (frame4 s) ∈ recognized) :
    (version4 s).serialOut =
      s.serialOut ++ response4 s (cmdChar (frame4 s)) (dataString (frame4 s)) := by
  obtain ⟨u1, u2, u3, u4, _, _, _, _, _, u10, _, u12, _⟩ := untouched_forced s
  rw [version4_of_frame s h]
  dsimp only
  rw [dispatch4_response _ _ _ hc]
  unfold response4
  rw [u1, u2, u3, u4, u10, u12]

/-- Text sent by `version1` for a recognized command. -/
theorem version1_response (s : State) (h : 6 ≤ s.serialIn.length)
    (hc : cmdChar (frame1 s) ∈ recognized) :
    (version1 s).serialOut =
      s.serialOut ++ response1 s (cmdChar (frame1 s)) (dataString (frame1 s)) := by
  obtain ⟨u1, u2, u3, u4, _, _, _, _, _, u10, _, u12, _⟩ := untouched_forced s
  rw [version1_of_frame s h]
  dsimp only
  rw [dispatch1_response _ _ _ hc]
  unfold response1
  rw [u1, u2, u3, u4, u10, u12]

/-- The command decoded by `version4` is executed. -/
theorem version4_executed (s : State) (h : 6 ≤ s.serialIn.length) :
    Executed s (version4 s) (cmdChar (frame4 s)) (dataString (frame4 s)) := by
  obtain ⟨_, _, u3, _, _, _, u7, u8, _⟩ := untouched_forced s
  refine ⟨?_, ?_, ?_, ?_, ?_⟩
  · intro hc
    rw [shutterView_version4 s h, if_pos hc]
  · intro hc
    rw [shutterView_version4 s h, if_neg (by rw [hc]; decide), if_pos hc]
  · intro hc
    obtain ⟨a, b, _, d, _⟩ := version4_L s h hc
    exact ⟨a, b, d⟩
  · intro hc
    obtain ⟨a, b, _, d, _⟩ := version4_D s h hc
    exact ⟨a, b, d⟩
  · intro hc
    refine ⟨(version4_B s h hc).1, ?_, ?_⟩
    · intro hl
      rw [version4_of_frame s h, hc]
      dsimp only
      obtain ⟨a, b⟩ := (dispatch4_B_applied (setState { s with mode := ASCOM } ASCOM)
        (dataString (frame4 s))).1 (by rw [u3]; exact hl)
      rw [a, b, u7, u8]
      exact ⟨rfl, rfl⟩
    · intro hl
      rw [version4_of_frame s h, hc]
      dsimp only
      obtain ⟨a, b⟩ := (dispatch4_B_applied (setState { s with mode := ASCOM } ASCOM)
        (dataString (frame4 s))).2 (by rw [u3]; exact hl)
      rw [a, b, u7, u8]
      exact ⟨rfl, rfl⟩

/-- The command decoded by `version1` is executed. -/
theorem version1_executed (s : State) (h : 6 ≤ s.serialIn.length) :
    Executed s (version1 s) (cmdChar (frame1 s)) (dataString (frame1 s)) := by
  obtain ⟨_, u2, u3, _, _, _, u7, u8, _⟩ := untouched_forced s
  refine ⟨?_, ?_, ?_, ?_, ?_⟩
  · intro hc
    rw [shutterView_version1 s h, if_pos hc]
  · intro hc
    rw [shutterView_version1 s h, if_neg (by rw [hc]; decide), if_pos hc]
  · intro hc
    obtain ⟨a, b, _, d, _⟩ := version1_L s h hc
    exact ⟨a, b, d⟩
  · intro hc
    obtain ⟨a, b, _, d, _⟩ := version1_D s h hc
    exact ⟨a, b, d⟩
  · intro hc
    have hb := dispatch1_B_applied (setState { s with mode := ASCOM } ASCOM)
      (dataString (frame1 s))
    rw [version1_of_frame s h, hc]
    dsimp only
    refine ⟨hb.1, ?_, ?_⟩
    · intro hl
      obtain ⟨a, b⟩ := hb.2.1 (by rw [u3]; exact hl)
      rw [a, b, u7, u8]
      exact ⟨rfl, rfl⟩
    · intro hl
      obtain ⟨a, b⟩ := hb.2.2 (by rw [u3]; exact hl)
      rw [a, b, u7, u8]
      exact ⟨rfl, rfl⟩

/-! ## The claim C10 -/

/-- C10 (amended): at least 6 available bytes without the terminator of the
dialect are not dropped; the first 20 of them are taken as the frame and the
result is the one for the same bytes followed by the terminator; the receive
buffer is empty afterwards; a recognized command character at byte 1 is
answered with the response of the command and executed (`O` and `C` act on the
shutter, `L` and `D` switch the light and apply the level, `B` stores the
parsed number); no response is sent and nothing but the mode changes only when
the command character is not a recognized one. -/
theorem C10_unterminated_frame_dispatched (s : State) (h : 6 ≤ s.serialIn.length) :
    ('\r' ∉ s.serialIn →
      frame4 s = s.serialIn.take 20 ∧ version4 s = version4 (receive s ['\r']) ∧
      (version4 s).serialIn = [] ∧
      (cmdChar (frame4 s) ∉ recognized → Untouched s (version4 s)) ∧
      (cmdChar (frame4 s) ∈ recognized →
        (version4 s).serialOut =
          s.serialOut ++ response4 s (cmdChar (frame4 s)) (dataString (frame4 s)) ∧
        (version4 s).serialOut ≠ s.serialOut ∧
        Executed s (version4 s) (cmdChar (frame4 s)) (dataString (frame4 s)))) ∧
    ('\n' ∉ s.serialIn →
      frame1 s = s.serialIn.take 20 ∧ version1 s = version1 (receive s ['\n']) ∧
      (version1 s).serialIn = [] ∧
      (cmdChar (frame1 s) ∉ recognized → Untouched s (version1 s)) ∧
      (cmdChar (frame1 s) ∈ recognized →
        (version1 s).serialOut =
          s.serialOut ++ response1 s (cmdChar (frame1 s)) (dataString (frame1 s)) ∧
        (version1 s).serialOut ≠ s.serialOut ∧
        Executed s (version1 s) (cmdChar (frame1 s)) (dataString (frame1 s)))) := by
  constructor
  · intro hn
    refine ⟨readBytesUntil_fst_of_not_mem _ _ _ hn, version4_append_terminator s h hn, ?_,
      untouched_version4 s, fun hc => ⟨version4_response s h hc, ?_, version4_executed s h⟩⟩
    · rw [version4_serialIn, if_pos h]
    · rw [version4_response s h hc]
      simp [response4]
  · intro hn
    refine ⟨readBytesUntil_fst_of_not_mem _ _ _ hn, version1_append_terminator s h hn, ?_,
      untouched_version1 s, fun hc => ⟨version1_response s h hc, ?_, version1_executed s h⟩⟩
    · rw [version1_of_frame s h]
    · rw [version1_response s h hc]
      simp [response1]

/-- C10 (witness): the six bytes `>B999x` give the result of the terminated
frame under both dialects; under V4 they are answered with `*B19999` and the
brightness 999 is stored. -/
theorem C10_unterminated_frame_dispatched_witness :
    version4 unterminatedFrame = version4 (receive unterminatedFrame ['\r']) ∧
    version1 unterminatedFrame = version1 (receive unterminatedFrame ['\n']) ∧
    (version4 unterminatedFrame).serialOut =
      unterminatedFrame.serialOut ++ response4 unterminatedFrame
        (cmdChar (frame4 unterminatedFrame)) (dataString (frame4 unterminatedFrame)) ∧
    Executed unterminatedFrame (version4 unterminatedFrame)
      (cmdChar (frame4 unterminatedFrame)) (dataString (frame4 unterminatedFrame)) :=
  ⟨((C10_unterminated_frame_dispatched unterminatedFrame (by decide)).1 (by decide)).2.1,
   ((C10_unterminated_frame_dispatched unterminatedFrame (by decide)).2 (by decide)).2.1,
   (((C10_unterminated_frame_dispatched unterminatedFrame (by decide)).1
      (by decide)).2.2.2.2 (by decide)).1,
   (((C10_unterminated_frame_dispatched unterminatedFrame (by decide)).1
      (by decide)).2.2.2.2 (by decide)).2.2⟩

/-! ## Rounding to binary32 -/

theorem excessBits_le (fuel m t : Nat) (h : m < 2 ^ (24 + t)) : excessBits fuel m ≤ t := by
  induction fuel generalizing m t with
  | zero => exact Nat.zero_le _
  | succ f ih =>
    unfold excessBits
    split
    · exact Nat.zero_le _
    · rename_i h24
      cases t with
      | zero => exact absurd h h24
      | succ t =>
        have : m / 2 < 2 ^ (24 + t) := by
          rw [Nat.div_lt_iff_lt_mul (by decide)]
          calc m < 2 ^ (24 + (t + 1)) := h
            _ = 2 ^ (24 + t) * 2 := by rw [← Nat.add_assoc, pow_succ]
        exact Nat.succ_le_succ (ih _ _ this)

theorem roundMagnitude_err (m t : Nat) (h : m < 2 ^ (24 + t)) :
    2 * ((roundMagnitude m : Int) - m) ≤ 2 ^ t ∧ 2 * ((m : Int) - roundMagnitude m) ≤ 2 ^ t := by
  have hsh := excessBits_le 254 m t h
  unfold roundMagnitude
  lift_lets
  intro sh q r
  have hP : (2 : Int) ^ sh ≤ 2 ^ t := pow_le_pow_right₀ (by norm_num) hsh
  have hpos : (0 : Int) < 2 ^ sh := by positivity
  have hdm : (2 ^ sh : Nat) * q + r = m := Nat.div_add_mod m (2 ^ sh)
  have hr : r < 2 ^ sh := Nat.mod_lt _ (by positivity)
  have hdm' : ((2 : Int) ^ sh) * q + r = m := by exact_mod_cast hdm
  have hr' : (r : Int) < 2 ^ sh := by exact_mod_cast hr
  have hr0 : (0 : Int) ≤ r := Int.ofNat_nonneg _
  split
  · rename_i hc
    have h2 : (2 : Int) ^ sh ≤ 2 * r := by
      rcases hc with hc | hc
      · have : (2 ^ sh : Nat) < 2 * r := hc
        have : ((2 : Int) ^ sh) < 2 * r := by exact_mod_cast this
        exact this.le
      · have : 2 * r = (2 ^ sh : Nat) := hc.1
        have : (2 : Int) * r = 2 ^ sh := by exact_mod_cast this
        exact this.ge
    have e : (((q + 1) * 2 ^ sh : Nat) : Int) = (2 : Int) ^ sh * q + 2 ^ sh := by
      push_cast; ring
    rw [e]
    constructor <;> nlinarith
  · rename_i hc
    have h2 : 2 * (r : Int) ≤ 2 ^ sh := by
      have : ¬ (2 ^ sh : Nat) < 2 * r := fun hh => hc (Or.inl hh)
      have : 2 * r ≤ (2 ^ sh : Nat) := not_lt.mp this
      exact_mod_cast this
    have e : ((q * 2 ^ sh : Nat) : Int) = (2 : Int) ^ sh * q := by
      push_cast; ring
    rw [e]
    constructor <;> nlinarith

theorem roundUnits_err (n : Int) (t : Nat) (h : |n| < 2 ^ (24 + t)) :
    2 * |roundUnits n - n| ≤ 2 ^ t := by
  have hm : n.natAbs < 2 ^ (24 + t) := by
    have : (n.natAbs : Int) < 2 ^ (24 + t) := by rw [Int.natCast_natAbs]; exact h
    exact_mod_cast this
  obtain ⟨a, b⟩ := roundMagnitude_err n.natAbs t hm
  unfold roundUnits
  split
  · rename_i hneg
    have e : (n.natAbs : Int) = -n := by rw [Int.natCast_natAbs, abs_of_neg hneg]
    rw [e] at a b
    rcases abs_cases (-(roundMagnitude n.natAbs : Int) - n) with ⟨e1, _⟩ | ⟨e1, _⟩ <;>
      rw [e1] <;> linarith
  · rename_i hneg
    have e : (n.natAbs : Int) = n := by rw [Int.natCast_natAbs, abs_of_nonneg (not_lt.mp hneg)]
    rw [e] at a b
    rcases abs_cases ((roundMagnitude n.natAbs : Int) - n) with ⟨e1, _⟩ | ⟨e1, _⟩ <;>
      rw [e1] <;> linarith

/-- Rounding error of a `float` operation on angles: at most `2 ^ (-17)`. -/
theorem roundFloat_err (x : ℚ) (hx : |x| ≤ 127) : |roundFloat x - x| ≤ 1 / 2 ^ 17 := by
  obtain ⟨x1, x2⟩ := abs_le.mp hx
  have hp : (0 : ℚ) < 2 ^ 149 := by positivity
  have f1 : ((⌊x * 2 ^ 149⌋ : Int) : ℚ) ≤ x * 2 ^ 149 := Int.floor_le _
  have f2 : x * 2 ^ 149 < ((⌊x * 2 ^ 149⌋ : Int) : ℚ) + 1 := Int.lt_floor_add_one _
  have hn : |⌊x * 2 ^ 149⌋| < 2 ^ (24 + 132) := by
    rw [abs_lt]
    constructor
    · have : ((-(2 ^ (24 + 132)) : Int) : ℚ) < ((⌊x * 2 ^ 149⌋ : Int) : ℚ) := by
        push_cast
        nlinarith
      exact_mod_cast this
    · have : ((⌊x * 2 ^ 149⌋ : Int) : ℚ) < ((2 ^ (24 + 132) : Int) : ℚ) := by
        push_cast
        nlinarith
      exact_mod_cast this
  have hr := roundUnits_err _ 132 hn
  have hq : (2 : ℚ) * |((roundUnits ⌊x * 2 ^ 149⌋ : Int) : ℚ) - ((⌊x * 2 ^ 149⌋ : Int) : ℚ)|
      ≤ 2 ^ 132 := by exact_mod_cast hr
  unfold roundFloat
  have e : (2 : ℚ) ^ 149 = 2 ^ 132 * 2 ^ 17 := by rw [← pow_add]
  have hA : (2 : ℚ) ≤ 2 ^ 132 := le_self_pow₀ (by norm_num) (by decide)
  clear hn hr hp
  rw [e] at f1 f2 hq ⊢
  generalize (2 : ℚ) ^ 132 = A at *
  generalize ((⌊x * (A * 2 ^ 17)⌋ : Int) : ℚ) = N at *
  generalize ((roundUnits ⌊x * (A * 2 ^ 17)⌋ : Int) : ℚ) = R at *
  have hA0 : (0 : ℚ) < A := by linarith
  have hden : (0 : ℚ) < A * 2 ^ 17 := mul_pos hA0 (by norm_num)
  rw [abs_le]
  have hq1 : R - N ≤ A / 2 := by
    have := le_abs_self (R - N)
    linarith
  have hq2 : N - R ≤ A / 2 := by
    have := neg_abs_le (R - N)
    linarith
  rw [div_sub' _ _ _ (ne_of_gt hden), le_div_iff₀ hden, div_le_iff₀ hden]
  constructor <;> nlinarith

theorem roundFloat_ofUnits (n : Int) :
    roundFloat ((n : ℚ) / 2 ^ 149) = (roundUnits n : ℚ) / 2 ^ 149 := by
  unfold roundFloat
  rw [div_mul_cancel₀ _ (by positivity), Int.floor_intCast]

/-- The stored step differs from 360/2038 by at most `2 ^ (-17)`. -/
theorem stepFloat_near : |stepFloat - 360 / 2038| ≤ 1 / 2 ^ 17 := by
  have h := roundFloat_err (360 / 2038) (by rw [abs_le]; constructor <;> norm_num)
  unfold stepFloat STEPS
  exact_mod_cast h

theorem stepFloat_bounds : 17663 / 100000 < stepFloat ∧ stepFloat < 17666 / 100000 := by
  obtain ⟨a, b⟩ := abs_le.mp stepFloat_near
  constructor
  · have : (17663 : ℚ) / 100000 < 360 / 2038 - 1 / 2 ^ 17 := by norm_num
    linarith
  · have : (360 : ℚ) / 2038 + 1 / 2 ^ 17 < 17666 / 100000 := by norm_num
    linarith

theorem upAngle_succ (k : ℕ) (x : ℚ) :
    upAngle (k + 1) x = roundFloat (upAngle k x + stepFloat) := by
  unfold upAngle
  rw [Function.iterate_succ_apply']

theorem downAngle_succ (k : ℕ) (x : ℚ) :
    downAngle (k + 1) x = roundFloat (downAngle k x - stepFloat) := by
  unfold downAngle
  rw [Function.iterate_succ_apply']

/-- After `n` opening steps the angle is within `n` rounding errors of
`x + n * stepFloat`. -/
theorem upAngle_near (n : ℕ) (x : ℚ) (h1 : -1 ≤ x) (h2 : x + n * (17667 / 100000) ≤ 126) :
    |upAngle n x - (x + n * stepFloat)| ≤ n * (1 / 2 ^ 17) := by
  obtain ⟨s1, s2⟩ := stepFloat_bounds
  induction n with
  | zero => simp [upAngle]
  | succ n ih =>
    have h2' : x + (n : ℚ) * (17667 / 100000) ≤ 126 := by
      push_cast at h2
      linarith
    obtain ⟨a, b⟩ := abs_le.mp (ih h2')
    have hn : (0 : ℚ) ≤ n := Nat.cast_nonneg n
    have he : |upAngle n x + stepFloat| ≤ 127 := by
      rw [abs_le]
      push_cast at h2
      constructor <;> nlinarith
    obtain ⟨c, d⟩ := abs_le.mp (roundFloat_err _ he)
    rw [upAngle_succ, abs_le]
    push_cast
    constructor <;> linarith

/-- After `n` closing steps the angle is within `n` rounding errors of
`x - n * stepFloat`. -/
theorem downAngle_near (n : ℕ) (x : ℚ) (h1 : x ≤ 126) (h2 : -1 ≤ x - n * (17667 / 100000)) :
    |downAngle n x - (x - n * stepFloat)| ≤ n * (1 / 2 ^ 17) := by
  obtain ⟨s1, s2⟩ := stepFloat_bounds
  induction n with
  | zero => simp [downAngle]
  | succ n ih =>
    have h2' : -1 ≤ x - (n : ℚ) * (17667 / 100000) := by
      push_cast at h2
      linarith
    obtain ⟨a, b⟩ := abs_le.mp (ih h2')
    have hn : (0 : ℚ) ≤ n := Nat.cast_nonneg n
    have he : |downAngle n x - stepFloat| ≤ 127 := by
      rw [abs_le]
      push_cast at h2
      constructor <;> nlinarith
    obtain ⟨c, d⟩ := abs_le.mp (roundFloat_err _ he)
    rw [downAngle_succ, abs_le]
    push_cast
    constructor <;> linarith

/-! ## The moves of the motor in binary32 -/

theorem handleMotorFloat_opening_step (s : State) (h1 : s.currentAngle < s.targetAngle)
    (hd : s.motorDirection = OPENING)
    (h2 : roundFloat (s.currentAngle + stepFloat) < s.targetAngle) :
    handleMotorFloat s = { s with
      motorStatus := RUNNING
      coverStatus := NEITHER_OPEN_NOR_CLOSED
      stepperOut := s.stepperOut ++ [1]
      currentAngle := roundFloat (s.currentAngle + stepFloat) } := by
  simp only [handleMotorFloat, h1, hd, and_self, if_true, ge_iff_le, not_le.mpr h2, if_false]

theorem handleMotorFloat_opening_done (s : State) (h1 : s.currentAngle < s.targetAngle)
    (hd : s.motorDirection = OPENING)
    (h2 : s.targetAngle ≤ roundFloat (s.currentAngle + stepFloat)) :
    handleMotorFloat s = { s with
      motorStatus := STOPPED
      motorDirection := NONE
      coverStatus := OPEN
      stepperOut := s.stepperOut ++ [1]
      currentAngle := roundFloat (s.currentAngle + stepFloat) } := by
  simp only [handleMotorFloat, h1, hd, and_self, if_true, ge_iff_le, h2]

theorem handleMotorFloat_closing_step (s : State) (h1 : s.targetAngle < s.currentAngle)
    (hd : s.motorDirection = CLOSING)
    (h2 : s.targetAngle < roundFloat (s.currentAngle - stepFloat)) :
    handleMotorFloat s = { s with
      motorStatus := RUNNING
      coverStatus := NEITHER_OPEN_NOR_CLOSED
      stepperOut := s.stepperOut ++ [-1]
      currentAngle := roundFloat (s.currentAngle - stepFloat) } := by
  have h0 : ¬ s.currentAngle < s.targetAngle := not_lt.mpr h1.le
  simp only [handleMotorFloat, h0, hd, false_and, if_false, gt_iff_lt, h1, and_self, if_true,
    not_le.mpr h2]

theorem handleMotorFloat_closing_done (s : State) (h1 : s.targetAngle < s.currentAngle)
    (hd : s.motorDirection = CLOSING)
    (h2 : roundFloat (s.currentAngle - stepFloat) ≤ s.targetAngle) :
    handleMotorFloat s = { s with
      motorStatus := STOPPED
      motorDirection := NONE
      coverStatus := CLOSED
      stepperOut := s.stepperOut ++ [-1]
      currentAngle := roundFloat (s.currentAngle - stepFloat) } := by
  have h0 : ¬ s.currentAngle < s.targetAngle := not_lt.mpr h1.le
  simp only [handleMotorFloat, h0, hd, false_and, if_false, gt_iff_lt, h1, and_self, if_true, h2]

theorem handleMotorFloat_idle (s : State)
    (h1 : ¬ (s.currentAngle < s.targetAngle ∧ s.motorDirection = OPENING))
    (h2 : ¬ (s.targetAngle < s.currentAngle ∧ s.motorDirection = CLOSING)) :
    handleMotorFloat s = s := by
  simp only [handleMotorFloat, h1, gt_iff_lt, h2, if_false]

theorem resting_iterate_float (n : ℕ) (s : State) (hd : s.motorDirection = NONE) :
    handleMotorFloat^[n] s = s := by
  have h : handleMotorFloat s = s :=
    handleMotorFloat_idle s (by rw [hd]; simp) (by rw [hd]; simp)
  exact Function.iterate_fixed h n

/-- A run of opening steps that stays below 90 degrees. -/
theorem opening_run_float (n : ℕ) (s : State) (hd : s.motorDirection = OPENING)
    (ht : s.targetAngle = 90) (hlt : ∀ i, i ≤ n → upAngle i s.currentAngle < 90) :
    (handleMotorFloat^[n] s).motorDirection = OPENING ∧
    (handleMotorFloat^[n] s).targetAngle = 90 ∧
    (handleMotorFloat^[n] s).currentAngle = upAngle n s.currentAngle ∧
    (handleMotorFloat^[n] s).stepperOut = s.stepperOut ++ List.replicate n 1 ∧
    (1 ≤ n → (handleMotorFloat^[n] s).coverStatus = NEITHER_OPEN_NOR_CLOSED ∧
      (handleMotorFloat^[n] s).motorStatus = RUNNING) := by
  induction n with
  | zero => exact ⟨hd, ht, rfl, by simp, fun h => absurd h (by decide)⟩
  | succ n ih =>
    obtain ⟨id, it, ic, io, _⟩ := ih (fun i hi => hlt i (Nat.le_succ_of_le hi))
    rw [Function.iterate_succ_apply']
    have h1 : (handleMotorFloat^[n] s).currentAngle < (handleMotorFloat^[n] s).targetAngle := by
      rw [ic, it]; exact hlt n (Nat.le_succ n)
    have h2 : roundFloat ((handleMotorFloat^[n] s).currentAngle + stepFloat)
        < (handleMotorFloat^[n] s).targetAngle := by
      rw [ic, it, ← upAngle_succ]; exact hlt (n + 1) le_rfl
    rw [handleMotorFloat_opening_step _ h1 id h2]
    refine ⟨id, it, ?_, ?_, fun _ => ⟨rfl, rfl⟩⟩
    · show roundFloat ((handleMotorFloat^[n] s).currentAngle + stepFloat) = _
      rw [ic, upAngle_succ]
    · show (handleMotorFloat^[n] s).stepperOut ++ [1] = _
      rw [io, List.replicate_succ', List.append_assoc]

/-- A run of opening steps that reaches 90 degrees with its last step comes to
rest with the cover OPEN. -/
theorem opening_lands_float (n : ℕ) (s : State) (hd : s.motorDirection = OPENING)
    (ht : s.targetAngle = 90) (hlt : ∀ i, i ≤ n → upAngle i s.currentAngle < 90)
    (hge : 90 ≤ upAngle (n + 1) s.currentAngle) (m : ℕ) (hm : n + 1 ≤ m) :
    (handleMotorFloat^[m] s).coverStatus = OPEN ∧
    (handleMotorFloat^[m] s).motorDirection = NONE ∧
    (handleMotorFloat^[m] s).motorStatus = STOPPED ∧
    (handleMotorFloat^[m] s).targetAngle = 90 ∧
    (handleMotorFloat^[m] s).currentAngle = upAngle (n + 1) s.currentAngle ∧
    (handleMotorFloat^[m] s).stepperOut = s.stepperOut ++ List.replicate (n + 1) 1 := by
  obtain ⟨id, it, ic, io, _⟩ := opening_run_float n s hd ht hlt
  have h1 : (handleMotorFloat^[n] s).currentAngle < (handleMotorFloat^[n] s).targetAngle := by
    rw [ic, it]; exact hlt n le_rfl
  have h2 : (handleMotorFloat^[n] s).targetAngle
      ≤ roundFloat ((handleMotorFloat^[n] s).currentAngle + stepFloat) := by
    rw [ic, it, ← upAngle_succ]; exact hge
  have hf := handleMotorFloat_opening_done _ h1 id h2
  have hm' : m = (m - (n + 1)) + (n + 1) := by omega
  rw [hm', Function.iterate_add_apply, Function.iterate_succ_apply', hf,
    resting_iterate_float _ _ rfl]
  refine ⟨rfl, rfl, rfl, it, ?_, ?_⟩
  · show roundFloat ((handleMotorFloat^[n] s).currentAngle + stepFloat) = _
    rw [ic, upAngle_succ]
  · show (handleMotorFloat^[n] s).stepperOut ++ [1] = _
    rw [io, List.replicate_succ', List.append_assoc]

/-- A run of closing steps that stays above 0 degrees. -/
theorem closing_run_float (n : ℕ) (s : State) (hd : s.motorDirection = CLOSING)
    (ht : s.targetAngle = 0) (hgt : ∀ i, i ≤ n → 0 < downAngle i s.currentAngle) :
    (handleMotorFloat^[n] s).motorDirection = CLOSING ∧
    (handleMotorFloat^[n] s).targetAngle = 0 ∧
    (handleMotorFloat^[n] s).currentAngle = downAngle n s.currentAngle ∧
    (handleMotorFloat^[n] s).stepperOut = s.stepperOut ++ List.replicate n (-1) ∧
    (1 ≤ n → (handleMotorFloat^[n] s).coverStatus = NEITHER_OPEN_NOR_CLOSED ∧
      (handleMotorFloat^[n] s).motorStatus = RUNNING) := by
  induction n with
  | zero => exact ⟨hd, ht, rfl, by simp, fun h => absurd h (by decide)⟩
  | succ n ih =>
    obtain ⟨id, it, ic, io, _⟩ := ih (fun i hi => hgt i (Nat.le_succ_of_le hi))
    rw [Function.iterate_succ_apply']
    have h1 : (handleMotorFloat^[n] s).targetAngle < (handleMotorFloat^[n] s).currentAngle := by
      rw [ic, it]; exact hgt n (Nat.le_succ n)
    have h2 : (handleMotorFloat^[n] s).targetAngle
        < roundFloat ((handleMotorFloat^[n] s).currentAngle - stepFloat) := by
      rw [ic, it, ← downAngle_succ]; exact hgt (n + 1) le_rfl
    rw [handleMotorFloat_closing_step _ h1 id h2]
    refine ⟨id, it, ?_, ?_, fun _ => ⟨rfl, rfl⟩⟩
    · show roundFloat ((handleMotorFloat^[n] s).currentAngle - stepFloat) = _
      rw [ic, downAngle_succ]
    · show (handleMotorFloat^[n] s).stepperOut ++ [-1] = _
      rw [io, List.replicate_succ', List.append_assoc]

/-- A run of closing steps that reaches 0 degrees with its last step comes to
rest with the cover CLOSED. -/
theorem closing_lands_float (n : ℕ) (s : State) (hd : s.motorDirection = CLOSING)
    (ht : s.targetAngle = 0) (hgt : ∀ i, i ≤ n → 0 < downAngle i s.currentAngle)
    (hle : downAngle (n + 1) s.currentAngle ≤ 0) (m : ℕ) (hm : n + 1 ≤ m) :
    (handleMotorFloat^[m] s).coverStatus = CLOSED ∧
    (handleMotorFloat^[m] s).motorDirection = NONE ∧
    (handleMotorFloat^[m] s).motorStatus = STOPPED ∧
    (handleMotorFloat^[m] s).targetAngle = 0 ∧
    (handleMotorFloat^[m] s).currentAngle = downAngle (n + 1) s.currentAngle ∧
    (handleMotorFloat^[m] s).stepperOut = s.stepperOut ++ List.replicate (n + 1) (-1) := by
  obtain ⟨id, it, ic, io, _⟩ := closing_run_float n s hd ht hgt
  have h1 : (handleMotorFloat^[n] s).targetAngle < (handleMotorFloat^[n] s).currentAngle := by
    rw [ic, it]; exact hgt n le_rfl
  have h2 : roundFloat ((handleMotorFloat^[n] s).currentAngle - stepFloat)
      ≤ (handleMotorFloat^[n] s).targetAngle := by
    rw [ic, it, ← downAngle_succ]; exact hle
  have hf := handleMotorFloat_closing_done _ h1 id h2
  have hm' : m = (m - (n + 1)) + (n + 1) := by omega
  rw [hm', Function.iterate_add_apply, Function.iterate_succ_apply', hf,
    resting_iterate_float _ _ rfl]
  refine ⟨rfl, rfl, rfl, it, ?_, ?_⟩
  · show roundFloat ((handleMotorFloat^[n] s).currentAngle - stepFloat) = _
    rw [ic, downAngle_succ]
  · show (handleMotorFloat^[n] s).stepperOut ++ [-1] = _
    rw [io, List.replicate_succ', List.append_assoc]

/-! ## Angles of interrupted movements -/

/-- Bounds of `n` motor steps, for `n ≤ 510`. -/
theorem steps_bounds (n : ℕ) (hn : n ≤ 510) :
    (n : ℚ) * (17663 / 100000) ≤ n * stepFloat ∧ (n : ℚ) * stepFloat ≤ n * (17666 / 100000) ∧
    (0 : ℚ) ≤ n ∧ (n : ℚ) ≤ 510 := by
  obtain ⟨s1, s2⟩ := stepFloat_bounds
  have h0 : (0 : ℚ) ≤ n := Nat.cast_nonneg n
  have h5 : (n : ℚ) ≤ 510 := by exact_mod_cast hn
  exact ⟨mul_le_mul_of_nonneg_left s1.le h0, mul_le_mul_of_nonneg_left s2.le h0, h0, h5⟩

/-- Angles of an opening from 0 interrupted after `k` steps by a closing: the
opening stays below 90 degrees, the closing stays above 0 for `k - 1` steps
and is at or below 0 after `k` or after `k + 1` steps, never below -0.18. -/
theorem open_then_close_angles (k : ℕ) (hk1 : 1 ≤ k) (hk2 : k ≤ 509) :
    (∀ i, i ≤ k → upAngle i 0 < 90) ∧
    (∀ i, i + 1 ≤ k → 0 < downAngle i (upAngle k 0)) ∧
    (0 < downAngle k (upAngle k 0) →
      downAngle (k + 1) (upAngle k 0) ≤ 0 ∧ -18 / 100 < downAngle (k + 1) (upAngle k 0)) ∧
    -18 / 100 < downAngle k (upAngle k 0) := by
  obtain ⟨s1, s2⟩ := stepFloat_bounds
  obtain ⟨k1, k2, k3, k4⟩ := steps_bounds k (by omega)
  have k5 : (k : ℚ) ≤ 509 := by exact_mod_cast hk2
  have k6 : (1 : ℚ) ≤ k := by exact_mod_cast hk1
  have hup : ∀ i, i ≤ k → |upAngle i 0 - (0 + i * stepFloat)| ≤ i * (1 / 2 ^ 17) := by
    intro i hi
    obtain ⟨i1, i2, i3, i4⟩ := steps_bounds i (by omega)
    exact upAngle_near i 0 (by norm_num) (by linarith)
  obtain ⟨x1, x2⟩ := abs_le.mp (hup k le_rfl)
  have hdown : ∀ i, i ≤ k + 1 →
      |downAngle i (upAngle k 0) - (upAngle k 0 - i * stepFloat)| ≤ i * (1 / 2 ^ 17) := by
    intro i hi
    obtain ⟨i1, i2, i3, i4⟩ := steps_bounds i (by omega)
    have i5 : (i : ℚ) ≤ k + 1 := by exact_mod_cast hi
    exact downAngle_near i _ (by linarith) (by linarith)
  refine ⟨?_, ?_, ?_, ?_⟩
  · intro i hi
    obtain ⟨i1, i2, i3, i4⟩ := steps_bounds i (by omega)
    have i5 : (i : ℚ) ≤ 509 := by exact_mod_cast (le_trans hi hk2)
    obtain ⟨a, b⟩ := abs_le.mp (hup i hi)
    linarith
  · intro i hi
    obtain ⟨i1, i2, i3, i4⟩ := steps_bounds i (by omega)
    have i5 : (i : ℚ) + 1 ≤ k := by exact_mod_cast hi
    obtain ⟨a, b⟩ := abs_le.mp (hdown i (by omega))
    have e : (k : ℚ) * stepFloat - i * stepFloat = (k - i) * stepFloat := by ring
    have e2 : (1 : ℚ) * stepFloat ≤ (k - i) * stepFloat :=
      mul_le_mul_of_nonneg_right (by linarith) (by linarith)
    linarith
  · intro hpos
    have e := downAngle_succ k (upAngle k 0)
    obtain ⟨a, b⟩ := abs_le.mp (hdown k (by omega))
    have he : |downAngle k (upAngle k 0) - stepFloat| ≤ 127 := by
      rw [abs_le]; constructor <;> linarith
    obtain ⟨c, d⟩ := abs_le.mp (roundFloat_err _ he)
    rw [e]
    constructor <;> linarith
  · obtain ⟨a, b⟩ := abs_le.mp (hdown k (by omega))
    linarith

/-- Angles of a closing from an open rest position `a` interrupted after `k`
steps by an opening: the closing stays above 0 degrees, the opening stays below
90 for `k - 1` steps and is at or above 90 after `k` or after `k + 1` steps,
never above 90.18. -/
theorem close_then_open_angles (k : ℕ) (hk1 : 1 ≤ k) (hk2 : k ≤ 509) (a : ℚ) (ha1 : 90 ≤ a)
    (ha2 : a ≤ 901 / 10) :
    (∀ i, i ≤ k → 0 < downAngle i a) ∧
    (∀ i, i + 1 ≤ k → upAngle i (downAngle k a) < 90) ∧
    (upAngle k (downAngle k a) < 90 →
      90 ≤ upAngle (k + 1) (downAngle k a) ∧ upAngle (k + 1) (downAngle k a) < 9018 / 100) ∧
    upAngle k (downAngle k a) < 9018 / 100 := by
  obtain ⟨s1, s2⟩ := stepFloat_bounds
  obtain ⟨k1, k2, k3, k4⟩ := steps_bounds k (by omega)
  have k5 : (k : ℚ) ≤ 509 := by exact_mod_cast hk2
  have k6 : (1 : ℚ) ≤ k := by exact_mod_cast hk1
  have hdown : ∀ i, i ≤ k → |downAngle i a - (a - i * stepFloat)| ≤ i * (1 / 2 ^ 17) := by
    intro i hi
    obtain ⟨i1, i2, i3, i4⟩ := steps_bounds i (by omega)
    have i5 : (i : ℚ) ≤ 509 := by exact_mod_cast (le_trans hi hk2)
    exact downAngle_near i a (by linarith) (by linarith)
  obtain ⟨x1, x2⟩ := abs_le.mp (hdown k le_rfl)
  have hup : ∀ i, i ≤ k + 1 →
      |upAngle i (downAngle k a) - (downAngle k a + i * stepFloat)| ≤ i * (1 / 2 ^ 17) := by
    intro i hi
    obtain ⟨i1, i2, i3, i4⟩ := steps_bounds i (by omega)
    have i5 : (i : ℚ) ≤ k + 1 := by exact_mod_cast hi
    exact upAngle_near i _ (by linarith) (by linarith)
  refine ⟨?_, ?_, ?_, ?_⟩
  · intro i hi
    obtain ⟨i1, i2, i3, i4⟩ := steps_bounds i (by omega)
    have i5 : (i : ℚ) ≤ 509 := by exact_mod_cast (le_trans hi hk2)
    obtain ⟨c, d⟩ := abs_le.mp (hdown i hi)
    linarith
  · intro i hi
    obtain ⟨i1, i2, i3, i4⟩ := steps_bounds i (by omega)
    have i5 : (i : ℚ) + 1 ≤ k := by exact_mod_cast hi
    obtain ⟨c, d⟩ := abs_le.mp (hup i (by omega))
    have e2 : (1 : ℚ) * stepFloat ≤ (k - i) * stepFloat :=
      mul_le_mul_of_nonneg_right (by linarith) (by linarith)
    have e : (k : ℚ) * stepFloat - i * stepFloat = (k - i) * stepFloat := by ring
    linarith
  · intro hlt
    have e := upAngle_succ k (downAngle k a)
    obtain ⟨c, d⟩ := abs_le.mp (hup (k + 1) le_rfl)
    have he : |upAngle k (downAngle k a) + stepFloat| ≤ 127 := by
      rw [abs_le]
      obtain ⟨c', d'⟩ := abs_le.mp (hup k (by omega))
      constructor <;> linarith
    obtain ⟨c2, d2⟩ := abs_le.mp (roundFloat_err _ he)
    push_cast at c d
    constructor
    · linarith
    · rw [e]; linarith
  · obtain ⟨c, d⟩ := abs_le.mp (hup k (by omega))
    linarith

/-! ## Passes of the main loop in binary32 -/

theorem motorView_eq (s t : State) (h1 : shutterView s = shutterView t)
    (h2 : s.stepperOut = t.stepperOut) : motorView s = motorView t := by
  unfold motorView
  rw [h1, h2]

theorem fields_of_motorView (s t : State) (h : motorView s = motorView t) :
    s.coverStatus = t.coverStatus ∧ s.motorDirection = t.motorDirection ∧
    s.targetAngle = t.targetAngle ∧ s.currentAngle = t.currentAngle ∧
    s.motorStatus = t.motorStatus ∧ s.stepperOut = t.stepperOut := by
  simpa only [motorView, shutterView, Prod.mk.injEq, and_assoc] using h

theorem stepperOut_setState (s : State) (m : panelMode) :
    (setState s m).stepperOut = s.stepperOut := by
  unfold setState
  split <;> rfl

theorem stepperOut_setBrightness (s : State) (level : Int) :
    (setBrightness s level).stepperOut = s.stepperOut := by
  unfold setBrightness
  split <;> rfl

theorem stepperOut_setShutter (s : State) (val : shutterStatuses) :
    (setShutter s val).stepperOut = s.stepperOut := by
  unfold setShutter
  repeat' split
  all_goals rfl

theorem stepperOut_doEncoder (s : State) (same : Bool) :
    (doEncoder s same).stepperOut = s.stepperOut := by
  unfold doEncoder
  split <;> rfl

theorem stepperOut_foldl_doEncoder (l : List Bool) (s : State) :
    (l.foldl doEncoder s).stepperOut = s.stepperOut := by
  induction l generalizing s with
  | nil => rfl
  | cons b l ih => rw [List.foldl_cons, ih, stepperOut_doEncoder]

theorem stepperOut_processEncoder (s : State) (button : Bool) :
    (processEncoder s button).stepperOut = s.stepperOut := by
  unfold processEncoder
  lift_lets
  intro buttonState s1 t1 t2 s2 s3 t3 t4 s4 t5 t6 s5
  have h1 : s1.stepperOut = s.stepperOut := by
    simp only [s1]; split <;> rfl
  have ht2 : t2.stepperOut = s1.stepperOut := by
    simp only [t2, stepperOut_setState]
  have h2 : s2.stepperOut = s1.stepperOut := by
    simp only [s2]
    repeat' split
    all_goals first | rfl | simp only [stepperOut_setBrightness, ht2]
  have h4 : s4.stepperOut = s2.stepperOut := by
    have ht4 : t4.stepperOut = s2.stepperOut := by
      simp only [t4]; split <;> rfl
    simp only [s4]
    split
    · rw [stepperOut_setBrightness, ht4]
    · rfl
  have h5 : s5.stepperOut = s4.stepperOut := by
    have ht6 : t6.stepperOut = s4.stepperOut := by
      simp only [t6]; split <;> rfl
    simp only [s5]
    split
    · rw [stepperOut_setBrightness, ht6]
    · rfl
  show s5.stepperOut = s.stepperOut
  rw [h5, h4, h2, h1]

theorem stepperOut_dispatch4 (s : State) (c : Char) (d : List Char) :
    (dispatch4 s c d).stepperOut = s.stepperOut := by
  unfold dispatch4
  split
  case h_6 =>
    simp only [serialWrite]
    split
    · rw [stepperOut_setBrightness]
    · rfl
  all_goals
    simp only [serialWrite, stepperOut_setShutter, stepperOut_setBrightness]

theorem stepperOut_version4 (s : State) : (version4 s).stepperOut = s.stepperOut := by
  rcases Nat.lt_or_ge s.serialIn.length 6 with h6 | h6
  · rw [version4_idle s h6]
  · obtain ⟨_, _, _, _, _, _, _, _, _, _, u11, _⟩ := untouched_forced s
    rw [version4_of_frame s h6]
    show (dispatch4 _ _ _).stepperOut = _
    rw [stepperOut_dispatch4, u11]

theorem handleMotorFloat_serialIn (s : State) : (handleMotorFloat s).serialIn = s.serialIn := by
  unfold handleMotorFloat
  simp only
  repeat' split
  all_goals rfl

theorem motorView_handleMotorFloat_congr (s t : State) (h : motorView s = motorView t) :
    motorView (handleMotorFloat s) = motorView (handleMotorFloat t) := by
  obtain ⟨h1, h2, h3, h4, h5, h6⟩ := fields_of_motorView s t h
  unfold handleMotorFloat
  simp only [h2, h3, h4]
  repeat' split
  all_goals simp [motorView, shutterView, h1, h2, h3, h4, h5, h6]

theorem motorView_iterate_congr (n : ℕ) (s t : State) (h : motorView s = motorView t) :
    motorView (handleMotorFloat^[n] s) = motorView (handleMotorFloat^[n] t) := by
  induction n generalizing s t with
  | zero => exact h
  | succ n ih =>
    rw [Function.iterate_succ_apply, Function.iterate_succ_apply]
    exact ih _ _ (motorView_handleMotorFloat_congr s t h)

theorem loopFloat_v4 (s : State) (i : PassInput) (h : i.switch = false) :
    loopFloat s i = { handleMotorFloat (version4
        (processEncoder (receive (i.encoder.foldl doEncoder s) i.arrived) i.button)) with
      protocol := if pinLevel i.switchEnd = 1 then LEGACY else V4 } := by
  unfold loopFloat processSerialFloat
  rw [h]
  rfl

/-- Before the serial line is handled a pass of the loop has left the shutter,
the motor and the stepper alone. -/
theorem before_serial_motor (s : State) (i : PassInput) :
    motorView (processEncoder (receive (i.encoder.foldl doEncoder s) i.arrived) i.button)
      = motorView s ∧
    (processEncoder (receive (i.encoder.foldl doEncoder s) i.arrived) i.button).serialIn
      = s.serialIn ++ i.arrived := by
  obtain ⟨a, b⟩ := before_serial s i
  refine ⟨motorView_eq _ _ a ?_, b⟩
  rw [stepperOut_processEncoder]
  show (i.encoder.foldl doEncoder s).stepperOut = _
  rw [stepperOut_foldl_doEncoder]

/-- A V4 pass of the loop that receives nothing: one call of `handleMotorFloat`. -/
theorem pass_idle_float (s t : State) (i : PassInput) (hsw : i.switch = false)
    (ha : i.arrived = []) (hin : s.serialIn = []) (hv : motorView s = motorView t) :
    motorView (loopFloat s i) = motorView (handleMotorFloat t) ∧
    (loopFloat s i).serialIn = [] := by
  obtain ⟨a, b⟩ := before_serial_motor s i
  have b' : (processEncoder (receive (i.encoder.foldl doEncoder s) i.arrived)
      i.button).serialIn = [] := by rw [b, hin, ha]; rfl
  have h4 := version4_idle
    (processEncoder (receive (i.encoder.foldl doEncoder s) i.arrived) i.button)
    (by rw [b']; decide)
  rw [loopFloat_v4 s i hsw, h4]
  constructor
  · show motorView (handleMotorFloat _) = _
    exact motorView_handleMotorFloat_congr _ _ (a.trans hv)
  · show (handleMotorFloat _).serialIn = _
    rw [handleMotorFloat_serialIn, b']

/-- A V4 pass of the loop that receives the Open or the Close command:
`setShutter` and one call of `handleMotorFloat`. -/
theorem pass_command_float (s : State) (i : PassInput) (hsw : i.switch = false)
    (hin : s.serialIn = []) :
    (i.arrived = ">OOOO\r".toList →
      motorView (loopFloat s i) = motorView (handleMotorFloat (setShutter s OPEN)) ∧
      (loopFloat s i).serialIn = []) ∧
    (i.arrived = ">COOO\r".toList →
      motorView (loopFloat s i) = motorView (handleMotorFloat (setShutter s CLOSED)) ∧
      (loopFloat s i).serialIn = []) := by
  obtain ⟨a, b⟩ := before_serial_motor s i
  obtain ⟨a1, a2, a3, a4, a5, a6⟩ := fields_of_motorView _ _ a
  have hsv : shutterView
      (processEncoder (receive (i.encoder.foldl doEncoder s) i.arrived) i.button)
      = shutterView s := (before_serial s i).1
  rw [loopFloat_v4 s i hsw]
  constructor
  · intro ha
    have b' : (processEncoder (receive (i.encoder.foldl doEncoder s) i.arrived)
        i.button).serialIn = ">OOOO\r".toList := by rw [b, hin, ha]; rfl
    have h6 : 6 ≤ (processEncoder (receive (i.encoder.foldl doEncoder s) i.arrived)
        i.button).serialIn.length := by rw [b']; decide
    have hc : cmdChar (frame4 (processEncoder (receive (i.encoder.foldl doEncoder s) i.arrived)
        i.button)) = 'O' := by rw [frame4, b']; decide
    constructor
    · show motorView (handleMotorFloat _) = _
      apply motorView_handleMotorFloat_congr
      apply motorView_eq
      · rw [shutterView_version4 _ h6, if_pos hc]
        exact shutterView_setShutter_congr _ _ OPEN hsv
      · rw [stepperOut_version4, stepperOut_setShutter, a6]
    · show (handleMotorFloat _).serialIn = _
      rw [handleMotorFloat_serialIn, version4_serialIn, if_pos h6]
  · intro ha
    have b' : (processEncoder (receive (i.encoder.foldl doEncoder s) i.arrived)
        i.button).serialIn = ">COOO\r".toList := by rw [b, hin, ha]; rfl
    have h6 : 6 ≤ (processEncoder (receive (i.encoder.foldl doEncoder s) i.arrived)
        i.button).serialIn.length := by rw [b']; decide
    have hc : cmdChar (frame4 (processEncoder (receive (i.encoder.foldl doEncoder s) i.arrived)
        i.button)) = 'C' := by rw [frame4, b']; decide
    constructor
    · show motorView (handleMotorFloat _) = _
      apply motorView_handleMotorFloat_congr
      apply motorView_eq
      · rw [shutterView_version4 _ h6, if_neg (by rw [hc]; decide), if_pos hc]
        exact shutterView_setShutter_congr _ _ CLOSED hsv
      · rw [stepperOut_version4, stepperOut_setShutter, a6]
    · show (handleMotorFloat _).serialIn = _
      rw [handleMotorFloat_serialIn, version4_serialIn, if_pos h6]

/-- V4 passes of the loop that receive nothing: as many calls of
`handleMotorFloat`. -/
theorem run_idle_float (n : ℕ) (ps : List PassInput) (s t : State)
    (hps : ∀ p ∈ ps, p.switch = false)
    (hmap : ps.map (fun p => p.arrived) = List.replicate n [])
    (hin : s.serialIn = []) (hv : motorView s = motorView t) :
    motorView (runLoopFloat s ps) = motorView (handleMotorFloat^[n] t) ∧
    (runLoopFloat s ps).serialIn = [] := by
  induction n generalizing ps s t with
  | zero =>
    have : ps = [] := by simpa using hmap
    subst this
    exact ⟨hv, hin⟩
  | succ n ih =>
    cases ps with
    | nil => simp at hmap
    | cons p ps =>
      rw [List.map_cons, List.replicate_succ, List.cons.injEq] at hmap
      obtain ⟨a, b⟩ := pass_idle_float s t p (hps p (List.mem_cons_self _ _)) hmap.1 hin hv
      rw [runLoopFloat, Function.iterate_succ_apply]
      exact ih ps _ _ (fun q hq => hps q (List.mem_cons_of_mem _ hq)) hmap.2 b a

/-- V4 passes of the loop of which the first receives the Open or the Close
command and the others nothing: `setShutter` and as many calls of
`handleMotorFloat` as passes. -/
theorem segment_float (n : ℕ) (ps : List PassInput) (s : State)
    (hps : ∀ p ∈ ps, p.switch = false) (hin : s.serialIn = []) :
    (ps.map (fun p => p.arrived) = ">OOOO\r".toList :: List.replicate n [] →
      motorView (runLoopFloat s ps) = motorView (handleMotorFloat^[n + 1] (setShutter s OPEN)) ∧
      (runLoopFloat s ps).serialIn = []) ∧
    (ps.map (fun p => p.arrived) = ">COOO\r".toList :: List.replicate n [] →
      motorView (runLoopFloat s ps)
        = motorView (handleMotorFloat^[n + 1] (setShutter s CLOSED)) ∧
      (runLoopFloat s ps).serialIn = []) := by
  constructor
  · intro hmap
    cases ps with
    | nil => simp at hmap
    | cons p ps =>
      rw [List.map_cons, List.cons.injEq] at hmap
      obtain ⟨a, b⟩ := (pass_command_float s p (hps p (List.mem_cons_self _ _)) hin).1 hmap.1
      rw [runLoopFloat, Function.iterate_succ_apply]
      exact run_idle_float n ps _ _ (fun q hq => hps q (List.mem_cons_of_mem _ hq)) hmap.2 b a
  · intro hmap
    cases ps with
    | nil => simp at hmap
    | cons p ps =>
      rw [List.map_cons, List.cons.injEq] at hmap
      obtain ⟨a, b⟩ := (pass_command_float s p (hps p (List.mem_cons_self _ _)) hin).2 hmap.1
      rw [runLoopFloat, Function.iterate_succ_apply]
      exact run_idle_float n ps _ _ (fun q hq => hps q (List.mem_cons_of_mem _ hq)) hmap.2 b a

/-! ## Interrupted movements in binary32 -/

/-- An Open command in a state with the cover CLOSED at angle 0, `k` calls of
`handleMotorFloat`, a Close command and `m ≥ k + 1` further calls. -/
theorem open_close_float (k m : ℕ) (hk1 : 1 ≤ k) (hk2 : k < 510) (hm : k + 1 ≤ m)
    (s r : State) (h0 : s.currentAngle = 0) (hc : s.coverStatus = CLOSED)
    (hr : motorView r = motorView (handleMotorFloat^[k] (setShutter s OPEN))) :
    (handleMotorFloat^[m] (setShutter r CLOSED)).coverStatus = CLOSED ∧
    (handleMotorFloat^[m] (setShutter r CLOSED)).motorDirection = NONE ∧
    (handleMotorFloat^[m] (setShutter r CLOSED)).motorStatus = STOPPED ∧
    -18 / 100 < (handleMotorFloat^[m] (setShutter r CLOSED)).currentAngle ∧
    (handleMotorFloat^[m] (setShutter r CLOSED)).currentAngle ≤ 0 ∧
    ((handleMotorFloat^[m] (setShutter r CLOSED)).stepperOut
        = s.stepperOut ++ List.replicate k 1 ++ List.replicate k (-1) ∨
      (handleMotorFloat^[m] (setShutter r CLOSED)).stepperOut
        = s.stepperOut ++ List.replicate k 1 ++ List.replicate (k + 1) (-1)) := by
  obtain ⟨A1, A2, A3, A4⟩ := open_then_close_angles k hk1 (by omega)
  have e1 : setShutter s OPEN = { s with motorDirection := OPENING, targetAngle := 90 } :=
    setShutter_open s (by rw [hc]; decide)
  obtain ⟨_, _, oc, oo, orun⟩ := opening_run_float k (setShutter s OPEN) (by rw [e1]) (by rw [e1])
    (fun i hi => by rw [e1]; show upAngle i s.currentAngle < 90; rw [h0]; exact A1 i hi)
  obtain ⟨r1, _, _, r4, _, r6⟩ := fields_of_motorView _ _ hr
  have hcur : r.currentAngle = upAngle k 0 := by
    rw [r4, oc, e1]; show upAngle k s.currentAngle = _; rw [h0]
  have hout : r.stepperOut = s.stepperOut ++ List.replicate k 1 := by
    rw [r6, oo, e1]
  have e2 : setShutter r CLOSED = { r with motorDirection := CLOSING, targetAngle := 0 } :=
    setShutter_closed r (by rw [r1, (orun hk1).1]; decide)
  have c1 : (setShutter r CLOSED).motorDirection = CLOSING := by rw [e2]
  have c2 : (setShutter r CLOSED).targetAngle = 0 := by rw [e2]
  have c3 : (setShutter r CLOSED).currentAngle = upAngle k 0 := by rw [e2]; exact hcur
  have c4 : (setShutter r CLOSED).stepperOut = s.stepperOut ++ List.replicate k 1 := by
    rw [e2]; exact hout
  have ek : k - 1 + 1 = k := Nat.sub_add_cancel hk1
  rcases le_or_lt (downAngle k (upAngle k 0)) 0 with hle | hpos
  · obtain ⟨d1, d2, d3, _, d5, d6⟩ := closing_lands_float (k - 1) (setShutter r CLOSED) c1 c2
      (fun i hi => by rw [c3]; exact A2 i (by omega)) (by rw [c3, ek]; exact hle) m (by omega)
    rw [c3, ek] at d5
    rw [c4, ek] at d6
    exact ⟨d1, d2, d3, by rw [d5]; exact A4, by rw [d5]; exact hle, Or.inl d6⟩
  · obtain ⟨B1, B2⟩ := A3 hpos
    obtain ⟨d1, d2, d3, _, d5, d6⟩ := closing_lands_float k (setShutter r CLOSED) c1 c2
      (fun i hi => by
        rw [c3]
        rcases Nat.lt_or_ge i k with h | h
        · exact A2 i (by omega)
        · have : i = k := by omega
          rw [this]; exact hpos)
      (by rw [c3]; exact B1) m hm
    rw [c3] at d5
    rw [c4] at d6
    exact ⟨d1, d2, d3, by rw [d5]; exact B2, by rw [d5]; exact B1, Or.inr d6⟩

/-- A Close command in a state with the cover OPEN at an angle from 90 to 90.1,
`k` calls of `handleMotorFloat`, an Open command and `m ≥ k + 1` further
calls. -/
theorem close_open_float (k m : ℕ) (hk1 : 1 ≤ k) (hk2 : k < 510) (hm : k + 1 ≤ m)
    (s r : State) (h1 : 90 ≤ s.currentAngle) (h2 : s.currentAngle ≤ 901 / 10)
    (hc : s.coverStatus = OPEN)
    (hr : motorView r = motorView (handleMotorFloat^[k] (setShutter s CLOSED))) :
    (handleMotorFloat^[m] (setShutter r OPEN)).coverStatus = OPEN ∧
    (handleMotorFloat^[m] (setShutter r OPEN)).motorDirection = NONE ∧
    (handleMotorFloat^[m] (setShutter r OPEN)).motorStatus = STOPPED ∧
    90 ≤ (handleMotorFloat^[m] (setShutter r OPEN)).currentAngle ∧
    (handleMotorFloat^[m] (setShutter r OPEN)).currentAngle < 9018 / 100 ∧
    ((handleMotorFloat^[m] (setShutter r OPEN)).stepperOut
        = s.stepperOut ++ List.replicate k (-1) ++ List.replicate k 1 ∨
      (handleMotorFloat^[m] (setShutter r OPEN)).stepperOut
        = s.stepperOut ++ List.replicate k (-1) ++ List.replicate (k + 1) 1) := by
  obtain ⟨A1, A2, A3, A4⟩ := close_then_open_angles k hk1 (by omega) s.currentAngle h1 h2
  have e1 : setShutter s CLOSED = { s with motorDirection := CLOSING, targetAngle := 0 } :=
    setShutter_closed s (by rw [hc]; decide)
  obtain ⟨_, _, oc, oo, orun⟩ := closing_run_float k (setShutter s CLOSED) (by rw [e1])
    (by rw [e1]) (fun i hi => by rw [e1]; exact A1 i hi)
  obtain ⟨r1, _, _, r4, _, r6⟩ := fields_of_motorView _ _ hr
  have hcur : r.currentAngle = downAngle k s.currentAngle := by
    rw [r4, oc, e1]
  have hout : r.stepperOut = s.stepperOut ++ List.replicate k (-1) := by
    rw [r6, oo, e1]
  have e2 : setShutter r OPEN = { r with motorDirection := OPENING, targetAngle := 90 } :=
    setShutter_open r (by rw [r1, (orun hk1).1]; decide)
  have c1 : (setShutter r OPEN).motorDirection = OPENING := by rw [e2]
  have c2 : (setShutter r OPEN).targetAngle = 90 := by rw [e2]
  have c3 : (setShutter r OPEN).currentAngle = downAngle k s.currentAngle := by
    rw [e2]; exact hcur
  have c4 : (setShutter r OPEN).stepperOut = s.stepperOut ++ List.replicate k (-1) := by
    rw [e2]; exact hout
  have ek : k - 1 + 1 = k := Nat.sub_add_cancel hk1
  rcases le_or_lt 90 (upAngle k (downAngle k s.currentAngle)) with hge | hlt
  · obtain ⟨d1, d2, d3, _, d5, d6⟩ := opening_lands_float (k - 1) (setShutter r OPEN) c1 c2
      (fun i hi => by rw [c3]; exact A2 i (by omega)) (by rw [c3, ek]; exact hge) m (by omega)
    rw [c3, ek] at d5
    rw [c4, ek] at d6
    exact ⟨d1, d2, d3, by rw [d5]; exact hge, by rw [d5]; exact A4, Or.inl d6⟩
  · obtain ⟨B1, B2⟩ := A3 hlt
    obtain ⟨d1, d2, d3, _, d5, d6⟩ := opening_lands_float k (setShutter r OPEN) c1 c2
      (fun i hi => by
        rw [c3]
        rcases Nat.lt_or_ge i k with h | h
        · exact A2 i (by omega)
        · have : i = k := by omega
          rw [this]; exact hlt)
      (by rw [c3]; exact B1) m hm
    rw [c3] at d5
    rw [c4] at d6
    exact ⟨d1, d2, d3, by rw [d5]; exact B1, by rw [d5]; exact B2, Or.inr d6⟩

/-! ## Reachable states of the shutter in binary32 -/

theorem shutterReachFloat_iterate (n : ℕ) (s : State) (h : ShutterReachFloat s) :
    ShutterReachFloat (handleMotorFloat^[n] s) := by
  induction n with
  | zero => exact h
  | succ n ih =>
    rw [Function.iterate_succ_apply']
    exact ShutterReachFloat.advance _ ih

/-! ## Movements computed in binary32 -/

theorem climb_spec (bound : Int) (k : ℕ) (n a : Int) (h : climb bound k n = some a) :
    (∀ i, i < k → (fun z => roundUnits (z + stepUnits))^[i] n < bound) ∧
    (fun z => roundUnits (z + stepUnits))^[k] n = a := by
  induction k generalizing n with
  | zero =>
    simp only [climb, Option.some.injEq] at h
    exact ⟨fun i hi => absurd hi (Nat.not_lt_zero i), h⟩
  | succ k ih =>
    unfold climb at h
    split at h
    · rename_i hlt
      obtain ⟨a1, a2⟩ := ih _ h
      refine ⟨fun i hi => ?_, by rw [Function.iterate_succ_apply]; exact a2⟩
      cases i with
      | zero => exact hlt
      | succ i =>
        rw [Function.iterate_succ_apply]
        exact a1 i (by omega)
    · exact absurd h (by simp)

theorem descend_spec (bound : Int) (k : ℕ) (n a : Int) (h : descend bound k n = some a) :
    (∀ i, i < k → bound < (fun z => roundUnits (z - stepUnits))^[i] n) ∧
    (fun z => roundUnits (z - stepUnits))^[k] n = a := by
  induction k generalizing n with
  | zero =>
    simp only [descend, Option.some.injEq] at h
    exact ⟨fun i hi => absurd hi (Nat.not_lt_zero i), h⟩
  | succ k ih =>
    unfold descend at h
    split at h
    · rename_i hlt
      obtain ⟨a1, a2⟩ := ih _ h
      refine ⟨fun i hi => ?_, by rw [Function.iterate_succ_apply]; exact a2⟩
      cases i with
      | zero => exact hlt
      | succ i =>
        rw [Function.iterate_succ_apply]
        exact a1 i (by omega)
    · exact absurd h (by simp)

set_option maxRecDepth 100000 in
/-- The stored step is `11854363 / 2 ^ 26`. -/
theorem stepFloat_eq : stepFloat = (stepUnits : ℚ) / 2 ^ 149 := by
  have hf : ⌊(360 / (STEPS : ℚ)) * 2 ^ 149⌋
      = (126057205440173100387876091511731660720752891 : Int) := by
    rw [Int.floor_eq_iff]
    unfold STEPS
    constructor <;> norm_num
  have hr : roundUnits 126057205440173100387876091511731660720752891 = stepUnits := by
    decide!
  unfold stepFloat roundFloat
  rw [hf, hr]

theorem upAngle_ofUnits (k : ℕ) (n : Int) :
    upAngle k ((n : ℚ) / 2 ^ 149)
      = (((fun z => roundUnits (z + stepUnits))^[k] n : Int) : ℚ) / 2 ^ 149 := by
  induction k with
  | zero => rfl
  | succ k ih =>
    rw [upAngle_succ, ih, Function.iterate_succ_apply', stepFloat_eq, ← add_div,
      ← Int.cast_add, roundFloat_ofUnits]

theorem downAngle_ofUnits (k : ℕ) (n : Int) :
    downAngle k ((n : ℚ) / 2 ^ 149)
      = (((fun z => roundUnits (z - stepUnits))^[k] n : Int) : ℚ) / 2 ^ 149 := by
  induction k with
  | zero => rfl
  | succ k ih =>
    rw [downAngle_succ, ih, Function.iterate_succ_apply', stepFloat_eq, ← sub_div,
      ← Int.cast_sub, roundFloat_ofUnits]

theorem ofUnits_lt_iff (a b : Int) : (a : ℚ) / 2 ^ 149 < (b : ℚ) / 2 ^ 149 ↔ a < b := by
  rw [div_lt_div_iff_of_pos_right (by positivity), Int.cast_lt]

set_option maxRecDepth 1000000 in
/-- The 510 opening steps from 0 in units of `2 ^ (-149)`: the angle stays below
90 degrees for 509 steps and is `11808033 / 2 ^ 17` after the 510th. -/
theorem climb_510 : climb (90 * 2 ^ 149) 510 0 = some (11808033 * 2 ^ 132) := by
  decide!

set_option maxRecDepth 1000000 in
/-- The 511 closing steps from the open position in units of `2 ^ (-149)`: the
angle stays above 0 for 510 steps and is `-11854225 / 2 ^ 26` after the
511th. -/
theorem descend_511 :
    descend 0 511 (11808033 * 2 ^ 132) = some (-11854225 * 2 ^ 123) := by
  decide!

theorem ninety_ofUnits : (90 : ℚ) = ((90 * 2 ^ 149 : Int) : ℚ) / 2 ^ 149 := by
  simp only [Int.cast_mul, Int.cast_pow, Int.cast_ofNat]
  rw [mul_div_assoc, div_self (by positivity), mul_one]

theorem setShutter_closed_fields (s : State) (h : s.coverStatus ≠ CLOSED) :
    (setShutter s CLOSED).motorDirection = CLOSING ∧ (setShutter s CLOSED).targetAngle = 0 ∧
    (setShutter s CLOSED).currentAngle = s.currentAngle ∧
    (setShutter s CLOSED).stepperOut = s.stepperOut := by
  rw [setShutter_closed s h]
  exact ⟨rfl, rfl, rfl, rfl⟩

theorem setShutter_open_fields (s : State) (h : s.coverStatus ≠ OPEN) :
    (setShutter s OPEN).motorDirection = OPENING ∧ (setShutter s OPEN).targetAngle = 90 ∧
    (setShutter s OPEN).currentAngle = s.currentAngle ∧
    (setShutter s OPEN).stepperOut = s.stepperOut := by
  rw [setShutter_open s h]
  exact ⟨rfl, rfl, rfl, rfl⟩

theorem units_scale (a : ℚ) (p q : ℕ) : a * 2 ^ p / 2 ^ (q + p) = a / 2 ^ q := by
  rw [pow_add, mul_div_mul_right a (2 ^ q) (pow_ne_zero p (two_ne_zero : (2 : ℚ) ≠ 0))]

theorem zero_ofUnits : (0 : ℚ) = ((0 : Int) : ℚ) / 2 ^ 149 := by
  rw [Int.cast_zero, zero_div]

/-- The state after the Open command and 510 advances in binary32: the cover is
OPEN at `11808033 / 2 ^ 17`. -/
theorem openedFloat_facts :
    openedFloat.coverStatus = OPEN ∧ openedFloat.motorDirection = NONE ∧
    openedFloat.motorStatus = STOPPED ∧ openedFloat.targetAngle = 90 ∧
    openedFloat.currentAngle = ((11808033 * 2 ^ 132 : Int) : ℚ) / 2 ^ 149 ∧
    openedFloat.stepperOut = List.replicate 510 1 := by
  obtain ⟨c1, c2⟩ := climb_spec _ _ _ _ climb_510
  obtain ⟨e1, e2, e3, e4⟩ := setShutter_open_fields initialState (by decide)
  have cur0 : (setShutter initialState OPEN).currentAngle = ((0 : Int) : ℚ) / 2 ^ 149 :=
    e3.trans zero_ofUnits
  obtain ⟨d1, d2, d3, d4, d5, d6⟩ := opening_lands_float 509 (setShutter initialState OPEN)
    e1 e2
    (fun i hi => by
      rw [cur0, upAngle_ofUnits, ninety_ofUnits, ofUnits_lt_iff]
      exact c1 i (by omega))
    (by
      rw [cur0, upAngle_ofUnits, c2, ninety_ofUnits]
      exact le_of_lt ((ofUnits_lt_iff _ _).mpr (by norm_num)))
    510 le_rfl
  rw [cur0, upAngle_ofUnits, c2] at d5
  refine ⟨d1, d2, d3, d4, d5, ?_⟩
  rw [show openedFloat = handleMotorFloat^[510] (setShutter initialState OPEN) from rfl, d6, e4]
  rfl


set_option maxRecDepth 1000000 in
/-- The 100 opening steps from 0 in units of `2 ^ (-149)`. -/
theorem climb_100 : climb (90 * 2 ^ 149) 100 0 = some (9261211 * 2 ^ 130) := by
  decide!

set_option maxRecDepth 1000000 in
/-- The 100 closing steps that follow them: the angle is still above 0. -/
theorem descend_100 : descend 0 100 (9261211 * 2 ^ 130) = some (5 * 2 ^ 124) := by
  decide!

set_option maxRecDepth 1000000 in
/-- The 101 closing steps that follow them: the angle is below 0. -/
theorem descend_101 :
    descend 0 101 (9261211 * 2 ^ 130) = some (-11854353 * 2 ^ 123) := by
  decide!

/-- An opening from the resting closed state interrupted after 100 steps: after
100 closing steps the motor is still CLOSING and RUNNING at the angle
`5 / 2 ^ 25`; the 101st closing step rests with the cover CLOSED at
`-11854353 / 2 ^ 26`.  The rounded sums of 100 steps up and 100 steps down do
not cancel. -/
theorem open_100_close_100 :
    (handleMotorFloat^[100]
      (setShutter (handleMotorFloat^[100] (setShutter closedRest OPEN)) CLOSED)).motorDirection
        = CLOSING ∧
    (handleMotorFloat^[100]
      (setShutter (handleMotorFloat^[100] (setShutter closedRest OPEN)) CLOSED)).motorStatus
        = RUNNING ∧
    (handleMotorFloat^[100]
      (setShutter (handleMotorFloat^[100] (setShutter closedRest OPEN)) CLOSED)).currentAngle
        = 5 / 2 ^ 25 ∧
    (handleMotorFloat^[101]
      (setShutter (handleMotorFloat^[100] (setShutter closedRest OPEN)) CLOSED)).coverStatus
        = CLOSED ∧
    (handleMotorFloat^[101]
      (setShutter (handleMotorFloat^[100] (setShutter closedRest OPEN)) CLOSED)).currentAngle
        = -11854353 / 2 ^ 26 := by
  obtain ⟨A1, _⟩ := open_then_close_angles 100 (by decide) (by decide)
  obtain ⟨_, u2⟩ := climb_spec _ _ _ _ climb_100
  obtain ⟨_, v2⟩ := descend_spec _ _ _ _ descend_100
  obtain ⟨w1, w2⟩ := descend_spec _ _ _ _ descend_101
  obtain ⟨e1, e2, e3, _⟩ := setShutter_open_fields closedRest (by decide)
  have cur0 : (setShutter closedRest OPEN).currentAngle = ((0 : Int) : ℚ) / 2 ^ 149 :=
    e3.trans zero_ofUnits
  obtain ⟨_, _, oc, _, orun⟩ := opening_run_float 100 (setShutter closedRest OPEN) e1 e2
    (fun i hi => by
      rw [cur0, ← zero_ofUnits]
      exact A1 i hi)
  rw [cur0, upAngle_ofUnits, u2] at oc
  obtain ⟨f1, f2, f3, _⟩ := setShutter_closed_fields
    (handleMotorFloat^[100] (setShutter closedRest OPEN)) (by rw [(orun (by decide)).1]; decide)
  have cur1 := f3.trans oc
  have hgt : ∀ i, i ≤ 100 → 0 < downAngle i
      (setShutter (handleMotorFloat^[100] (setShutter closedRest OPEN)) CLOSED).currentAngle := by
    intro i hi
    rw [cur1, downAngle_ofUnits, zero_ofUnits, ofUnits_lt_iff]
    exact w1 i (by omega)
  have h101 : downAngle 101
      (setShutter (handleMotorFloat^[100] (setShutter closedRest OPEN)) CLOSED).currentAngle
      = -11854353 / 2 ^ 26 := by
    rw [cur1, downAngle_ofUnits, w2]
    simp only [Int.cast_mul, Int.cast_pow, Int.cast_ofNat, Int.cast_neg]
    exact units_scale _ 123 26
  obtain ⟨r1, _, r3, _, r5⟩ := closing_run_float 100 _ f1 f2 hgt
  obtain ⟨d1, _, _, _, d5, _⟩ := closing_lands_float 100 _ f1 f2 hgt
    (by rw [h101]; norm_num) 101 le_rfl
  refine ⟨r1, (r5 (by decide)).2, ?_, d1, d5.trans h101⟩
  rw [r3, cur1, downAngle_ofUnits, v2]
  simp only [Int.cast_mul, Int.cast_pow, Int.cast_ofNat]
  exact units_scale _ 124 25

/-! ## The claims C7 and C20 -/

/-- C7: under the V4 dialect, with the `float` arithmetic of the firmware, for
every `k` with `1 ≤ k < 510`: from a state at angle 0 with the cover CLOSED,
passes of the loop that receive an Open command and make `k` advances in all,
followed by passes that receive a Close command and make `m ≥ k + 1` advances in
all, end with the cover CLOSED, the direction NONE and the motor STOPPED, at an
angle from -0.18 to 0, after `k` opening steps and `k` or `k + 1` closing steps
of the stepper; and from a state with the cover OPEN at an angle from 90 to 90.1
(the open rest position is 90.0881), a Close command interrupted after `k`
advances by an Open command ends, after `m ≥ k + 1` further advances, with the
cover OPEN, the direction NONE and the motor STOPPED, at an angle from 90 to
90.18, after `k` closing steps and `k` or `k + 1` opening steps.  Encoder and
button input of the passes is arbitrary. -/
theorem C7_last_command_wins (k m : ℕ) (hk1 : 1 ≤ k) (hk2 : k < 510) (hm : k + 1 ≤ m)
    (s : State) (ps qs : List PassInput) (hin : s.serialIn = [])
    (hps : ∀ p ∈ ps, p.switch = false) (hqs : ∀ q ∈ qs, q.switch = false) :
    (s.currentAngle = 0 → s.coverStatus = CLOSED →
      ps.map (fun p => p.arrived) = ">OOOO\r".toList :: List.replicate (k - 1) [] →
      qs.map (fun q => q.arrived) = ">COOO\r".toList :: List.replicate (m - 1) [] →
      (runLoopFloat (runLoopFloat s ps) qs).coverStatus = CLOSED ∧
      (runLoopFloat (runLoopFloat s ps) qs).motorDirection = NONE ∧
      (runLoopFloat (runLoopFloat s ps) qs).motorStatus = STOPPED ∧
      -18 / 100 < (runLoopFloat (runLoopFloat s ps) qs).currentAngle ∧
      (runLoopFloat (runLoopFloat s ps) qs).currentAngle ≤ 0 ∧
      ((runLoopFloat (runLoopFloat s ps) qs).stepperOut
          = s.stepperOut ++ List.replicate k 1 ++ List.replicate k (-1) ∨
        (runLoopFloat (runLoopFloat s ps) qs).stepperOut
          = s.stepperOut ++ List.replicate k 1 ++ List.replicate (k + 1) (-1))) ∧
    (90 ≤ s.currentAngle → s.currentAngle ≤ 901 / 10 → s.coverStatus = OPEN →
      ps.map (fun p => p.arrived) = ">COOO\r".toList :: List.replicate (k - 1) [] →
      qs.map (fun q => q.arrived) = ">OOOO\r".toList :: List.replicate (m - 1) [] →
      (runLoopFloat (runLoopFloat s ps) qs).coverStatus = OPEN ∧
      (runLoopFloat (runLoopFloat s ps) qs).motorDirection = NONE ∧
      (runLoopFloat (runLoopFloat s ps) qs).motorStatus = STOPPED ∧
      90 ≤ (runLoopFloat (runLoopFloat s ps) qs).currentAngle ∧
      (runLoopFloat (runLoopFloat s ps) qs).currentAngle < 9018 / 100 ∧
      ((runLoopFloat (runLoopFloat s ps) qs).stepperOut
          = s.stepperOut ++ List.replicate k (-1) ++ List.replicate k 1 ∨
        (runLoopFloat (runLoopFloat s ps) qs).stepperOut
          = s.stepperOut ++ List.replicate k (-1) ++ List.replicate (k + 1) 1)) := by
  have ek : k - 1 + 1 = k := Nat.sub_add_cancel hk1
  have em : m - 1 + 1 = m := Nat.sub_add_cancel (by omega)
  constructor
  · intro h0 hc hp hq
    obtain ⟨v1, i1⟩ := (segment_float (k - 1) ps s hps hin).1 hp
    rw [ek] at v1
    obtain ⟨v2, _⟩ := (segment_float (m - 1) qs (runLoopFloat s ps) hqs i1).2 hq
    rw [em] at v2
    obtain ⟨d1, d2, d3, d4, d5, d6⟩ := open_close_float k m hk1 hk2 hm s _ h0 hc v1
    obtain ⟨g1, g2, _, g4, g5, g6⟩ := fields_of_motorView _ _ v2
    rw [g1, g2, g4, g5, g6]
    exact ⟨d1, d2, d3, d4, d5, d6⟩
  · intro h1 h2 hc hp hq
    obtain ⟨v1, i1⟩ := (segment_float (k - 1) ps s hps hin).2 hp
    rw [ek] at v1
    obtain ⟨v2, _⟩ := (segment_float (m - 1) qs (runLoopFloat s ps) hqs i1).1 hq
    rw [em] at v2
    obtain ⟨d1, d2, d3, d4, d5, d6⟩ := close_open_float k m hk1 hk2 hm s _ h1 h2 hc v1
    obtain ⟨g1, g2, _, g4, g5, g6⟩ := fields_of_motorView _ _ v2
    rw [g1, g2, g4, g5, g6]
    exact ⟨d1, d2, d3, d4, d5, d6⟩

/-- C7 (witness): the statement for `k = 1` and `m = 2`, at the resting closed
state for Open then Close and at the resting open state for Close then Open. -/
theorem C7_last_command_wins_witness :
    (runLoopFloat (runLoopFloat closedRest [v4Pass ">OOOO\r".toList])
      [v4Pass ">COOO\r".toList, v4Pass []]).coverStatus = CLOSED ∧
    (runLoopFloat (runLoopFloat openRestFloat [v4Pass ">COOO\r".toList])
      [v4Pass ">OOOO\r".toList, v4Pass []]).coverStatus = OPEN :=
  ⟨((C7_last_command_wins 1 2 (le_refl 1) (by decide) (le_refl 2) closedRest
      [v4Pass ">OOOO\r".toList] [v4Pass ">COOO\r".toList, v4Pass []] rfl
      (by intro p hp; rw [List.mem_singleton.mp hp]; rfl)
      (by intro p hp; simp only [List.mem_cons, List.mem_singleton, List.not_mem_nil,
            or_false] at hp; rcases hp with h | h <;> rw [h] <;> rfl)).1 rfl rfl rfl rfl).1,
   ((C7_last_command_wins 1 2 (le_refl 1) (by decide) (le_refl 2) openRestFloat
      [v4Pass ">COOO\r".toList] [v4Pass ">OOOO\r".toList, v4Pass []] rfl
      (by intro p hp; rw [List.mem_singleton.mp hp]; rfl)
      (by intro p hp; simp only [List.mem_cons, List.mem_singleton, List.not_mem_nil,
            or_false] at hp; rcases hp with h | h <;> rw [h] <;> rfl)).2
      (by unfold openRestFloat; norm_num) (by unfold openRestFloat; norm_num)
      rfl rfl rfl).1⟩

/-- C20 (counterexample): with the `float` arithmetic of the firmware the Open
command and 510 advances open the cover at `11808033 / 2 ^ 17` (about 90.0881
degrees); after the Close command 510 advances leave the motor CLOSING at an
angle above 0, and the 511th rests with the cover CLOSED at
`-11854225 / 2 ^ 26` (about -0.1766 degrees), one step more than the opening
made: the angle is below 0 and is no `k` steps of 360/2038 degrees. -/
theorem C20_full_cycle_rests_below_zero :
    ShutterReachFloat closedFloat ∧
    openedFloat.coverStatus = OPEN ∧ openedFloat.currentAngle = 11808033 / 2 ^ 17 ∧
    (handleMotorFloat^[510] (setShutter openedFloat CLOSED)).motorDirection = CLOSING ∧
    0 < (handleMotorFloat^[510] (setShutter openedFloat CLOSED)).currentAngle ∧
    closedFloat.coverStatus = CLOSED ∧ closedFloat.motorDirection = NONE ∧
    closedFloat.currentAngle = -11854225 / 2 ^ 26 ∧
    closedFloat.stepperOut = List.replicate 510 1 ++ List.replicate 511 (-1) ∧
    ¬ ∃ k : ℕ, k ≤ 510 ∧ closedFloat.currentAngle = (k : ℚ) * stepAngle := by
  obtain ⟨o1, o2, o3, o4, o5, o6⟩ := openedFloat_facts
  obtain ⟨c1, c2⟩ := descend_spec _ _ _ _ descend_511
  obtain ⟨e1, e2, e3, e4⟩ := setShutter_closed_fields openedFloat (by rw [o1]; decide)
  have cur0 : (setShutter openedFloat CLOSED).currentAngle
      = ((11808033 * 2 ^ 132 : Int) : ℚ) / 2 ^ 149 := e3.trans o5
  have out0 : (setShutter openedFloat CLOSED).stepperOut = List.replicate 510 1 :=
    e4.trans o6
  have hgt : ∀ i, i ≤ 510 → 0 < downAngle i (setShutter openedFloat CLOSED).currentAngle := by
    intro i hi
    rw [cur0, downAngle_ofUnits, zero_ofUnits, ofUnits_lt_iff]
    exact c1 i (by omega)
  have hle : downAngle 511 (setShutter openedFloat CLOSED).currentAngle
      = ((-11854225 * 2 ^ 123 : Int) : ℚ) / 2 ^ 149 := by
    rw [cur0, downAngle_ofUnits, c2]
  have hneg : ((-11854225 * 2 ^ 123 : Int) : ℚ) / 2 ^ 149 = -11854225 / 2 ^ 26 := by
    simp only [Int.cast_mul, Int.cast_pow, Int.cast_ofNat, Int.cast_neg]
    exact units_scale _ 123 26
  obtain ⟨r1, _, r3, _, _⟩ := closing_run_float 510 (setShutter openedFloat CLOSED)
    e1 e2 hgt
  obtain ⟨d1, d2, _, _, d5, d6⟩ := closing_lands_float 510 (setShutter openedFloat CLOSED)
    e1 e2 hgt (by rw [hle, hneg]; norm_num) 511 le_rfl
  have hc : closedFloat.currentAngle = -11854225 / 2 ^ 26 := by
    rw [show closedFloat = handleMotorFloat^[511] (setShutter openedFloat CLOSED) from rfl,
      d5, hle, hneg]
  refine ⟨shutterReachFloat_iterate _ _ (ShutterReachFloat.setClosed _
      (shutterReachFloat_iterate _ _ (ShutterReachFloat.setOpen _ ShutterReachFloat.init))),
    o1, ?_, r1, ?_, d1, d2, hc, ?_, ?_⟩
  · rw [o5]
    simp only [Int.cast_mul, Int.cast_pow, Int.cast_ofNat]
    exact units_scale _ 132 17
  · rw [r3]; exact hgt 510 le_rfl
  · rw [show closedFloat = handleMotorFloat^[511] (setShutter openedFloat CLOSED) from rfl,
      d6, out0]
  · rintro ⟨k, _, hk⟩
    rw [hc] at hk
    have hs : (0 : ℚ) < stepAngle := by unfold stepAngle STEPS; norm_num
    have h1 : (0 : ℚ) ≤ (k : ℚ) * stepAngle := mul_nonneg (Nat.cast_nonneg k) hs.le
    rw [← hk] at h1
    norm_num at h1

/-- C20 (amended): in every state reached from the initial state by
`setShutter(OPEN)`, `setShutter(CLOSED)` and `handleMotorFloat` in any order,
the angle lies between -0.18 and 90.18 degrees, the target angle is 0 or 90,
direction OPENING implies target 90 and direction CLOSING implies target 0. -/
theorem C20_angle_and_target (s : State) (h : ShutterReachFloat s) :
    -18 / 100 < s.currentAngle ∧ s.currentAngle < 9018 / 100 ∧
    (s.targetAngle = 0 ∨ s.targetAngle = 90) ∧
    (s.motorDirection = OPENING → s.targetAngle = 90) ∧
    (s.motorDirection = CLOSING → s.targetAngle = 0) := by
  obtain ⟨s1, s2⟩ := stepFloat_bounds
  induction h with
  | init =>
    refine ⟨?_, ?_, Or.inl rfl, fun h => absurd h (by decide), fun _ => rfl⟩
    · show (-18 / 100 : ℚ) < 0
      norm_num
    · show (0 : ℚ) < 9018 / 100
      norm_num
  | setOpen s _ ih =>
    obtain ⟨a, b, c, d, e⟩ := ih
    by_cases hc : s.coverStatus = OPEN
    · have : setShutter s OPEN = s := by
        unfold setShutter
        rw [if_neg (fun h => h.2 hc), if_neg (fun h => absurd h.1 (by decide))]
      rw [this]
      exact ⟨a, b, c, d, e⟩
    · rw [setShutter_open s hc]
      exact ⟨a, b, Or.inr rfl, fun _ => rfl, fun h => motorDirections.noConfusion h⟩
  | setClosed s _ ih =>
    obtain ⟨a, b, c, d, e⟩ := ih
    by_cases hc : s.coverStatus = CLOSED
    · have : setShutter s CLOSED = s := by
        unfold setShutter
        rw [if_neg (fun h => absurd h.1 (by decide)), if_neg (fun h => h.2 hc)]
      rw [this]
      exact ⟨a, b, c, d, e⟩
    · rw [setShutter_closed s hc]
      exact ⟨a, b, Or.inl rfl, fun h => motorDirections.noConfusion h, fun _ => rfl⟩
  | advance s _ ih =>
    obtain ⟨a, b, c, d, e⟩ := ih
    by_cases h1 : s.currentAngle < s.targetAngle ∧ s.motorDirection = OPENING
    · obtain ⟨h1a, h1b⟩ := h1
      have ht := d h1b
      rw [ht] at h1a
      have he : |s.currentAngle + stepFloat| ≤ 127 := by
        rw [abs_le]; constructor <;> linarith
      obtain ⟨r1, r2⟩ := abs_le.mp (roundFloat_err _ he)
      have n1 : (1 : ℚ) / 2 ^ 17 < 1 / 100000 := by norm_num
      have b1 : -18 / 100 < roundFloat (s.currentAngle + stepFloat) := by linarith
      have b2 : roundFloat (s.currentAngle + stepFloat) < 9018 / 100 := by linarith
      rcases lt_or_le (roundFloat (s.currentAngle + stepFloat)) s.targetAngle with h2 | h2
      · rw [handleMotorFloat_opening_step s (by rw [ht]; exact h1a) h1b h2]
        exact ⟨b1, b2, c, d, e⟩
      · rw [handleMotorFloat_opening_done s (by rw [ht]; exact h1a) h1b h2]
        exact ⟨b1, b2, c, fun h => motorDirections.noConfusion h, fun h => motorDirections.noConfusion h⟩
    · by_cases h3 : s.targetAngle < s.currentAngle ∧ s.motorDirection = CLOSING
      · obtain ⟨h3a, h3b⟩ := h3
        have ht := e h3b
        rw [ht] at h3a
        have he : |s.currentAngle - stepFloat| ≤ 127 := by
          rw [abs_le]; constructor <;> linarith
        obtain ⟨r1, r2⟩ := abs_le.mp (roundFloat_err _ he)
        have n1 : (1 : ℚ) / 2 ^ 17 < 1 / 100000 := by norm_num
        have b1 : -18 / 100 < roundFloat (s.currentAngle - stepFloat) := by linarith
        have b2 : roundFloat (s.currentAngle - stepFloat) < 9018 / 100 := by linarith
        rcases lt_or_le s.targetAngle (roundFloat (s.currentAngle - stepFloat)) with h4 | h4
        · rw [handleMotorFloat_closing_step s (by rw [ht]; exact h3a) h3b h4]
          exact ⟨b1, b2, c, d, e⟩
        · rw [handleMotorFloat_closing_done s (by rw [ht]; exact h3a) h3b h4]
          exact ⟨b1, b2, c, fun h => motorDirections.noConfusion h, fun h => motorDirections.noConfusion h⟩
      · rw [handleMotorFloat_idle s h1 h3]
        exact ⟨a, b, c, d, e⟩

/-- C20 (witness): the statement after `setShutter(OPEN)` and one advance. -/
theorem C20_angle_and_target_witness :
    -18 / 100 < (handleMotorFloat (setShutter initialState OPEN)).currentAngle ∧
    (handleMotorFloat (setShutter initialState OPEN)).currentAngle < 9018 / 100 :=
  ⟨(C20_angle_and_target _
      (ShutterReachFloat.advance _ (ShutterReachFloat.setOpen _ ShutterReachFloat.init))).1,
   (C20_angle_and_target _
      (ShutterReachFloat.advance _ (ShutterReachFloat.setOpen _ ShutterReachFloat.init))).2.1⟩

end AGFlatPanel
